import Mathlib

/-!
# Snowflake ID generator (jtejido/snowflake): embedding and verified properties

The Go sources `snowflake.go`, `utils.go`, `multi/snowflake.go` and
`single/snowflake.go` are embedded as pure Lean functions.

* An `int64` is the mathematical integer it denotes (an `Int` between `-2^63` and
  `2^63 - 1`); every arithmetic or bitwise operation of the source is one of the
  operations `add64`, `sub64`, ... below, which truncate to 64 bits the way Go does.
* A `time.Time` is the instant it denotes, in nanoseconds since the Unix epoch.
* The wall clock is the list of the successive values `time.Now()` returns; a call
  that needs a reading when none is left has not returned within the observed
  clock, and its result is `none`.
* The mutex `mu` of a worker is a flag; `Lock()` on a held mutex never returns, so
  the result of the call is `none` too.
* A byte is a natural number, a `string` or `[]byte` the list of its bytes; the functions
  `FormatInt`, `AppendInt`, `ParseUint` and `ParseInt` of the library package `strconv` are
  given for base 10 and 64 bits, which is how the sources call them.
-/

/-! ## 64-bit signed integers -/

/-- The `int64` that the 64 low bits of `x` denote (two's complement). -/
def wrap64 (x : Int) : Int := (x + 9223372036854775808) % 18446744073709551616 - 9223372036854775808

/-- The 64-bit two's complement pattern of `x`, as a natural number below `2^64`. -/
def toBits (x : Int) : Nat := (x % 18446744073709551616).toNat

/-- Go `x + y` on `int64`. -/
def add64 (x y : Int) : Int := wrap64 (x + y)

/-- Go `x - y` on `int64`. -/
def sub64 (x y : Int) : Int := wrap64 (x - y)

/-- Go `x * y` on `int64`. -/
def mul64 (x y : Int) : Int := wrap64 (x * y)

/-- Go `x / y` on `int64`, for a divisor that is not zero: the quotient truncated toward zero. -/
def div64 (x y : Int) : Int := wrap64 (Int.tdiv x y)

/-- Go `x << k` on `int64`: multiplication by `2^k`, truncated to 64 bits. -/
def shl64 (x : Int) (k : Nat) : Int := wrap64 (x * 2 ^ k)

/-- Go `x >> k` on `int64`: the arithmetic shift, which rounds toward minus infinity. -/
def shr64 (x : Int) (k : Nat) : Int := Int.fdiv x (2 ^ k)

/-- Go `x | y` on `int64`. -/
def or64 (x y : Int) : Int := wrap64 ((toBits x ||| toBits y : Nat) : Int)

/-- Go `x & y` on `int64`. -/
def and64 (x y : Int) : Int := wrap64 ((toBits x &&& toBits y : Nat) : Int)

/-- Go `x ^ y` on `int64`. -/
def xor64 (x y : Int) : Int := wrap64 ((toBits x ^^^ toBits y : Nat) : Int)

/-! ## Package `time` of the Go library (the part the sources use) -/

namespace time

/-- A `time.Time`: the instant, in nanoseconds since January 1, 1970 UTC. -/
abbrev Time := Int

/-- The library's `time.Unix(sec, nsec)`. -/
def Unix (sec nsec : Int) : Time := sec * 1000000000 + nsec

/-- The library's `t.UnixNano()`, an `int64`: the nanoseconds since the Unix epoch, wrapped
to 64 bits for the times (before 1678 or after 2262) whose count does not fit. -/
def Time.UnixNano (t : Time) : Int := wrap64 t

/-- The Unix time of `t` in milliseconds: the milliseconds elapsed since the Unix epoch,
rounded down, whatever the range of `t` (the library's `t.UnixMilli()`). The sources do not
call it; it is the time that `GetID` is specified to compare with `lastTimeStamp`. -/
def Time.UnixMilli (t : Time) : Int := t / 1000000

end time

/-! ## Package `strconv` of the Go library (the part the sources use) -/

/-! A byte is the natural number below 256 that it denotes; a Go `string` and a `[]byte` are
the list of their bytes, a `List Nat`. -/

namespace strconv

/-- The library's `ErrSyntax` and `ErrRange`. -/
inductive Err
  | ErrSyntax
  | ErrRange
  deriving DecidableEq, Repr

/-- The library's `*NumError` as `ParseInt` returns it: the text that was to be parsed and the
reason (the field `Func` is always `"ParseInt"`). -/
structure NumError where
  Num : List Nat
  Err : Err
  deriving DecidableEq, Repr

/-- The decimal digits of `u`, the most significant first, put in front of `acc`: the loop
`for u >= 10 { q := u / 10; i--; a[i] = byte('0' + u - q*10); u = q }; i--; a[i] = byte('0' + u)`
of the library. The first argument bounds the number of turns. -/
def formatBits : Nat → Nat → List Nat → List Nat
  | 0, _, acc => acc
  | fuel + 1, u, acc =>
    if 10 ≤ u then formatBits fuel (u / 10) ((48 + u % 10) :: acc) else (48 + u) :: acc

/-- The library's `strconv.FormatInt(i, 10)`: the digits of the magnitude `uint64(-i)`
(of `uint64(i)` when `i >= 0`), after a `-` when `i < 0`. -/
def FormatInt (i : Int) : List Nat :=
  if i < 0 then 45 :: formatBits (toBits (-i) + 1) (toBits (-i)) []
  else formatBits (toBits i + 1) (toBits i) []

/-- The library's `strconv.AppendInt(dst, i, 10)`. -/
def AppendInt (dst : List Nat) (i : Int) : List Nat := dst ++ FormatInt i

/-- The loop of `strconv.ParseUint(s, 10, 64)` over the bytes of `s`, from the value `n`:
a byte that is no decimal digit is a syntax error; `n >= cutoff` (`n*10` overflows) and
`n1 < n || n1 > maxVal` (`n + d` overflows) are range errors, with the value `maxVal`. -/
def parseUintLoop : Nat → List Nat → Nat × Option Err
  | n, [] => (n, none)
  | n, c :: s =>
    if 48 ≤ c ∧ c ≤ 57 then
      let d := c - 48
      if n ≥ 18446744073709551615 / 10 + 1 then (18446744073709551615, some Err.ErrRange)
      else
        let n := n * 10
        let n1 := (n + d) % 18446744073709551616
        if n1 < n ∨ n1 > 18446744073709551615 then (18446744073709551615, some Err.ErrRange)
        else parseUintLoop n1 s
    else (0, some Err.ErrSyntax)

/-- The library's `strconv.ParseUint(s, 10, 64)`. -/
def ParseUint (s : List Nat) : Nat × Option Err :=
  if s = [] then (0, some Err.ErrSyntax) else parseUintLoop 0 s

/-- The library's `strconv.ParseInt(s, 10, 64)`: the sign is picked off
(`if s[0] == '+' { s = s[1:] } else if s[0] == '-' { neg = true; s = s[1:] }`), the rest goes
through `ParseUint`, and the magnitude is checked against `1 << 63`. -/
def ParseInt (s : List Nat) : Int × Option NumError :=
  match s with
  | [] => (0, some ⟨s, Err.ErrSyntax⟩)
  | c :: rest =>
    let s0 := s
    let signed : Bool × List Nat :=
      if c = 43 then (false, rest) else if c = 45 then (true, rest) else (false, s)
    let neg := signed.1
    let s := signed.2
    let (un, err) := ParseUint s
    if err ≠ none ∧ err ≠ some Err.ErrRange then (0, some ⟨s0, Err.ErrSyntax⟩)
    else
      let cutoff : Nat := 9223372036854775808
      if neg = false ∧ un ≥ cutoff then (((cutoff - 1 : Nat) : Int), some ⟨s0, Err.ErrRange⟩)
      else if neg = true ∧ un > cutoff then (-((cutoff : Nat) : Int), some ⟨s0, Err.ErrRange⟩)
      else
        let n := wrap64 (un : Int)
        let n := if neg then wrap64 (-n) else n
        (n, none)

end strconv

/-! ## Package `snowflake` (snowflake.go, utils.go) -/

namespace snowflake

/-- `const TW_EPOCH int64 = 1288834974657` -/
def TW_EPOCH : Int := 1288834974657

/-- The expression `t.UnixNano() / 1000000` that `TilNextMillis`, `NextID` and `GetID` apply
to a time: the Unix time in milliseconds. -/
def millis (t : time.Time) : Int := div64 (time.Time.UnixNano t) 1000000

/-- The offset of the millisecond time `now` from `TW_EPOCH` fits the timestamp field:
`(now - TW_EPOCH) << 22` does not overflow an `int64`. -/
def offsetFits (now : Int) : Prop := -2 ^ 41 ≤ now - TW_EPOCH ∧ now - TW_EPOCH < 2 ^ 41

instance (now : Int) : Decidable (offsetFits now) := by unfold offsetFits; infer_instance

/-- The loop of `TilNextMillis`: `for timestamp <= lastTimestamp { timestamp = time.Now().UnixNano() / 1000000 }`,
run on the readings `clock`; the result is the final `timestamp` and the readings left. -/
def TilNextMillisLoop (lastTimestamp : Int) : Int → List time.Time → Option (Int × List time.Time)
  | timestamp, [] => if timestamp ≤ lastTimestamp then none else some (timestamp, [])
  | timestamp, c :: clock =>
    if timestamp ≤ lastTimestamp then
      TilNextMillisLoop lastTimestamp (millis c) clock
    else some (timestamp, c :: clock)

/-- `func TilNextMillis(lastTimestamp int64) (timestamp int64)`: the named result starts at 0. -/
def TilNextMillis (lastTimestamp : Int) (clock : List time.Time) : Option (Int × List time.Time) :=
  TilNextMillisLoop lastTimestamp 0 clock

end snowflake

/-! ## Package `multi` (multi/snowflake.go) -/

namespace multi

/-! The variables of the bit layout: the widths and shifts are `uint8`, the bounds and masks
`int64`. -/

def nodeIdBits : Nat := 5
def maxNodeId : Int := xor64 (-1) (shl64 (-1) nodeIdBits)
def datacenterIdBits : Nat := 5
def maxDatacenterId : Int := xor64 (-1) (shl64 (-1) datacenterIdBits)
def sequenceBits : Nat := 12

def nodeIdShift : Nat := sequenceBits
def nodeMask : Int := shl64 maxNodeId sequenceBits
def datacenterIdShift : Nat := (sequenceBits + nodeIdBits) % 256
def datacenterMask : Int := shl64 maxDatacenterId ((nodeIdBits + sequenceBits) % 256)
def timestampLeftShift : Nat := (sequenceBits + nodeIdBits + datacenterIdBits) % 256

def sequenceMask : Int := xor64 (-1) (shl64 (-1) sequenceBits)

/-- The errors of the package. -/
inductive Error
  /-- `ErrInvalidNode` -/
  | ErrInvalidNode
  /-- `ErrInvalidDataCenter` -/
  | ErrInvalidDataCenter
  /-- `ErrForwardTime` -/
  | ErrForwardTime
  /-- `fmt.Errorf("Clock moved backwards. Refusing to generate id for %d milliseconds", ms)` -/
  | ClockMovedBackwards (ms : Int)
  /-- `JSONSyntaxError{original}` -/
  | JSONSyntaxError (original : List Nat)
  /-- An error of `strconv.ParseInt`. -/
  | NumError (err : strconv.NumError)
  deriving DecidableEq, Repr

/-- `type multiWorker struct`; `mu` is true when the mutex is held. -/
structure multiWorker where
  mu : Bool
  lastTimeStamp : Int
  nodeID : Int
  datacenterId : Int
  sequence : Int
  deriving DecidableEq, Repr

/-- `type MultiWorkerID int64` -/
abbrev MultiWorkerID := Int

/-- `func New(nodeId, datacenterId int64) (*multiWorker, error)` -/
def New (nodeId datacenterId : Int) : Except Error multiWorker :=
  if nodeId > maxNodeId ∨ nodeId < 0 then
    .error Error.ErrInvalidNode
  else if datacenterId > maxDatacenterId ∨ datacenterId < 0 then
    .error Error.ErrInvalidDataCenter
  else
    .ok { mu := false, lastTimeStamp := 0, nodeID := nodeId, datacenterId := datacenterId, sequence := 0 }

/-- The packing expression of `GetID` and `NextID`, an `int64` that both convert to `MultiWorkerID`:
`(now-snowflake.TW_EPOCH)<<timestampLeftShift | (n.datacenterId << datacenterIdShift) | (n.nodeID << nodeIdShift) | s`. -/
def pack (now datacenterId nodeID s : Int) : Int :=
  or64 (or64 (or64 (shl64 (sub64 now snowflake.TW_EPOCH) timestampLeftShift)
    (shl64 datacenterId datacenterIdShift)) (shl64 nodeID nodeIdShift)) s

/-- `func (n *multiWorker) GetID(t time.Time, s int64) (id MultiWorkerID, err error)`.
The result is the returned pair and the worker after the call. -/
def multiWorker.GetID (n : multiWorker) (t : time.Time) (s : Int) :
    Option (MultiWorkerID × Option Error × multiWorker) :=
  if n.mu then none else
  let n := { n with mu := true }
  let now := snowflake.millis t
  if n.lastTimeStamp ≠ 0 ∧ now > n.lastTimeStamp then
    some (0, some Error.ErrForwardTime, n)
  else
    let id := pack now n.datacenterId n.nodeID s
    let n := { n with mu := false }
    some (id, none, n)

/-- `func (n multiWorker) LastTimeStamp() time.Time`. The receiver is a copy of the worker,
mutex included: `RLock()` on the copy of a held mutex never returns. -/
def multiWorker.LastTimeStamp (n : multiWorker) : Option time.Time :=
  if n.mu then none else
  some (time.Unix 0 (mul64 n.lastTimeStamp 1000000))

/-- `func (n *multiWorker) NextID() (id MultiWorkerID, err error)`.
The result is the returned pair, the worker after the call and the clock readings left. -/
def multiWorker.NextID (n : multiWorker) (clock : List time.Time) :
    Option (MultiWorkerID × Option Error × multiWorker × List time.Time) :=
  if n.mu then none else
  let n := { n with mu := true }
  match clock with
  | [] => none
  | c :: clock =>
    let now := snowflake.millis c
    if now < n.lastTimeStamp then
      some (0, some (Error.ClockMovedBackwards (sub64 n.lastTimeStamp now)), n, clock)
    else
      let finish (n : multiWorker) (now : Int) (clock : List time.Time) :=
        let n := { n with lastTimeStamp := now }
        let id := pack now n.datacenterId n.nodeID n.sequence
        let n := { n with mu := false }
        some (id, none, n, clock)
      if n.lastTimeStamp = now then
        let n := { n with sequence := and64 (add64 n.sequence 1) sequenceMask }
        if n.sequence = 0 then
          match snowflake.TilNextMillis n.lastTimeStamp clock with
          | none => none
          | some (now, clock) => finish n now clock
        else finish n now clock
      else
        let n := { n with sequence := 0 }
        finish n now clock

/-- `func (f MultiWorkerID) Int64() int64` -/
def MultiWorkerID.Int64 (f : MultiWorkerID) : Int := f

/-- `func (f MultiWorkerID) Time() int64` -/
def MultiWorkerID.Time (f : MultiWorkerID) : Int :=
  add64 (shr64 f timestampLeftShift) snowflake.TW_EPOCH

/-- `func (f MultiWorkerID) Node() int64`; in Go `&` and `>>` have the same precedence
and associate to the left. -/
def MultiWorkerID.Node (f : MultiWorkerID) : Int :=
  shr64 (and64 f nodeMask) nodeIdShift

/-- `func (f MultiWorkerID) DataCenter() int64` -/
def MultiWorkerID.DataCenter (f : MultiWorkerID) : Int :=
  shr64 (and64 f datacenterMask) datacenterIdShift

/-- `func (f MultiWorkerID) Sequence() int64` -/
def MultiWorkerID.Sequence (f : MultiWorkerID) : Int :=
  and64 f sequenceMask

/-- `func (f MultiWorkerID) String() string` -/
def MultiWorkerID.String (f : MultiWorkerID) : List Nat := strconv.FormatInt f

/-- `func (f MultiWorkerID) Bytes() []byte` -/
def MultiWorkerID.Bytes (f : MultiWorkerID) : List Nat := MultiWorkerID.String f

/-- `func (f MultiWorkerID) MarshalJSON() ([]byte, error)` -/
def MultiWorkerID.MarshalJSON (f : MultiWorkerID) : List Nat × Option Error :=
  let buff : List Nat := []
  let buff := buff ++ [34]
  let buff := strconv.AppendInt buff f
  let buff := buff ++ [34]
  (buff, none)

/-- `func (f *MultiWorkerID) UnmarshalJSON(b []byte) error`. The result is the receiver after the
call and the error. -/
def MultiWorkerID.UnmarshalJSON (f : MultiWorkerID) (b : List Nat) : MultiWorkerID × Option Error :=
  if b.length < 3 ∨ b[0]? ≠ some 34 ∨ b[b.length - 1]? ≠ some 34 then
    (f, some (Error.JSONSyntaxError b))
  else
    match strconv.ParseInt ((b.take (b.length - 1)).drop 1) with
    | (_, some err) => (f, some (Error.NumError err))
    | (i, none) => (i, none)

end multi

/-! ## Package `single` (single/snowflake.go) -/

namespace single

/-! The variables of the bit layout: the widths and shifts are `uint8`, the bounds and masks
`int64`. -/

def nodeIdBits : Nat := 10
def maxNodeId : Int := xor64 (-1) (shl64 (-1) nodeIdBits)

def sequenceBits : Nat := 12

def nodeIdShift : Nat := sequenceBits
def nodeMask : Int := shl64 maxNodeId sequenceBits

def timestampLeftShift : Nat := (sequenceBits + nodeIdBits) % 256

def sequenceMask : Int := xor64 (-1) (shl64 (-1) sequenceBits)

/-- The errors of the package. -/
inductive Error
  /-- `ErrInvalidNode` -/
  | ErrInvalidNode
  /-- `ErrForwardTime` -/
  | ErrForwardTime
  /-- `fmt.Errorf("Clock moved backwards. Refusing to generate id for %d milliseconds", ms)` -/
  | ClockMovedBackwards (ms : Int)
  /-- `JSONSyntaxError{original}` -/
  | JSONSyntaxError (original : List Nat)
  /-- An error of `strconv.ParseInt`. -/
  | NumError (err : strconv.NumError)
  deriving DecidableEq, Repr

/-- `type singleWorker struct`; `mu` is true when the mutex is held. -/
structure singleWorker where
  mu : Bool
  lastTimeStamp : Int
  nodeID : Int
  sequence : Int
  deriving DecidableEq, Repr

/-- `type SingleWorkerID int64` -/
abbrev SingleWorkerID := Int

/-- `func New(nodeID int64) (*singleWorker, error)` -/
def New (nodeID : Int) : Except Error singleWorker :=
  if nodeID > maxNodeId ∨ nodeID < 0 then
    .error Error.ErrInvalidNode
  else
    .ok { mu := false, lastTimeStamp := 0, nodeID := nodeID, sequence := 0 }

/-- The packing expression of `GetID` and `NextID`, an `int64` that both convert to `SingleWorkerID`:
`(now-snowflake.TW_EPOCH)<<timestampLeftShift | (n.nodeID << nodeIdShift) | s`. -/
def pack (now nodeID s : Int) : Int :=
  or64 (or64 (shl64 (sub64 now snowflake.TW_EPOCH) timestampLeftShift)
    (shl64 nodeID nodeIdShift)) s

/-- `func (n *singleWorker) GetID(t time.Time, s int64) (id SingleWorkerID, err error)`.
The result is the returned pair and the worker after the call. -/
def singleWorker.GetID (n : singleWorker) (t : time.Time) (s : Int) :
    Option (SingleWorkerID × Option Error × singleWorker) :=
  if n.mu then none else
  let n := { n with mu := true }
  let now := snowflake.millis t
  if n.lastTimeStamp ≠ 0 ∧ now > n.lastTimeStamp then
    some (0, some Error.ErrForwardTime, n)
  else
    let id := pack now n.nodeID s
    let n := { n with mu := false }
    some (id, none, n)

/-- `func (n singleWorker) LastTimeStamp() time.Time`. The receiver is a copy of the worker,
mutex included: `RLock()` on the copy of a held mutex never returns. -/
def singleWorker.LastTimeStamp (n : singleWorker) : Option time.Time :=
  if n.mu then none else
  some (time.Unix 0 (mul64 n.lastTimeStamp 1000000))

/-- `func (n *singleWorker) NextID() (id SingleWorkerID, err error)`.
The result is the returned pair, the worker after the call and the clock readings left. -/
def singleWorker.NextID (n : singleWorker) (clock : List time.Time) :
    Option (SingleWorkerID × Option Error × singleWorker × List time.Time) :=
  if n.mu then none else
  let n := { n with mu := true }
  match clock with
  | [] => none
  | c :: clock =>
    let now := snowflake.millis c
    if now < n.lastTimeStamp then
      some (0, some (Error.ClockMovedBackwards (sub64 n.lastTimeStamp now)), n, clock)
    else
      let finish (n : singleWorker) (now : Int) (clock : List time.Time) :=
        let n := { n with lastTimeStamp := now }
        let id := pack now n.nodeID n.sequence
        let n := { n with mu := false }
        some (id, none, n, clock)
      if n.lastTimeStamp = now then
        let n := { n with sequence := and64 (add64 n.sequence 1) sequenceMask }
        if n.sequence = 0 then
          match snowflake.TilNextMillis n.lastTimeStamp clock with
          | none => none
          | some (now, clock) => finish n now clock
        else finish n now clock
      else
        let n := { n with sequence := 0 }
        finish n now clock

/-- `func (f SingleWorkerID) Int64() int64` -/
def SingleWorkerID.Int64 (f : SingleWorkerID) : Int := f

/-- `func (f SingleWorkerID) Time() int64` -/
def SingleWorkerID.Time (f : SingleWorkerID) : Int :=
  add64 (shr64 f timestampLeftShift) snowflake.TW_EPOCH

/-- `func (f SingleWorkerID) Node() int64`; in Go `&` and `>>` have the same precedence
and associate to the left. -/
def SingleWorkerID.Node (f : SingleWorkerID) : Int :=
  shr64 (and64 f nodeMask) nodeIdShift

/-- `func (f SingleWorkerID) Sequence() int64` -/
def SingleWorkerID.Sequence (f : SingleWorkerID) : Int :=
  and64 f sequenceMask

/-- `func (f SingleWorkerID) DataCenter() int64` -/
def SingleWorkerID.DataCenter (_f : SingleWorkerID) : Int := 0

/-- `func (f SingleWorkerID) String() string` -/
def SingleWorkerID.String (f : SingleWorkerID) : List Nat := strconv.FormatInt f

/-- `func (f SingleWorkerID) Bytes() []byte` -/
def SingleWorkerID.Bytes (f : SingleWorkerID) : List Nat := SingleWorkerID.String f

/-- `func (f SingleWorkerID) MarshalJSON() ([]byte, error)` -/
def SingleWorkerID.MarshalJSON (f : SingleWorkerID) : List Nat × Option Error :=
  let buff : List Nat := []
  let buff := buff ++ [34]
  let buff := strconv.AppendInt buff f
  let buff := buff ++ [34]
  (buff, none)

/-- `func (f *SingleWorkerID) UnmarshalJSON(b []byte) error`. The result is the receiver after the
call and the error. -/
def SingleWorkerID.UnmarshalJSON (f : SingleWorkerID) (b : List Nat) : SingleWorkerID × Option Error :=
  if b.length < 3 ∨ b[0]? ≠ some 34 ∨ b[b.length - 1]? ≠ some 34 then
    (f, some (Error.JSONSyntaxError b))
  else
    match strconv.ParseInt ((b.take (b.length - 1)).drop 1) with
    | (_, some err) => (f, some (Error.NumError err))
    | (i, none) => (i, none)

end single

/-! ## Sequential calls on one worker -/

/-- A call of one of the two operations of a worker. -/
inductive Call
  | NextID
  | GetID (t : time.Time) (s : Int)
  deriving DecidableEq, Repr

/-- What a call returned: the ID and the error. -/
structure Return (ε : Type) where
  call : Call
  id : Int
  err : Option ε
  deriving DecidableEq, Repr

/-- The IDs that the successful `NextID` calls returned, in the order of the calls. -/
def issued {ε : Type} : List (Return ε) → List Int
  | [] => []
  | ⟨Call.NextID, id, none⟩ :: rs => id :: issued rs
  | _ :: rs => issued rs

namespace multi

/-- The calls `calls` made one after the other on the worker `n`, the readings of the clock
being taken from `clock` in order. The result is what the calls returned, the worker after the
last one and the readings left; it is `none` when one of the calls does not return. -/
def multiWorker.run (n : multiWorker) :
    List Call → List time.Time → Option (List (Return Error) × multiWorker × List time.Time)
  | [], clock => some ([], n, clock)
  | Call.NextID :: calls, clock =>
    match n.NextID clock with
    | none => none
    | some (id, err, n, clock) =>
      match multiWorker.run n calls clock with
      | none => none
      | some (rs, n, clock) => some (⟨Call.NextID, id, err⟩ :: rs, n, clock)
  | Call.GetID t s :: calls, clock =>
    match n.GetID t s with
    | none => none
    | some (id, err, n) =>
      match multiWorker.run n calls clock with
      | none => none
      | some (rs, n, clock) => some (⟨Call.GetID t s, id, err⟩ :: rs, n, clock)

end multi

namespace single

/-- The calls `calls` made one after the other on the worker `n`, the readings of the clock
being taken from `clock` in order. The result is what the calls returned, the worker after the
last one and the readings left; it is `none` when one of the calls does not return. -/
def singleWorker.run (n : singleWorker) :
    List Call → List time.Time → Option (List (Return Error) × singleWorker × List time.Time)
  | [], clock => some ([], n, clock)
  | Call.NextID :: calls, clock =>
    match n.NextID clock with
    | none => none
    | some (id, err, n, clock) =>
      match singleWorker.run n calls clock with
      | none => none
      | some (rs, n, clock) => some (⟨Call.NextID, id, err⟩ :: rs, n, clock)
  | Call.GetID t s :: calls, clock =>
    match n.GetID t s with
    | none => none
    | some (id, err, n) =>
      match singleWorker.run n calls clock with
      | none => none
      | some (rs, n, clock) => some (⟨Call.GetID t s, id, err⟩ :: rs, n, clock)

end single

/-! ## Invariants of the worker state -/

namespace multi

/-- The identity is within its widths, the sequence within its width and the offset of the
last timestamp fits the timestamp field. -/
def multiWorker.Inv (n : multiWorker) : Prop :=
  (0 ≤ n.nodeID ∧ n.nodeID ≤ 31) ∧ (0 ≤ n.datacenterId ∧ n.datacenterId ≤ 31) ∧
  (0 ≤ n.sequence ∧ n.sequence ≤ 4095) ∧ snowflake.offsetFits n.lastTimeStamp

end multi

namespace single

/-- The identity is within its width, the sequence within its width and the offset of the
last timestamp fits the timestamp field. -/
def singleWorker.Inv (n : singleWorker) : Prop :=
  (0 ≤ n.nodeID ∧ n.nodeID ≤ 1023) ∧
  (0 ≤ n.sequence ∧ n.sequence ≤ 4095) ∧ snowflake.offsetFits n.lastTimeStamp

end single

/-! ## Arithmetic of the 64-bit operations -/

theorem wrap64_of_range (x : Int) (h1 : -9223372036854775808 ≤ x) (h2 : x < 9223372036854775808) :
    wrap64 x = x := by
  unfold wrap64; omega

theorem wrap64_range (x : Int) :
    -9223372036854775808 ≤ wrap64 x ∧ wrap64 x < 9223372036854775808 := by
  unfold wrap64; omega

theorem shr64_eq_ediv (x : Int) (k : Nat) : shr64 x k = x / 2 ^ k := by
  unfold shr64
  exact Int.fdiv_eq_ediv x (by positivity)

/-- Bits above a field that is zero: `|` is `+`. -/
theorem or64_eq_add (x y : Int) (k : Nat) (hk : k ≤ 64) (hx : (2 : Int) ^ k ∣ x)
    (hxr : -9223372036854775808 ≤ x) (hy0 : 0 ≤ y) (hy : y < 2 ^ k)
    (hsum : x + y < 9223372036854775808) : or64 x y = x + y := by
  obtain ⟨q, rfl⟩ := hx
  have h64 : (18446744073709551616 : Int) = 2 ^ k * 2 ^ (64 - k) := by
    rw [← pow_add, Nat.add_sub_cancel' hk]; norm_num
  have hpos : (0 : Int) < 2 ^ k := by positivity
  have hle : (2 : Int) ^ k ≤ 18446744073709551616 := by
    rw [h64]; exact le_mul_of_one_le_right hpos.le (one_le_pow₀ (by norm_num))
  have e1 : (2 ^ k * q) % 18446744073709551616 = 2 ^ k * (q % 2 ^ (64 - k)) := by
    rw [h64]; exact Int.mul_emod_mul_of_pos _ _ hpos
  have hr0 : 0 ≤ q % 2 ^ (64 - k) := Int.emod_nonneg _ (by positivity)
  have e2 : toBits (2 ^ k * q) = 2 ^ k * (q % 2 ^ (64 - k)).toNat := by
    unfold toBits
    rw [e1]
    apply Int.ofNat.inj
    simp only [Int.ofNat_eq_coe]
    push_cast
    rw [Int.toNat_of_nonneg hr0, Int.toNat_of_nonneg (mul_nonneg hpos.le hr0)]
  have e3 : toBits y = y.toNat := by
    unfold toBits
    rw [Int.emod_eq_of_lt hy0 (lt_of_lt_of_le hy hle)]
  have hyn : y.toNat < 2 ^ k := by
    have : ((y.toNat : Nat) : Int) < ((2 ^ k : Nat) : Int) := by
      rw [Int.toNat_of_nonneg hy0]; push_cast; exact hy
    exact_mod_cast this
  unfold or64
  rw [e2, e3, ← Nat.mul_add_lt_is_or hyn]
  push_cast
  rw [Int.toNat_of_nonneg hr0, Int.toNat_of_nonneg hy0, ← e1]
  unfold wrap64
  omega

/-- Masking with `j` ones shifted left by `k` keeps the bits `k .. k+j-1`. -/
theorem Nat.and_shifted_ones (m j k : Nat) :
    m &&& ((2 ^ j - 1) * 2 ^ k) = (m / 2 ^ k % 2 ^ j) * 2 ^ k := by
  apply Nat.eq_of_testBit_eq
  intro i
  rw [← Nat.shiftLeft_eq, ← Nat.shiftLeft_eq, ← Nat.shiftRight_eq_div_pow]
  simp only [Nat.testBit_and, Nat.testBit_shiftLeft, Nat.testBit_two_pow_sub_one,
    Nat.testBit_mod_two_pow, Nat.testBit_shiftRight]
  by_cases hik : k ≤ i
  · simp [hik, Nat.add_sub_cancel' hik, Bool.and_comm]
  · simp [hik]

/-- The value of `f & mask` for a mask of `j` ones at position `k`, below the sign bit. -/
theorem and64_shifted_ones (f : Int) (j k : Nat) (hjk : j + k ≤ 63) :
    and64 f (((2 ^ j - 1) * 2 ^ k : Nat) : Int) = ((toBits f / 2 ^ k % 2 ^ j * 2 ^ k : Nat) : Int) := by
  have hlt : (2 ^ j - 1) * 2 ^ k < 2 ^ 63 := by
    calc (2 ^ j - 1) * 2 ^ k < 2 ^ j * 2 ^ k :=
          Nat.mul_lt_mul_of_pos_right (Nat.sub_lt (by positivity) one_pos) (by positivity)
      _ = 2 ^ (j + k) := (pow_add 2 j k).symm
      _ ≤ 2 ^ 63 := Nat.pow_le_pow_right (by norm_num) hjk
  have hm : toBits (((2 ^ j - 1) * 2 ^ k : Nat) : Int) = (2 ^ j - 1) * 2 ^ k := by
    unfold toBits
    generalize (2 ^ j - 1) * 2 ^ k = M at hlt ⊢
    norm_num at hlt
    omega
  unfold and64
  rw [hm, Nat.and_shifted_ones]
  have hle : toBits f / 2 ^ k % 2 ^ j * 2 ^ k ≤ (2 ^ j - 1) * 2 ^ k :=
    Nat.mul_le_mul_right _ (Nat.le_sub_one_of_lt (Nat.mod_lt _ (by positivity)))
  generalize toBits f / 2 ^ k % 2 ^ j * 2 ^ k = R at hle ⊢
  generalize (2 ^ j - 1) * 2 ^ k = M at hlt hle
  norm_num at hlt
  unfold wrap64
  omega

/-- The value of `(f & mask) >> k` for a mask of `j` ones at position `k`. -/
theorem shr64_and64_shifted_ones (f : Int) (j k : Nat) (hjk : j + k ≤ 63) :
    shr64 (and64 f (((2 ^ j - 1) * 2 ^ k : Nat) : Int)) k = ((toBits f / 2 ^ k % 2 ^ j : Nat) : Int) := by
  rw [and64_shifted_ones f j k hjk, shr64_eq_ediv]
  push_cast
  exact Int.mul_ediv_cancel _ (by positivity)

/-- The value of `f & (2^j - 1)`. -/
theorem and64_ones (f : Int) (j : Nat) (hj : j ≤ 63) :
    and64 f (((2 ^ j - 1 : Nat)) : Int) = ((toBits f % 2 ^ j : Nat) : Int) := by
  have h := and64_shifted_ones f j 0 (by omega)
  simpa using h

/-! ## The bit layout of `multi` -/

namespace multi

theorem maxNodeId_eq_multi : maxNodeId = 31 := by decide
theorem maxDatacenterId_eq : maxDatacenterId = 31 := by decide
theorem sequenceMask_eq_multi : sequenceMask = 4095 := by decide
theorem nodeMask_eq_multi : nodeMask = 126976 := by decide
theorem datacenterMask_eq : datacenterMask = 4063232 := by decide
theorem nodeIdShift_eq_multi : nodeIdShift = 12 := by decide
theorem datacenterIdShift_eq : datacenterIdShift = 17 := by decide
theorem timestampLeftShift_eq_multi : timestampLeftShift = 22 := by decide

/-- With every field inside its width the packing expression is a sum of shifted fields. -/
theorem pack_eq_sum_multi (t d n s : Int)
    (ht1 : -2199023255552 ≤ t - snowflake.TW_EPOCH) (ht2 : t - snowflake.TW_EPOCH < 2199023255552)
    (hd1 : 0 ≤ d) (hd2 : d ≤ 31) (hn1 : 0 ≤ n) (hn2 : n ≤ 31) (hs1 : 0 ≤ s) (hs2 : s ≤ 4095) :
    pack t d n s = (t - snowflake.TW_EPOCH) * 4194304 + d * 131072 + n * 4096 + s := by
  unfold pack
  rw [timestampLeftShift_eq_multi, datacenterIdShift_eq, nodeIdShift_eq_multi]
  have e1 : shl64 (sub64 t snowflake.TW_EPOCH) 22 = (t - snowflake.TW_EPOCH) * 4194304 := by
    unfold shl64 sub64 wrap64; omega
  have e2 : shl64 d 17 = d * 131072 := by unfold shl64 wrap64; omega
  have e3 : shl64 n 12 = n * 4096 := by unfold shl64 wrap64; omega
  rw [e1, e2, e3]
  generalize t - snowflake.TW_EPOCH = a at ht1 ht2 ⊢
  rw [or64_eq_add (a * 4194304) (d * 131072) 22 (by omega) (Dvd.intro_left a (by norm_num))
    (by omega) (by omega) (by norm_num; omega) (by omega)]
  rw [or64_eq_add (a * 4194304 + d * 131072) (n * 4096) 17 (by omega)
    (Dvd.intro (a * 32 + d) (by ring)) (by omega) (by omega) (by norm_num; omega) (by omega)]
  rw [or64_eq_add (a * 4194304 + d * 131072 + n * 4096) s 12 (by omega)
    (Dvd.intro (a * 1024 + d * 32 + n) (by ring)) (by omega) (by omega) (by norm_num; omega) (by omega)]

theorem Time_eq_multi (f : Int) : MultiWorkerID.Time f = add64 (f / 4194304) snowflake.TW_EPOCH := by
  unfold MultiWorkerID.Time
  rw [timestampLeftShift_eq_multi, shr64_eq_ediv]; norm_num

theorem Node_eq_multi (f : Int) : MultiWorkerID.Node f = ((toBits f / 4096 % 32 : Nat) : Int) := by
  unfold MultiWorkerID.Node
  rw [nodeMask_eq_multi, nodeIdShift_eq_multi]
  exact shr64_and64_shifted_ones f 5 12 (by omega)

theorem DataCenter_eq (f : Int) :
    MultiWorkerID.DataCenter f = ((toBits f / 131072 % 32 : Nat) : Int) := by
  unfold MultiWorkerID.DataCenter
  rw [datacenterMask_eq, datacenterIdShift_eq]
  exact shr64_and64_shifted_ones f 5 17 (by omega)

theorem Sequence_eq_multi (f : Int) : MultiWorkerID.Sequence f = ((toBits f % 4096 : Nat) : Int) := by
  unfold MultiWorkerID.Sequence
  rw [sequenceMask_eq_multi]
  exact and64_ones f 12 (by omega)

/-- The accessors invert the packing of in-range fields. -/
theorem decode_pack_multi (t d n s : Int) (ht : snowflake.offsetFits t)
    (hd : 0 ≤ d ∧ d ≤ 31) (hn : 0 ≤ n ∧ n ≤ 31) (hs : 0 ≤ s ∧ s ≤ 4095) :
    MultiWorkerID.Time (pack t d n s) = t ∧ MultiWorkerID.DataCenter (pack t d n s) = d ∧
    MultiWorkerID.Node (pack t d n s) = n ∧ MultiWorkerID.Sequence (pack t d n s) = s := by
  unfold snowflake.offsetFits at ht
  rw [pack_eq_sum_multi t d n s (by omega) (by omega) hd.1 hd.2 hn.1 hn.2 hs.1 hs.2,
    Time_eq_multi, DataCenter_eq, Node_eq_multi, Sequence_eq_multi]
  unfold snowflake.TW_EPOCH at *
  unfold add64 wrap64 toBits
  refine ⟨?_, ?_, ?_, ?_⟩ <;> omega

end multi

/-! ## The bit layout of `single` -/

namespace single

theorem maxNodeId_eq_single : maxNodeId = 1023 := by decide
theorem sequenceMask_eq_single : sequenceMask = 4095 := by decide
theorem nodeMask_eq_single : nodeMask = 4190208 := by decide
theorem nodeIdShift_eq_single : nodeIdShift = 12 := by decide
theorem timestampLeftShift_eq_single : timestampLeftShift = 22 := by decide

/-- With every field inside its width the packing expression is a sum of shifted fields. -/
theorem pack_eq_sum_single (t n s : Int)
    (ht1 : -2199023255552 ≤ t - snowflake.TW_EPOCH) (ht2 : t - snowflake.TW_EPOCH < 2199023255552)
    (hn1 : 0 ≤ n) (hn2 : n ≤ 1023) (hs1 : 0 ≤ s) (hs2 : s ≤ 4095) :
    pack t n s = (t - snowflake.TW_EPOCH) * 4194304 + n * 4096 + s := by
  unfold pack
  rw [timestampLeftShift_eq_single, nodeIdShift_eq_single]
  have e1 : shl64 (sub64 t snowflake.TW_EPOCH) 22 = (t - snowflake.TW_EPOCH) * 4194304 := by
    unfold shl64 sub64 wrap64; omega
  have e3 : shl64 n 12 = n * 4096 := by unfold shl64 wrap64; omega
  rw [e1, e3]
  generalize t - snowflake.TW_EPOCH = a at ht1 ht2 ⊢
  rw [or64_eq_add (a * 4194304) (n * 4096) 22 (by omega) (Dvd.intro_left a (by norm_num))
    (by omega) (by omega) (by norm_num; omega) (by omega)]
  rw [or64_eq_add (a * 4194304 + n * 4096) s 12 (by omega)
    (Dvd.intro (a * 1024 + n) (by ring)) (by omega) (by omega) (by norm_num; omega) (by omega)]

theorem Time_eq_single (f : Int) : SingleWorkerID.Time f = add64 (f / 4194304) snowflake.TW_EPOCH := by
  unfold SingleWorkerID.Time
  rw [timestampLeftShift_eq_single, shr64_eq_ediv]; norm_num

theorem Node_eq_single (f : Int) : SingleWorkerID.Node f = ((toBits f / 4096 % 1024 : Nat) : Int) := by
  unfold SingleWorkerID.Node
  rw [nodeMask_eq_single, nodeIdShift_eq_single]
  exact shr64_and64_shifted_ones f 10 12 (by omega)

theorem Sequence_eq_single (f : Int) : SingleWorkerID.Sequence f = ((toBits f % 4096 : Nat) : Int) := by
  unfold SingleWorkerID.Sequence
  rw [sequenceMask_eq_single]
  exact and64_ones f 12 (by omega)

/-- The accessors invert the packing of in-range fields. -/
theorem decode_pack_single (t n s : Int) (ht : snowflake.offsetFits t)
    (hn : 0 ≤ n ∧ n ≤ 1023) (hs : 0 ≤ s ∧ s ≤ 4095) :
    SingleWorkerID.Time (pack t n s) = t ∧ SingleWorkerID.Node (pack t n s) = n ∧
    SingleWorkerID.Sequence (pack t n s) = s ∧ SingleWorkerID.DataCenter (pack t n s) = 0 := by
  unfold snowflake.offsetFits at ht
  rw [pack_eq_sum_single t n s (by omega) (by omega) hn.1 hn.2 hs.1 hs.2,
    Time_eq_single, Node_eq_single, Sequence_eq_single]
  unfold snowflake.TW_EPOCH at *
  unfold add64 wrap64 toBits SingleWorkerID.DataCenter
  refine ⟨?_, ?_, ?_, ?_⟩ <;> omega

end single

/-- C2. Round trip of the two-field layout: for every Unix-millisecond time `t` whose
offset from `TW_EPOCH` lies in `[-2^41, 2^41)`, every node and datacenter in `[0, 31]`
and every sequence in `[0, 4095]`, the accessors `Time`, `DataCenter`, `Node` and
`Sequence` applied to the packed ID give back `t`, the datacenter, the node and the
sequence. -/
theorem C2_multi_roundtrip (t node datacenter sequence : Int)
    (ht1 : -2 ^ 41 ≤ t - snowflake.TW_EPOCH) (ht2 : t - snowflake.TW_EPOCH < 2 ^ 41)
    (hn1 : 0 ≤ node) (hn2 : node ≤ 31) (hd1 : 0 ≤ datacenter) (hd2 : datacenter ≤ 31)
    (hs1 : 0 ≤ sequence) (hs2 : sequence ≤ 4095) :
    multi.MultiWorkerID.Time (multi.pack t datacenter node sequence) = t ∧
    multi.MultiWorkerID.DataCenter (multi.pack t datacenter node sequence) = datacenter ∧
    multi.MultiWorkerID.Node (multi.pack t datacenter node sequence) = node ∧
    multi.MultiWorkerID.Sequence (multi.pack t datacenter node sequence) = sequence := by
  exact multi.decode_pack_multi t datacenter node sequence ⟨ht1, ht2⟩ ⟨hd1, hd2⟩ ⟨hn1, hn2⟩ ⟨hs1, hs2⟩

/-- Witness of C2: time 1288834974658, node 5, datacenter 3, sequence 7. -/
theorem C2_multi_roundtrip_witness :
    multi.MultiWorkerID.Time (multi.pack 1288834974658 3 5 7) = 1288834974658 ∧
    multi.MultiWorkerID.DataCenter (multi.pack 1288834974658 3 5 7) = 3 ∧
    multi.MultiWorkerID.Node (multi.pack 1288834974658 3 5 7) = 5 ∧
    multi.MultiWorkerID.Sequence (multi.pack 1288834974658 3 5 7) = 7 :=
  C2_multi_roundtrip 1288834974658 5 3 7 (by decide) (by decide) (by decide) (by decide)
    (by decide) (by decide) (by decide) (by decide)

/-- C3. Round trip of the single-field layout: for every Unix-millisecond time `t` whose
offset from `TW_EPOCH` lies in `[-2^41, 2^41)`, every node in `[0, 1023]` and every
sequence in `[0, 4095]`, the accessors `Time`, `Node` and `Sequence` applied to the
packed ID give back `t`, the node and the sequence, and `DataCenter` is 0. -/
theorem C3_single_roundtrip (t node sequence : Int)
    (ht1 : -2 ^ 41 ≤ t - snowflake.TW_EPOCH) (ht2 : t - snowflake.TW_EPOCH < 2 ^ 41)
    (hn1 : 0 ≤ node) (hn2 : node ≤ 1023) (hs1 : 0 ≤ sequence) (hs2 : sequence ≤ 4095) :
    single.SingleWorkerID.Time (single.pack t node sequence) = t ∧
    single.SingleWorkerID.Node (single.pack t node sequence) = node ∧
    single.SingleWorkerID.Sequence (single.pack t node sequence) = sequence ∧
    single.SingleWorkerID.DataCenter (single.pack t node sequence) = 0 := by
  exact single.decode_pack_single t node sequence ⟨ht1, ht2⟩ ⟨hn1, hn2⟩ ⟨hs1, hs2⟩

/-- Witness of C3: time 1288834974658, node 1000, sequence 7. -/
theorem C3_single_roundtrip_witness :
    single.SingleWorkerID.Time (single.pack 1288834974658 1000 7) = 1288834974658 ∧
    single.SingleWorkerID.Node (single.pack 1288834974658 1000 7) = 1000 ∧
    single.SingleWorkerID.Sequence (single.pack 1288834974658 1000 7) = 7 ∧
    single.SingleWorkerID.DataCenter (single.pack 1288834974658 1000 7) = 0 :=
  C3_single_roundtrip 1288834974658 1000 7 (by decide) (by decide) (by decide) (by decide)
    (by decide) (by decide)

/-- C5. Order equivalence: for two valid field combinations (times whose offsets from
`TW_EPOCH` lie in `[-2^41, 2^41)`, identity fields and sequences within their widths) the
first packed ID is less than the second exactly when (time, datacenter, node, sequence) of
the first is lexicographically less than that of the second; in the single-field layout the
same holds with (time, node, sequence). -/
theorem C5_order_equivalence (t1 t2 d1 d2 n1 n2 m1 m2 s1 s2 : Int)
    (ht1 : snowflake.offsetFits t1) (ht2 : snowflake.offsetFits t2)
    (hd1 : 0 ≤ d1 ∧ d1 ≤ 31) (hd2 : 0 ≤ d2 ∧ d2 ≤ 31)
    (hn1 : 0 ≤ n1 ∧ n1 ≤ 31) (hn2 : 0 ≤ n2 ∧ n2 ≤ 31)
    (hm1 : 0 ≤ m1 ∧ m1 ≤ 1023) (hm2 : 0 ≤ m2 ∧ m2 ≤ 1023)
    (hs1 : 0 ≤ s1 ∧ s1 ≤ 4095) (hs2 : 0 ≤ s2 ∧ s2 ≤ 4095) :
    (multi.pack t1 d1 n1 s1 < multi.pack t2 d2 n2 s2 ↔
      t1 < t2 ∨ (t1 = t2 ∧ (d1 < d2 ∨ (d1 = d2 ∧ (n1 < n2 ∨ (n1 = n2 ∧ s1 < s2)))))) ∧
    (single.pack t1 m1 s1 < single.pack t2 m2 s2 ↔
      t1 < t2 ∨ (t1 = t2 ∧ (m1 < m2 ∨ (m1 = m2 ∧ s1 < s2)))) := by
  unfold snowflake.offsetFits at ht1 ht2
  rw [multi.pack_eq_sum_multi t1 d1 n1 s1 (by omega) (by omega) hd1.1 hd1.2 hn1.1 hn1.2 hs1.1 hs1.2,
    multi.pack_eq_sum_multi t2 d2 n2 s2 (by omega) (by omega) hd2.1 hd2.2 hn2.1 hn2.2 hs2.1 hs2.2,
    single.pack_eq_sum_single t1 m1 s1 (by omega) (by omega) hm1.1 hm1.2 hs1.1 hs1.2,
    single.pack_eq_sum_single t2 m2 s2 (by omega) (by omega) hm2.1 hm2.2 hs2.1 hs2.2]
  refine ⟨⟨fun h => ?_, fun h => ?_⟩, ⟨fun h => ?_, fun h => ?_⟩⟩
  · by_cases c1 : t1 < t2
    · exact Or.inl c1
    · refine Or.inr ⟨by omega, ?_⟩
      by_cases c2 : d1 < d2
      · exact Or.inl c2
      · refine Or.inr ⟨by omega, ?_⟩
        by_cases c3 : n1 < n2
        · exact Or.inl c3
        · exact Or.inr ⟨by omega, by omega⟩
  · rcases h with h | ⟨h, h' | ⟨h', h'' | ⟨h'', h3⟩⟩⟩ <;> omega
  · by_cases c1 : t1 < t2
    · exact Or.inl c1
    · refine Or.inr ⟨by omega, ?_⟩
      by_cases c3 : m1 < m2
      · exact Or.inl c3
      · exact Or.inr ⟨by omega, by omega⟩
  · rcases h with h | ⟨h, h' | ⟨h', h3⟩⟩ <;> omega

/-- Witness of C5: the same millisecond and datacenter, nodes 5 and 6 (single: 500 and 600),
sequences 9 and 2. -/
theorem C5_order_equivalence_witness :
    (multi.pack 1288834974658 3 5 9 < multi.pack 1288834974658 3 6 2 ↔
      (1288834974658 : Int) < 1288834974658 ∨ ((1288834974658 : Int) = 1288834974658 ∧
        ((3 : Int) < 3 ∨ ((3 : Int) = 3 ∧ ((5 : Int) < 6 ∨ ((5 : Int) = 6 ∧ (9 : Int) < 2)))))) ∧
    (single.pack 1288834974658 500 9 < single.pack 1288834974658 600 2 ↔
      (1288834974658 : Int) < 1288834974658 ∨ ((1288834974658 : Int) = 1288834974658 ∧
        ((500 : Int) < 600 ∨ ((500 : Int) = 600 ∧ (9 : Int) < 2)))) :=
  C5_order_equivalence 1288834974658 1288834974658 3 3 5 6 500 600 9 2 (by decide) (by decide)
    (by decide) (by decide) (by decide) (by decide) (by decide) (by decide) (by decide) (by decide)

/-! ## One call -/

namespace snowflake

theorem TilNextMillisLoop_spec (last : Int) :
    ∀ (clock : List time.Time) (ts r : Int) (rest : List time.Time),
      TilNextMillisLoop last ts clock = some (r, rest) →
      last < r ∧ (r = ts ∨ ∃ c ∈ clock, r = millis c) ∧ ∀ c ∈ rest, c ∈ clock := by
  intro clock
  induction clock with
  | nil =>
    intro ts r rest h
    unfold TilNextMillisLoop at h
    split_ifs at h with hle
    simp only [Option.some.injEq, Prod.mk.injEq] at h
    obtain ⟨rfl, rfl⟩ := h
    exact ⟨by omega, Or.inl rfl, fun c hc => hc⟩
  | cons c clock ih =>
    intro ts r rest h
    unfold TilNextMillisLoop at h
    split_ifs at h with hle
    · obtain ⟨h1, h2, h3⟩ := ih _ _ _ h
      refine ⟨h1, Or.inr ?_, fun x hx => List.mem_cons_of_mem _ (h3 x hx)⟩
      rcases h2 with h2 | ⟨x, hx, h2⟩
      · exact ⟨c, List.mem_cons_self _ _, h2⟩
      · exact ⟨x, List.mem_cons_of_mem _ hx, h2⟩
    · simp only [Option.some.injEq, Prod.mk.injEq] at h
      obtain ⟨rfl, rfl⟩ := h
      exact ⟨by omega, Or.inl rfl, fun c hc => hc⟩

theorem TilNextMillis_spec (last : Int) (clock : List time.Time) (r : Int) (rest : List time.Time)
    (h : TilNextMillis last clock = some (r, rest)) :
    last < r ∧ (r = 0 ∨ ∃ c ∈ clock, r = millis c) ∧ ∀ c ∈ rest, c ∈ clock :=
  TilNextMillisLoop_spec last clock 0 r rest h

end snowflake

theorem and64_4095_range (x : Int) : 0 ≤ and64 x 4095 ∧ and64 x 4095 ≤ 4095 := by
  have h := and64_ones x 12 (by omega)
  norm_num at h
  rw [h]
  omega

theorem and64_succ_4095 (x : Int) (h0 : 0 ≤ x) (h1 : x ≤ 4095) (hne : and64 (add64 x 1) 4095 ≠ 0) :
    and64 (add64 x 1) 4095 = x + 1 := by
  have h := and64_ones (add64 x 1) 12 (by omega)
  norm_num at h
  rw [h] at hne ⊢
  unfold add64 wrap64 toBits at *
  omega

/-- The time `time.Unix(0, ms*1000000)` is the millisecond `ms` again. -/
theorem millis_Unix (ms : Int) (h : snowflake.offsetFits ms) :
    snowflake.millis (time.Unix 0 (mul64 ms 1000000)) = ms := by
  unfold snowflake.offsetFits snowflake.TW_EPOCH at h
  have e1 : mul64 ms 1000000 = ms * 1000000 := by unfold mul64 wrap64; omega
  have e2 : wrap64 (ms * 1000000) = ms * 1000000 := by unfold wrap64; omega
  have e3 : wrap64 ms = ms := by unfold wrap64; omega
  unfold snowflake.millis time.Unix time.Time.UnixNano div64
  rw [e1, zero_mul, zero_add, e2, Int.mul_tdiv_cancel _ (by norm_num), e3]

/-- The truncated quotient by a million, through the rounded-down one. -/
theorem tdiv_million (x : Int) :
    Int.tdiv x 1000000 = if 0 ≤ x then x / 1000000 else -((-x) / 1000000) := by
  split_ifs with h
  · exact Int.tdiv_eq_ediv h (by norm_num)
  · have h1 : x = -(-x) := by omega
    rw [h1, Int.neg_tdiv, Int.tdiv_eq_ediv (by omega) (by norm_num)]
    simp

/-- A Unix time in milliseconds obtained from an `int64` of nanoseconds is small. -/
theorem millis_range (t : time.Time) :
    -9223372036854 ≤ snowflake.millis t ∧ snowflake.millis t ≤ 9223372036854 := by
  unfold snowflake.millis div64 time.Time.UnixNano
  have h := wrap64_range t
  generalize wrap64 t = x at h
  rw [tdiv_million]
  unfold wrap64
  split_ifs <;> omega

theorem issued_cons_ok {ε : Type} (id : Int) (rs : List (Return ε)) :
    issued (⟨Call.NextID, id, none⟩ :: rs) = id :: issued rs := rfl

theorem issued_cons_err {ε : Type} (id : Int) (e : ε) (rs : List (Return ε)) :
    issued (⟨Call.NextID, id, some e⟩ :: rs) = issued rs := rfl

theorem issued_cons_GetID {ε : Type} (t : time.Time) (s id : Int) (err : Option ε)
    (rs : List (Return ε)) :
    issued (⟨Call.GetID t s, id, err⟩ :: rs) = issued rs := rfl

theorem offsetFits_zero : snowflake.offsetFits 0 := by
  unfold snowflake.offsetFits snowflake.TW_EPOCH; omega

namespace multi

/-- What a successful `NextID` returns and leaves behind. -/
theorem multiWorker.NextID_ok_multi (w : multiWorker) (clock : List time.Time) (id : Int)
    (w' : multiWorker) (rest : List time.Time)
    (h : w.NextID clock = some (id, none, w', rest)) :
    w.mu = false ∧ w'.mu = false ∧ w'.nodeID = w.nodeID ∧ w'.datacenterId = w.datacenterId ∧
    id = pack w'.lastTimeStamp w.datacenterId w.nodeID w'.sequence ∧
    (0 ≤ w'.sequence ∧ w'.sequence ≤ 4095) ∧
    ((w.lastTimeStamp < w'.lastTimeStamp ∧ w'.sequence = 0) ∨
      (w'.lastTimeStamp = w.lastTimeStamp ∧ w'.sequence = and64 (add64 w.sequence 1) 4095 ∧
        w'.sequence ≠ 0)) ∧
    (w'.lastTimeStamp = 0 ∨ ∃ c ∈ clock, w'.lastTimeStamp = snowflake.millis c) ∧
    ∀ c ∈ rest, c ∈ clock := by
  unfold multiWorker.NextID at h
  rw [sequenceMask_eq_multi] at h
  split_ifs at h with hmu
  simp only [Bool.not_eq_true] at hmu
  cases clock with
  | nil => simp at h
  | cons c clock =>
    simp only at h
    split_ifs at h with h1 h2 h3
    · simp at h
    · split at h
      · simp at h
      · rename_i now rest' htil
        simp only [Option.some.injEq, Prod.mk.injEq, true_and] at h
        obtain ⟨hid, hw, hrest⟩ := h
        subst hw hrest
        obtain ⟨t1, t2, t3⟩ := snowflake.TilNextMillis_spec _ _ _ _ htil
        refine ⟨hmu, rfl, rfl, rfl, hid.symm, ?_, Or.inl ⟨t1, h3⟩, ?_, ?_⟩
        · simp only [h3]; omega
        · rcases t2 with t2 | ⟨x, hx, t2⟩
          · exact Or.inl t2
          · exact Or.inr ⟨x, List.mem_cons_of_mem _ hx, t2⟩
        · exact fun x hx => List.mem_cons_of_mem _ (t3 x hx)
    · simp only [Option.some.injEq, Prod.mk.injEq, true_and] at h
      obtain ⟨hid, hw, hrest⟩ := h
      subst hw hrest
      exact ⟨hmu, rfl, rfl, rfl, hid.symm, and64_4095_range _, Or.inr ⟨h2.symm, rfl, h3⟩,
        Or.inr ⟨c, List.mem_cons_self _ _, rfl⟩, fun x hx => List.mem_cons_of_mem _ hx⟩
    · simp only [Option.some.injEq, Prod.mk.injEq, true_and] at h
      obtain ⟨hid, hw, hrest⟩ := h
      subst hw hrest
      refine ⟨hmu, rfl, rfl, rfl, hid.symm, ⟨le_refl _, by norm_num⟩, Or.inl ⟨?_, rfl⟩,
        Or.inr ⟨c, List.mem_cons_self _ _, rfl⟩, fun x hx => List.mem_cons_of_mem _ hx⟩
      simp only
      omega

/-- What a failing `NextID` returns and leaves behind. -/
theorem multiWorker.NextID_err_multi (w : multiWorker) (clock : List time.Time) (id : Int) (e : Error)
    (w' : multiWorker) (rest : List time.Time)
    (h : w.NextID clock = some (id, some e, w', rest)) :
    w.mu = false ∧ id = 0 ∧ w' = { w with mu := true } ∧
    ∃ c, clock = c :: rest ∧ snowflake.millis c < w.lastTimeStamp ∧
      e = Error.ClockMovedBackwards (sub64 w.lastTimeStamp (snowflake.millis c)) := by
  unfold multiWorker.NextID at h
  split_ifs at h with hmu
  simp only [Bool.not_eq_true] at hmu
  cases clock with
  | nil => simp at h
  | cons c clock =>
    simp only at h
    split_ifs at h with h1 h2 h3
    · simp only [Option.some.injEq, Prod.mk.injEq] at h
      obtain ⟨hid, he, hw, hrest⟩ := h
      subst hw hrest
      exact ⟨hmu, hid.symm, rfl, c, rfl, h1, he.symm⟩
    · split at h <;> simp at h
    · simp at h
    · simp at h

/-- The result of `GetID` when the mutex is free. -/
theorem multiWorker.GetID_free_multi (w : multiWorker) (t : time.Time) (s : Int) (hmu : w.mu = false) :
    w.GetID t s =
      if w.lastTimeStamp ≠ 0 ∧ snowflake.millis t > w.lastTimeStamp then
        some (0, some Error.ErrForwardTime, { w with mu := true })
      else some (pack (snowflake.millis t) w.datacenterId w.nodeID s, none, w) := by
  unfold multiWorker.GetID
  cases w with
  | mk mu l nd dc sq =>
    simp only at hmu
    subst hmu
    simp

/-- The call `GetID` changes nothing but the mutex. -/
theorem multiWorker.GetID_frame_multi (w : multiWorker) (t : time.Time) (s : Int) (id : Int)
    (err : Option Error) (w' : multiWorker) (h : w.GetID t s = some (id, err, w')) :
    w.mu = false ∧ w'.lastTimeStamp = w.lastTimeStamp ∧ w'.sequence = w.sequence ∧
    w'.nodeID = w.nodeID ∧ w'.datacenterId = w.datacenterId ∧ (err = none → w' = w) := by
  have hmu : w.mu = false := by
    unfold multiWorker.GetID at h
    split_ifs at h with hmu
    all_goals simpa using hmu
  rw [multiWorker.GetID_free_multi w t s hmu] at h
  split_ifs at h with h1
  · simp only [Option.some.injEq, Prod.mk.injEq] at h
    obtain ⟨-, he, hw⟩ := h
    subst hw he
    exact ⟨hmu, rfl, rfl, rfl, rfl, by simp⟩
  · simp only [Option.some.injEq, Prod.mk.injEq] at h
    obtain ⟨-, he, hw⟩ := h
    subst hw he
    exact ⟨hmu, rfl, rfl, rfl, rfl, fun _ => rfl⟩

/-- The successful `NextID` calls of a run return increasing IDs, all of them above the
packing of the state the run starts from. -/
theorem multiWorker.run_increasing_multi (calls : List Call) :
    ∀ (w : multiWorker) (clock : List time.Time) (rets : List (Return Error))
      (w' : multiWorker) (rest : List time.Time),
      w.Inv → (∀ c ∈ clock, snowflake.offsetFits (snowflake.millis c)) →
      w.run calls clock = some (rets, w', rest) →
      (issued rets).Pairwise (· < ·) ∧
      ∀ x ∈ issued rets, pack w.lastTimeStamp w.datacenterId w.nodeID w.sequence < x := by
  induction calls with
  | nil =>
    intro w clock rets w' rest _ _ h
    simp only [multiWorker.run, Option.some.injEq, Prod.mk.injEq] at h
    obtain ⟨rfl, -, -⟩ := h
    simp [issued]
  | cons call calls ih =>
    intro w clock rets w' rest hinv hfit h
    obtain ⟨hn, hd, hs, hl⟩ := hinv
    cases call with
    | NextID =>
      simp only [multiWorker.run] at h
      split at h
      · simp at h
      · rename_i id err w1 clock1 hnext
        split at h
        · simp at h
        · rename_i rs w2 clock2 hrun
          simp only [Option.some.injEq, Prod.mk.injEq] at h
          obtain ⟨rfl, -, -⟩ := h
          cases err with
          | some e =>
            obtain ⟨-, -, hw1, c, hc, -, -⟩ := multiWorker.NextID_err_multi _ _ _ _ _ _ hnext
            subst hw1
            have hfit1 : ∀ x ∈ clock1, snowflake.offsetFits (snowflake.millis x) := by
              intro x hx; exact hfit x (by rw [hc]; exact List.mem_cons_of_mem _ hx)
            rw [issued_cons_err]
            exact ih { w with mu := true } _ _ _ _ ⟨hn, hd, hs, hl⟩ hfit1 hrun
          | none =>
            obtain ⟨-, -, hnode, hdc, hid, hs1, hstep, hlast, hsub⟩ :=
              multiWorker.NextID_ok_multi _ _ _ _ _ hnext
            have hl1 : snowflake.offsetFits w1.lastTimeStamp := by
              rcases hlast with h0 | ⟨c, hc, h0⟩
              · rw [h0]; unfold snowflake.offsetFits snowflake.TW_EPOCH; omega
              · rw [h0]; exact hfit c hc
            have hinv1 : w1.Inv := ⟨by rw [hnode]; exact hn, by rw [hdc]; exact hd, hs1, hl1⟩
            obtain ⟨ih1, ih2⟩ := ih _ _ _ _ _ hinv1 (fun x hx => hfit x (hsub x hx)) hrun
            rw [hnode, hdc, ← hid] at ih2
            have hlt : pack w.lastTimeStamp w.datacenterId w.nodeID w.sequence < id := by
              rw [hid]
              unfold snowflake.offsetFits at hl hl1
              rw [pack_eq_sum_multi _ _ _ _ (by omega) (by omega) hd.1 hd.2 hn.1 hn.2 hs.1 hs.2,
                pack_eq_sum_multi _ _ _ _ (by omega) (by omega) hd.1 hd.2 hn.1 hn.2 hs1.1 hs1.2]
              rcases hstep with ⟨h1, h2⟩ | ⟨h1, h2, h3⟩
              · omega
              · rw [h2] at h3
                rw [and64_succ_4095 _ hs.1 hs.2 h3] at h2
                omega
            rw [issued_cons_ok]
            refine ⟨List.pairwise_cons.mpr ⟨ih2, ih1⟩, ?_⟩
            intro x hx
            rcases List.mem_cons.mp hx with rfl | hx
            · exact hlt
            · exact lt_trans hlt (ih2 x hx)
    | GetID t s =>
      simp only [multiWorker.run] at h
      split at h
      · simp at h
      · rename_i id err w1 hget
        split at h
        · simp at h
        · rename_i rs w2 clock2 hrun
          simp only [Option.some.injEq, Prod.mk.injEq] at h
          obtain ⟨rfl, -, -⟩ := h
          obtain ⟨-, hl1, hs1, hn1, hd1, -⟩ := multiWorker.GetID_frame_multi _ _ _ _ _ _ hget
          rw [issued_cons_GetID]
          have := ih w1 clock rs w2 clock2
            ⟨by rw [hn1]; exact hn, by rw [hd1]; exact hd, by rw [hs1]; exact hs,
              by rw [hl1]; exact hl⟩ hfit hrun
          rw [hl1, hs1, hn1, hd1] at this
          exact this

/-- The state after a run, and the shape of the IDs its successful `NextID` calls return. -/
theorem multiWorker.run_issued_multi (calls : List Call) :
    ∀ (w : multiWorker) (clock : List time.Time) (rets : List (Return Error))
      (w' : multiWorker) (rest : List time.Time),
      w.Inv → (∀ c ∈ clock, snowflake.offsetFits (snowflake.millis c)) →
      w.run calls clock = some (rets, w', rest) →
      w'.Inv ∧ w'.nodeID = w.nodeID ∧ w'.datacenterId = w.datacenterId ∧
      w.lastTimeStamp ≤ w'.lastTimeStamp ∧
      (w.mu = false → (∀ r ∈ rets, r.err = none) → w'.mu = false) ∧
      ∀ x ∈ issued rets, ∃ T s, x = pack T w.datacenterId w.nodeID s ∧
        snowflake.offsetFits T ∧ (0 ≤ s ∧ s ≤ 4095) ∧ T ≤ w'.lastTimeStamp := by
  induction calls with
  | nil =>
    intro w clock rets w' rest hinv _ h
    simp only [multiWorker.run, Option.some.injEq, Prod.mk.injEq] at h
    obtain ⟨rfl, rfl, -⟩ := h
    exact ⟨hinv, rfl, rfl, le_refl _, fun h _ => h, by simp [issued]⟩
  | cons call calls ih =>
    intro w clock rets w' rest hinv hfit h
    obtain ⟨hn, hd, hs, hl⟩ := hinv
    cases call with
    | NextID =>
      simp only [multiWorker.run] at h
      split at h
      · simp at h
      · rename_i id err w1 clock1 hnext
        split at h
        · simp at h
        · rename_i rs w2 clock2 hrun
          simp only [Option.some.injEq, Prod.mk.injEq] at h
          obtain ⟨rfl, rfl, -⟩ := h
          cases err with
          | some e =>
            obtain ⟨-, -, hw1, c, hc, -, -⟩ := multiWorker.NextID_err_multi _ _ _ _ _ _ hnext
            subst hw1
            have hfit1 : ∀ x ∈ clock1, snowflake.offsetFits (snowflake.millis x) := by
              intro x hx; exact hfit x (by rw [hc]; exact List.mem_cons_of_mem _ hx)
            obtain ⟨i1, i2, i3, i4, -, i6⟩ :=
              ih { w with mu := true } _ _ _ _ ⟨hn, hd, hs, hl⟩ hfit1 hrun
            refine ⟨i1, i2, i3, i4, ?_, ?_⟩
            · intro _ hall
              have := hall _ (List.mem_cons_self _ _)
              simp at this
            · rw [issued_cons_err]; exact i6
          | none =>
            obtain ⟨-, hmu1, hnode, hdc, hid, hs1, hstep, hlast, hsub⟩ :=
              multiWorker.NextID_ok_multi _ _ _ _ _ hnext
            have hl1 : snowflake.offsetFits w1.lastTimeStamp := by
              rcases hlast with h0 | ⟨c, hc, h0⟩
              · rw [h0]; exact offsetFits_zero
              · rw [h0]; exact hfit c hc
            have hinv1 : w1.Inv := ⟨by rw [hnode]; exact hn, by rw [hdc]; exact hd, hs1, hl1⟩
            obtain ⟨i1, i2, i3, i4, i5, i6⟩ :=
              ih _ _ _ _ _ hinv1 (fun x hx => hfit x (hsub x hx)) hrun
            have hle : w.lastTimeStamp ≤ w1.lastTimeStamp := by
              rcases hstep with ⟨h1, -⟩ | ⟨h1, -, -⟩ <;> omega
            refine ⟨i1, by rw [i2, hnode], by rw [i3, hdc], le_trans hle i4, ?_, ?_⟩
            · intro _ hall
              exact i5 hmu1 (fun r hr => hall r (List.mem_cons_of_mem _ hr))
            · rw [issued_cons_ok]
              intro x hx
              rcases List.mem_cons.mp hx with rfl | hx
              · exact ⟨w1.lastTimeStamp, w1.sequence, hid, hl1, hs1, i4⟩
              · have := i6 x hx
                rw [hnode, hdc] at this
                exact this
    | GetID t s =>
      simp only [multiWorker.run] at h
      split at h
      · simp at h
      · rename_i id err w1 hget
        split at h
        · simp at h
        · rename_i rs w2 clock2 hrun
          simp only [Option.some.injEq, Prod.mk.injEq] at h
          obtain ⟨rfl, rfl, -⟩ := h
          obtain ⟨-, hl1, hs1, hn1, hd1, hsame⟩ := multiWorker.GetID_frame_multi _ _ _ _ _ _ hget
          obtain ⟨i1, i2, i3, i4, i5, i6⟩ := ih w1 clock rs w2 clock2
            ⟨by rw [hn1]; exact hn, by rw [hd1]; exact hd, by rw [hs1]; exact hs,
              by rw [hl1]; exact hl⟩ hfit hrun
          rw [hl1] at i4
          rw [hn1] at i2
          rw [hd1] at i3
          refine ⟨i1, i2, i3, i4, ?_, ?_⟩
          · intro hmu hall
            have he : err = none := hall _ (List.mem_cons_self _ _)
            have hw : w1 = w := hsame he
            exact i5 (by rw [hw]; exact hmu) (fun r hr => hall r (List.mem_cons_of_mem _ hr))
          · rw [issued_cons_GetID]
            rw [hn1, hd1] at i6
            exact i6

/-- A worker that `New` returns satisfies the invariant and its mutex is free. -/
theorem New_ok_multi (nodeId datacenterId : Int) (w : multiWorker)
    (h : New nodeId datacenterId = .ok w) :
    (0 ≤ nodeId ∧ nodeId ≤ 31) ∧ (0 ≤ datacenterId ∧ datacenterId ≤ 31) ∧
    w = { mu := false, lastTimeStamp := 0, nodeID := nodeId, datacenterId := datacenterId,
          sequence := 0 } := by
  unfold New at h
  rw [maxNodeId_eq_multi, maxDatacenterId_eq] at h
  split_ifs at h with h1 h2
  simp only [Except.ok.injEq] at h
  exact ⟨by omega, by omega, h.symm⟩

theorem New_Inv_multi (nodeId datacenterId : Int) (w : multiWorker)
    (h : New nodeId datacenterId = .ok w) : w.Inv ∧ w.mu = false ∧
      w.nodeID = nodeId ∧ w.datacenterId = datacenterId := by
  obtain ⟨h1, h2, rfl⟩ := New_ok_multi _ _ _ h
  exact ⟨⟨h1, h2, by simp, offsetFits_zero⟩, rfl, rfl, rfl⟩

/-- After a run without error, `GetID` reconstructs every ID that `NextID` returned. -/
theorem multiWorker.run_reconstruct_multi (nodeId datacenterId : Int) (w : multiWorker)
    (hnew : New nodeId datacenterId = .ok w) (calls : List Call) (clock : List time.Time)
    (rets : List (Return Error)) (w' : multiWorker) (rest : List time.Time)
    (hfit : ∀ c ∈ clock, snowflake.offsetFits (snowflake.millis c))
    (hrun : w.run calls clock = some (rets, w', rest))
    (hok : ∀ r ∈ rets, r.err = none) (x : Int) (hx : x ∈ issued rets) :
    w'.GetID (time.Unix 0 (mul64 (MultiWorkerID.Time x) 1000000)) (MultiWorkerID.Sequence x)
      = some (x, none, w') := by
  obtain ⟨hinv, hmu, hn, hd⟩ := New_Inv_multi _ _ _ hnew
  obtain ⟨i1, i2, i3, -, i5, i6⟩ := multiWorker.run_issued_multi calls w clock rets w' rest hinv hfit hrun
  obtain ⟨T, s, hxe, hT, hs, hle⟩ := i6 x hx
  obtain ⟨d1, -, -, d4⟩ := decode_pack_multi T w.datacenterId w.nodeID s hT hinv.2.1 hinv.1 hs
  rw [hxe, d1, d4, multiWorker.GetID_free_multi _ _ _ (i5 hmu hok), millis_Unix T hT, i2, i3]
  have hcond : ¬(w'.lastTimeStamp ≠ 0 ∧ T > w'.lastTimeStamp) := by
    clear hxe d1 d4 i6
    omega
  rw [if_neg hcond]

/-- The ID of a successful `NextID` carries the identity of the worker. -/
theorem multiWorker.NextID_identity_multi (w : multiWorker) (clock : List time.Time) (id : Int)
    (w' : multiWorker) (rest : List time.Time)
    (hn : 0 ≤ w.nodeID ∧ w.nodeID ≤ 31) (hd : 0 ≤ w.datacenterId ∧ w.datacenterId ≤ 31)
    (hfit : ∀ c ∈ clock, snowflake.offsetFits (snowflake.millis c))
    (h : w.NextID clock = some (id, none, w', rest)) :
    MultiWorkerID.Node id = w.nodeID ∧ MultiWorkerID.DataCenter id = w.datacenterId := by
  obtain ⟨-, -, -, -, hid, hs1, -, hlast, -⟩ := multiWorker.NextID_ok_multi _ _ _ _ _ h
  have hl1 : snowflake.offsetFits w'.lastTimeStamp := by
    rcases hlast with h0 | ⟨c, hc, h0⟩
    · rw [h0]; exact offsetFits_zero
    · rw [h0]; exact hfit c hc
  obtain ⟨-, d2, d3, -⟩ := decode_pack_multi _ _ _ _ hl1 hd hn hs1
  rw [hid]
  exact ⟨d3, d2⟩

/-- The result of `NextID` when the reading is behind `lastTimeStamp`. -/
theorem multiWorker.NextID_regress_multi (w : multiWorker) (c : time.Time) (clock : List time.Time)
    (hmu : w.mu = false) (h : snowflake.millis c < w.lastTimeStamp) :
    w.NextID (c :: clock) =
      some (0, some (Error.ClockMovedBackwards (sub64 w.lastTimeStamp (snowflake.millis c))),
        { w with mu := true }, clock) := by
  unfold multiWorker.NextID
  simp [hmu, h]

end multi

namespace single

/-- What a successful `NextID` returns and leaves behind. -/
theorem singleWorker.NextID_ok_single (w : singleWorker) (clock : List time.Time) (id : Int)
    (w' : singleWorker) (rest : List time.Time)
    (h : w.NextID clock = some (id, none, w', rest)) :
    w.mu = false ∧ w'.mu = false ∧ w'.nodeID = w.nodeID ∧
    id = pack w'.lastTimeStamp w.nodeID w'.sequence ∧
    (0 ≤ w'.sequence ∧ w'.sequence ≤ 4095) ∧
    ((w.lastTimeStamp < w'.lastTimeStamp ∧ w'.sequence = 0) ∨
      (w'.lastTimeStamp = w.lastTimeStamp ∧ w'.sequence = and64 (add64 w.sequence 1) 4095 ∧
        w'.sequence ≠ 0)) ∧
    (w'.lastTimeStamp = 0 ∨ ∃ c ∈ clock, w'.lastTimeStamp = snowflake.millis c) ∧
    ∀ c ∈ rest, c ∈ clock := by
  unfold singleWorker.NextID at h
  rw [sequenceMask_eq_single] at h
  split_ifs at h with hmu
  simp only [Bool.not_eq_true] at hmu
  cases clock with
  | nil => simp at h
  | cons c clock =>
    simp only at h
    split_ifs at h with h1 h2 h3
    · simp at h
    · split at h
      · simp at h
      · rename_i now rest' htil
        simp only [Option.some.injEq, Prod.mk.injEq, true_and] at h
        obtain ⟨hid, hw, hrest⟩ := h
        subst hw hrest
        obtain ⟨t1, t2, t3⟩ := snowflake.TilNextMillis_spec _ _ _ _ htil
        refine ⟨hmu, rfl, rfl, hid.symm, ?_, Or.inl ⟨t1, h3⟩, ?_, ?_⟩
        · simp only [h3]; omega
        · rcases t2 with t2 | ⟨x, hx, t2⟩
          · exact Or.inl t2
          · exact Or.inr ⟨x, List.mem_cons_of_mem _ hx, t2⟩
        · exact fun x hx => List.mem_cons_of_mem _ (t3 x hx)
    · simp only [Option.some.injEq, Prod.mk.injEq, true_and] at h
      obtain ⟨hid, hw, hrest⟩ := h
      subst hw hrest
      exact ⟨hmu, rfl, rfl, hid.symm, and64_4095_range _, Or.inr ⟨h2.symm, rfl, h3⟩,
        Or.inr ⟨c, List.mem_cons_self _ _, rfl⟩, fun x hx => List.mem_cons_of_mem _ hx⟩
    · simp only [Option.some.injEq, Prod.mk.injEq, true_and] at h
      obtain ⟨hid, hw, hrest⟩ := h
      subst hw hrest
      refine ⟨hmu, rfl, rfl, hid.symm, ⟨le_refl _, by norm_num⟩, Or.inl ⟨?_, rfl⟩,
        Or.inr ⟨c, List.mem_cons_self _ _, rfl⟩, fun x hx => List.mem_cons_of_mem _ hx⟩
      simp only
      omega

/-- What a failing `NextID` returns and leaves behind. -/
theorem singleWorker.NextID_err_single (w : singleWorker) (clock : List time.Time) (id : Int) (e : Error)
    (w' : singleWorker) (rest : List time.Time)
    (h : w.NextID clock = some (id, some e, w', rest)) :
    w.mu = false ∧ id = 0 ∧ w' = { w with mu := true } ∧
    ∃ c, clock = c :: rest ∧ snowflake.millis c < w.lastTimeStamp ∧
      e = Error.ClockMovedBackwards (sub64 w.lastTimeStamp (snowflake.millis c)) := by
  unfold singleWorker.NextID at h
  split_ifs at h with hmu
  simp only [Bool.not_eq_true] at hmu
  cases clock with
  | nil => simp at h
  | cons c clock =>
    simp only at h
    split_ifs at h with h1 h2 h3
    · simp only [Option.some.injEq, Prod.mk.injEq] at h
      obtain ⟨hid, he, hw, hrest⟩ := h
      subst hw hrest
      exact ⟨hmu, hid.symm, rfl, c, rfl, h1, he.symm⟩
    · split at h <;> simp at h
    · simp at h
    · simp at h

/-- The result of `GetID` when the mutex is free. -/
theorem singleWorker.GetID_free_single (w : singleWorker) (t : time.Time) (s : Int) (hmu : w.mu = false) :
    w.GetID t s =
      if w.lastTimeStamp ≠ 0 ∧ snowflake.millis t > w.lastTimeStamp then
        some (0, some Error.ErrForwardTime, { w with mu := true })
      else some (pack (snowflake.millis t) w.nodeID s, none, w) := by
  unfold singleWorker.GetID
  cases w with
  | mk mu l nd sq =>
    simp only at hmu
    subst hmu
    simp

/-- The call `GetID` changes nothing but the mutex. -/
theorem singleWorker.GetID_frame_single (w : singleWorker) (t : time.Time) (s : Int) (id : Int)
    (err : Option Error) (w' : singleWorker) (h : w.GetID t s = some (id, err, w')) :
    w.mu = false ∧ w'.lastTimeStamp = w.lastTimeStamp ∧ w'.sequence = w.sequence ∧
    w'.nodeID = w.nodeID ∧ (err = none → w' = w) := by
  have hmu : w.mu = false := by
    unfold singleWorker.GetID at h
    split_ifs at h with hmu
    all_goals simpa using hmu
  rw [singleWorker.GetID_free_single w t s hmu] at h
  split_ifs at h with h1
  · simp only [Option.some.injEq, Prod.mk.injEq] at h
    obtain ⟨-, he, hw⟩ := h
    subst hw he
    exact ⟨hmu, rfl, rfl, rfl, by simp⟩
  · simp only [Option.some.injEq, Prod.mk.injEq] at h
    obtain ⟨-, he, hw⟩ := h
    subst hw he
    exact ⟨hmu, rfl, rfl, rfl, fun _ => rfl⟩

/-- The successful `NextID` calls of a run return increasing IDs, all of them above the
packing of the state the run starts from. -/
theorem singleWorker.run_increasing_single (calls : List Call) :
    ∀ (w : singleWorker) (clock : List time.Time) (rets : List (Return Error))
      (w' : singleWorker) (rest : List time.Time),
      w.Inv → (∀ c ∈ clock, snowflake.offsetFits (snowflake.millis c)) →
      w.run calls clock = some (rets, w', rest) →
      (issued rets).Pairwise (· < ·) ∧
      ∀ x ∈ issued rets, pack w.lastTimeStamp w.nodeID w.sequence < x := by
  induction calls with
  | nil =>
    intro w clock rets w' rest _ _ h
    simp only [singleWorker.run, Option.some.injEq, Prod.mk.injEq] at h
    obtain ⟨rfl, -, -⟩ := h
    simp [issued]
  | cons call calls ih =>
    intro w clock rets w' rest hinv hfit h
    obtain ⟨hn, hs, hl⟩ := hinv
    cases call with
    | NextID =>
      simp only [singleWorker.run] at h
      split at h
      · simp at h
      · rename_i id err w1 clock1 hnext
        split at h
        · simp at h
        · rename_i rs w2 clock2 hrun
          simp only [Option.some.injEq, Prod.mk.injEq] at h
          obtain ⟨rfl, -, -⟩ := h
          cases err with
          | some e =>
            obtain ⟨-, -, hw1, c, hc, -, -⟩ := singleWorker.NextID_err_single _ _ _ _ _ _ hnext
            subst hw1
            have hfit1 : ∀ x ∈ clock1, snowflake.offsetFits (snowflake.millis x) := by
              intro x hx; exact hfit x (by rw [hc]; exact List.mem_cons_of_mem _ hx)
            rw [issued_cons_err]
            exact ih { w with mu := true } _ _ _ _ ⟨hn, hs, hl⟩ hfit1 hrun
          | none =>
            obtain ⟨-, -, hnode, hid, hs1, hstep, hlast, hsub⟩ :=
              singleWorker.NextID_ok_single _ _ _ _ _ hnext
            have hl1 : snowflake.offsetFits w1.lastTimeStamp := by
              rcases hlast with h0 | ⟨c, hc, h0⟩
              · rw [h0]; unfold snowflake.offsetFits snowflake.TW_EPOCH; omega
              · rw [h0]; exact hfit c hc
            have hinv1 : w1.Inv := ⟨by rw [hnode]; exact hn, hs1, hl1⟩
            obtain ⟨ih1, ih2⟩ := ih _ _ _ _ _ hinv1 (fun x hx => hfit x (hsub x hx)) hrun
            rw [hnode, ← hid] at ih2
            have hlt : pack w.lastTimeStamp w.nodeID w.sequence < id := by
              rw [hid]
              unfold snowflake.offsetFits at hl hl1
              rw [pack_eq_sum_single _ _ _ (by omega) (by omega) hn.1 hn.2 hs.1 hs.2,
                pack_eq_sum_single _ _ _ (by omega) (by omega) hn.1 hn.2 hs1.1 hs1.2]
              rcases hstep with ⟨h1, h2⟩ | ⟨h1, h2, h3⟩
              · omega
              · rw [h2] at h3
                rw [and64_succ_4095 _ hs.1 hs.2 h3] at h2
                omega
            rw [issued_cons_ok]
            refine ⟨List.pairwise_cons.mpr ⟨ih2, ih1⟩, ?_⟩
            intro x hx
            rcases List.mem_cons.mp hx with rfl | hx
            · exact hlt
            · exact lt_trans hlt (ih2 x hx)
    | GetID t s =>
      simp only [singleWorker.run] at h
      split at h
      · simp at h
      · rename_i id err w1 hget
        split at h
        · simp at h
        · rename_i rs w2 clock2 hrun
          simp only [Option.some.injEq, Prod.mk.injEq] at h
          obtain ⟨rfl, -, -⟩ := h
          obtain ⟨-, hl1, hs1, hn1, -⟩ := singleWorker.GetID_frame_single _ _ _ _ _ _ hget
          rw [issued_cons_GetID]
          have := ih w1 clock rs w2 clock2
            ⟨by rw [hn1]; exact hn, by rw [hs1]; exact hs,
              by rw [hl1]; exact hl⟩ hfit hrun
          rw [hl1, hs1, hn1] at this
          exact this

/-- The state after a run, and the shape of the IDs its successful `NextID` calls return. -/
theorem singleWorker.run_issued_single (calls : List Call) :
    ∀ (w : singleWorker) (clock : List time.Time) (rets : List (Return Error))
      (w' : singleWorker) (rest : List time.Time),
      w.Inv → (∀ c ∈ clock, snowflake.offsetFits (snowflake.millis c)) →
      w.run calls clock = some (rets, w', rest) →
      w'.Inv ∧ w'.nodeID = w.nodeID ∧
      w.lastTimeStamp ≤ w'.lastTimeStamp ∧
      (w.mu = false → (∀ r ∈ rets, r.err = none) → w'.mu = false) ∧
      ∀ x ∈ issued rets, ∃ T s, x = pack T w.nodeID s ∧
        snowflake.offsetFits T ∧ (0 ≤ s ∧ s ≤ 4095) ∧ T ≤ w'.lastTimeStamp := by
  induction calls with
  | nil =>
    intro w clock rets w' rest hinv _ h
    simp only [singleWorker.run, Option.some.injEq, Prod.mk.injEq] at h
    obtain ⟨rfl, rfl, -⟩ := h
    exact ⟨hinv, rfl, le_refl _, fun h _ => h, by simp [issued]⟩
  | cons call calls ih =>
    intro w clock rets w' rest hinv hfit h
    obtain ⟨hn, hs, hl⟩ := hinv
    cases call with
    | NextID =>
      simp only [singleWorker.run] at h
      split at h
      · simp at h
      · rename_i id err w1 clock1 hnext
        split at h
        · simp at h
        · rename_i rs w2 clock2 hrun
          simp only [Option.some.injEq, Prod.mk.injEq] at h
          obtain ⟨rfl, rfl, -⟩ := h
          cases err with
          | some e =>
            obtain ⟨-, -, hw1, c, hc, -, -⟩ := singleWorker.NextID_err_single _ _ _ _ _ _ hnext
            subst hw1
            have hfit1 : ∀ x ∈ clock1, snowflake.offsetFits (snowflake.millis x) := by
              intro x hx; exact hfit x (by rw [hc]; exact List.mem_cons_of_mem _ hx)
            obtain ⟨i1, i2, i4, -, i6⟩ :=
              ih { w with mu := true } _ _ _ _ ⟨hn, hs, hl⟩ hfit1 hrun
            refine ⟨i1, i2, i4, ?_, ?_⟩
            · intro _ hall
              have := hall _ (List.mem_cons_self _ _)
              simp at this
            · rw [issued_cons_err]; exact i6
          | none =>
            obtain ⟨-, hmu1, hnode, hid, hs1, hstep, hlast, hsub⟩ :=
              singleWorker.NextID_ok_single _ _ _ _ _ hnext
            have hl1 : snowflake.offsetFits w1.lastTimeStamp := by
              rcases hlast with h0 | ⟨c, hc, h0⟩
              · rw [h0]; exact offsetFits_zero
              · rw [h0]; exact hfit c hc
            have hinv1 : w1.Inv := ⟨by rw [hnode]; exact hn, hs1, hl1⟩
            obtain ⟨i1, i2, i4, i5, i6⟩ :=
              ih _ _ _ _ _ hinv1 (fun x hx => hfit x (hsub x hx)) hrun
            have hle : w.lastTimeStamp ≤ w1.lastTimeStamp := by
              rcases hstep with ⟨h1, -⟩ | ⟨h1, -, -⟩ <;> omega
            refine ⟨i1, by rw [i2, hnode], le_trans hle i4, ?_, ?_⟩
            · intro _ hall
              exact i5 hmu1 (fun r hr => hall r (List.mem_cons_of_mem _ hr))
            · rw [issued_cons_ok]
              intro x hx
              rcases List.mem_cons.mp hx with rfl | hx
              · exact ⟨w1.lastTimeStamp, w1.sequence, hid, hl1, hs1, i4⟩
              · have := i6 x hx
                rw [hnode] at this
                exact this
    | GetID t s =>
      simp only [singleWorker.run] at h
      split at h
      · simp at h
      · rename_i id err w1 hget
        split at h
        · simp at h
        · rename_i rs w2 clock2 hrun
          simp only [Option.some.injEq, Prod.mk.injEq] at h
          obtain ⟨rfl, rfl, -⟩ := h
          obtain ⟨-, hl1, hs1, hn1, hsame⟩ := singleWorker.GetID_frame_single _ _ _ _ _ _ hget
          obtain ⟨i1, i2, i4, i5, i6⟩ := ih w1 clock rs w2 clock2
            ⟨by rw [hn1]; exact hn, by rw [hs1]; exact hs,
              by rw [hl1]; exact hl⟩ hfit hrun
          rw [hl1] at i4
          rw [hn1] at i2
          refine ⟨i1, i2, i4, ?_, ?_⟩
          · intro hmu hall
            have he : err = none := hall _ (List.mem_cons_self _ _)
            have hw : w1 = w := hsame he
            exact i5 (by rw [hw]; exact hmu) (fun r hr => hall r (List.mem_cons_of_mem _ hr))
          · rw [issued_cons_GetID]
            rw [hn1] at i6
            exact i6

/-- A worker that `New` returns satisfies the invariant and its mutex is free. -/
theorem New_ok_single (nodeID : Int) (w : singleWorker) (h : New nodeID = .ok w) :
    (0 ≤ nodeID ∧ nodeID ≤ 1023) ∧
    w = { mu := false, lastTimeStamp := 0, nodeID := nodeID, sequence := 0 } := by
  unfold New at h
  rw [maxNodeId_eq_single] at h
  split_ifs at h with h1
  simp only [Except.ok.injEq] at h
  exact ⟨by omega, h.symm⟩

theorem New_Inv_single (nodeID : Int) (w : singleWorker) (h : New nodeID = .ok w) :
    w.Inv ∧ w.mu = false ∧ w.nodeID = nodeID := by
  obtain ⟨h1, rfl⟩ := New_ok_single _ _ h
  exact ⟨⟨h1, by simp, offsetFits_zero⟩, rfl, rfl⟩

/-- After a run without error, `GetID` reconstructs every ID that `NextID` returned. -/
theorem singleWorker.run_reconstruct_single (nodeID : Int) (w : singleWorker)
    (hnew : New nodeID = .ok w) (calls : List Call) (clock : List time.Time)
    (rets : List (Return Error)) (w' : singleWorker) (rest : List time.Time)
    (hfit : ∀ c ∈ clock, snowflake.offsetFits (snowflake.millis c))
    (hrun : w.run calls clock = some (rets, w', rest))
    (hok : ∀ r ∈ rets, r.err = none) (x : Int) (hx : x ∈ issued rets) :
    w'.GetID (time.Unix 0 (mul64 (SingleWorkerID.Time x) 1000000)) (SingleWorkerID.Sequence x)
      = some (x, none, w') := by
  obtain ⟨hinv, hmu, hn⟩ := New_Inv_single _ _ hnew
  obtain ⟨i1, i2, -, i5, i6⟩ := singleWorker.run_issued_single calls w clock rets w' rest hinv hfit hrun
  obtain ⟨T, s, hxe, hT, hs, hle⟩ := i6 x hx
  obtain ⟨d1, -, d4, -⟩ := decode_pack_single T w.nodeID s hT hinv.1 hs
  rw [hxe, d1, d4, singleWorker.GetID_free_single _ _ _ (i5 hmu hok), millis_Unix T hT, i2]
  have hcond : ¬(w'.lastTimeStamp ≠ 0 ∧ T > w'.lastTimeStamp) := by
    clear hxe d1 d4 i6
    omega
  rw [if_neg hcond]

/-- The ID of a successful `NextID` carries the identity of the worker. -/
theorem singleWorker.NextID_identity_single (w : singleWorker) (clock : List time.Time) (id : Int)
    (w' : singleWorker) (rest : List time.Time)
    (hn : 0 ≤ w.nodeID ∧ w.nodeID ≤ 1023)
    (hfit : ∀ c ∈ clock, snowflake.offsetFits (snowflake.millis c))
    (h : w.NextID clock = some (id, none, w', rest)) :
    SingleWorkerID.Node id = w.nodeID := by
  obtain ⟨-, -, -, hid, hs1, -, hlast, -⟩ := singleWorker.NextID_ok_single _ _ _ _ _ h
  have hl1 : snowflake.offsetFits w'.lastTimeStamp := by
    rcases hlast with h0 | ⟨c, hc, h0⟩
    · rw [h0]; exact offsetFits_zero
    · rw [h0]; exact hfit c hc
  obtain ⟨-, d2, -, -⟩ := decode_pack_single _ _ _ hl1 hn hs1
  rw [hid]
  exact d2

/-- The result of `NextID` when the reading is behind `lastTimeStamp`. -/
theorem singleWorker.NextID_regress_single (w : singleWorker) (c : time.Time) (clock : List time.Time)
    (hmu : w.mu = false) (h : snowflake.millis c < w.lastTimeStamp) :
    w.NextID (c :: clock) =
      some (0, some (Error.ClockMovedBackwards (sub64 w.lastTimeStamp (snowflake.millis c))),
        { w with mu := true }, clock) := by
  unfold singleWorker.NextID
  simp [hmu, h]

end single

/-! ## The claims about the workers -/

/-- C1. Monotonicity of `NextID`, both variants: on a worker that `New` returned, when the
offset from `TW_EPOCH` of every clock reading fits the timestamp field, the IDs that the
successful `NextID` calls of any sequence of calls return are strictly increasing in the order
of the calls: each one is greater than all the IDs that `NextID` returned before it, across
millisecond boundaries and sequence rollovers. (No reading is below `lastTimeStamp` when
the call succeeds, and `TilNextMillis` returns a value above its argument.) -/
theorem C1_NextID_increasing (nodeId datacenterId : Int) (n : multi.multiWorker)
    (hn : multi.New nodeId datacenterId = .ok n)
    (nodeID : Int) (m : single.singleWorker) (hm : single.New nodeID = .ok m)
    (calls : List Call) (clock : List time.Time)
    (hfit : ∀ c ∈ clock, snowflake.offsetFits (snowflake.millis c)) :
    (∀ rets n' rest, n.run calls clock = some (rets, n', rest) →
      (issued rets).Pairwise (· < ·)) ∧
    (∀ rets m' rest, m.run calls clock = some (rets, m', rest) →
      (issued rets).Pairwise (· < ·)) :=
  ⟨fun rets n' rest h =>
      (multi.multiWorker.run_increasing_multi calls n clock rets n' rest
        (multi.New_Inv_multi _ _ _ hn).1 hfit h).1,
    fun rets m' rest h =>
      (single.singleWorker.run_increasing_single calls m clock rets m' rest
        (single.New_Inv_single _ _ hm).1 hfit h).1⟩

/-- Witness of C1: three `NextID` calls, two in one millisecond and one in the next, on the
workers `New(1, 1)` and `New(1)`. -/
theorem C1_NextID_increasing_witness :
    multi.New 1 1 = .ok ⟨false, 0, 1, 1, 0⟩ ∧ single.New 1 = .ok ⟨false, 0, 1, 0⟩ ∧
    (∀ c ∈ [(1288834974658000000 : Int), 1288834974658999999, 1288834974659000000],
      snowflake.offsetFits (snowflake.millis c)) ∧
    (⟨false, 0, 1, 1, 0⟩ : multi.multiWorker).run [Call.NextID, Call.NextID, Call.NextID]
        [1288834974658000000, 1288834974658999999, 1288834974659000000] =
      some ([⟨Call.NextID, 4329472, none⟩, ⟨Call.NextID, 4329473, none⟩,
        ⟨Call.NextID, 8523776, none⟩], ⟨false, 1288834974659, 1, 1, 0⟩, []) ∧
    (⟨false, 0, 1, 0⟩ : single.singleWorker).run [Call.NextID, Call.NextID, Call.NextID]
        [1288834974658000000, 1288834974658999999, 1288834974659000000] =
      some ([⟨Call.NextID, 4198400, none⟩, ⟨Call.NextID, 4198401, none⟩,
        ⟨Call.NextID, 8392704, none⟩], ⟨false, 1288834974659, 1, 0⟩, []) ∧
    [(4329472 : Int), 4329473, 8523776].Pairwise (· < ·) ∧
    [(4198400 : Int), 4198401, 8392704].Pairwise (· < ·) :=
  ⟨rfl, rfl, by decide, by decide, by decide,
    (C1_NextID_increasing 1 1 ⟨false, 0, 1, 1, 0⟩ rfl 1 ⟨false, 0, 1, 0⟩ rfl
      [Call.NextID, Call.NextID, Call.NextID]
      [1288834974658000000, 1288834974658999999, 1288834974659000000] (by decide)).1
      [⟨Call.NextID, 4329472, none⟩, ⟨Call.NextID, 4329473, none⟩, ⟨Call.NextID, 8523776, none⟩]
      ⟨false, 1288834974659, 1, 1, 0⟩ [] (by decide),
    (C1_NextID_increasing 1 1 ⟨false, 0, 1, 1, 0⟩ rfl 1 ⟨false, 0, 1, 0⟩ rfl
      [Call.NextID, Call.NextID, Call.NextID]
      [1288834974658000000, 1288834974658999999, 1288834974659000000] (by decide)).2
      [⟨Call.NextID, 4198400, none⟩, ⟨Call.NextID, 4198401, none⟩, ⟨Call.NextID, 8392704, none⟩]
      ⟨false, 1288834974659, 1, 0⟩ [] (by decide)⟩

/-- C4. Collision freedom across workers, both variants: two workers that `New` returned for
different identities (`multi`: the pairs of node and datacenter differ; `single`: the nodes
differ), whatever their `lastTimeStamp` and `sequence` are, never return the same ID from a
successful `NextID`, when the offset from `TW_EPOCH` of every clock reading fits the
timestamp field. -/
theorem C4_collision_freedom (n1 d1 n2 d2 : Int) (v1 v2 : multi.multiWorker)
    (h1 : multi.New n1 d1 = .ok v1) (h2 : multi.New n2 d2 = .ok v2) (hne : n1 ≠ n2 ∨ d1 ≠ d2)
    (m1 m2 : Int) (u1 u2 : single.singleWorker)
    (g1 : single.New m1 = .ok u1) (g2 : single.New m2 = .ok u2) (gne : m1 ≠ m2)
    (last1 seq1 last2 seq2 : Int) (clock1 clock2 : List time.Time)
    (hfit1 : ∀ c ∈ clock1, snowflake.offsetFits (snowflake.millis c))
    (hfit2 : ∀ c ∈ clock2, snowflake.offsetFits (snowflake.millis c)) :
    (∀ id1 w1 rest1 id2 w2 rest2,
      ({ v1 with lastTimeStamp := last1, sequence := seq1 } : multi.multiWorker).NextID clock1
        = some (id1, none, w1, rest1) →
      ({ v2 with lastTimeStamp := last2, sequence := seq2 } : multi.multiWorker).NextID clock2
        = some (id2, none, w2, rest2) →
      id1 ≠ id2) ∧
    (∀ id1 w1 rest1 id2 w2 rest2,
      ({ u1 with lastTimeStamp := last1, sequence := seq1 } : single.singleWorker).NextID clock1
        = some (id1, none, w1, rest1) →
      ({ u2 with lastTimeStamp := last2, sequence := seq2 } : single.singleWorker).NextID clock2
        = some (id2, none, w2, rest2) →
      id1 ≠ id2) := by
  obtain ⟨a1, a2, rfl⟩ := multi.New_ok_multi _ _ _ h1
  obtain ⟨b1, b2, rfl⟩ := multi.New_ok_multi _ _ _ h2
  obtain ⟨c1, rfl⟩ := single.New_ok_single _ _ g1
  obtain ⟨c2, rfl⟩ := single.New_ok_single _ _ g2
  constructor
  · intro id1 w1 rest1 id2 w2 rest2 e1 e2 heq
    have k1 := multi.multiWorker.NextID_identity_multi _ _ _ _ _ a1 a2 hfit1 e1
    have k2 := multi.multiWorker.NextID_identity_multi _ _ _ _ _ b1 b2 hfit2 e2
    simp only at k1 k2
    rw [heq] at k1
    rcases hne with hne | hne
    · exact hne (k1.1.symm.trans k2.1)
    · exact hne (k1.2.symm.trans k2.2)
  · intro id1 w1 rest1 id2 w2 rest2 e1 e2 heq
    have k1 := single.singleWorker.NextID_identity_single _ _ _ _ _ c1 hfit1 e1
    have k2 := single.singleWorker.NextID_identity_single _ _ _ _ _ c2 hfit2 e2
    simp only at k1 k2
    rw [heq] at k1
    exact gne (k1.symm.trans k2)

/-- Witness of C4: the workers `New(1, 1)` and `New(2, 1)` (`single`: `New(1)` and `New(2)`)
read the same millisecond. -/
theorem C4_collision_freedom_witness :
    multi.New 1 1 = .ok ⟨false, 0, 1, 1, 0⟩ ∧ multi.New 2 1 = .ok ⟨false, 0, 2, 1, 0⟩ ∧
    ((1 : Int) ≠ 2 ∨ (1 : Int) ≠ 1) ∧
    single.New 1 = .ok ⟨false, 0, 1, 0⟩ ∧ single.New 2 = .ok ⟨false, 0, 2, 0⟩ ∧ (1 : Int) ≠ 2 ∧
    (∀ c ∈ [(1288834974658000000 : Int)], snowflake.offsetFits (snowflake.millis c)) ∧
    (⟨false, 0, 1, 1, 0⟩ : multi.multiWorker).NextID [1288834974658000000] =
      some (4329472, none, ⟨false, 1288834974658, 1, 1, 0⟩, []) ∧
    (⟨false, 0, 2, 1, 0⟩ : multi.multiWorker).NextID [1288834974658000000] =
      some (4333568, none, ⟨false, 1288834974658, 2, 1, 0⟩, []) ∧
    (⟨false, 0, 1, 0⟩ : single.singleWorker).NextID [1288834974658000000] =
      some (4198400, none, ⟨false, 1288834974658, 1, 0⟩, []) ∧
    (⟨false, 0, 2, 0⟩ : single.singleWorker).NextID [1288834974658000000] =
      some (4202496, none, ⟨false, 1288834974658, 2, 0⟩, []) ∧
    (4329472 : Int) ≠ 4333568 ∧ (4198400 : Int) ≠ 4202496 :=
  ⟨rfl, rfl, by decide, rfl, rfl, by decide, by decide, by decide, by decide, by decide,
    by decide,
    (C4_collision_freedom 1 1 2 1 ⟨false, 0, 1, 1, 0⟩ ⟨false, 0, 2, 1, 0⟩ rfl rfl (by decide)
      1 2 ⟨false, 0, 1, 0⟩ ⟨false, 0, 2, 0⟩ rfl rfl (by decide) 0 0 0 0
      [1288834974658000000] [1288834974658000000] (by decide) (by decide)).1
      4329472 ⟨false, 1288834974658, 1, 1, 0⟩ [] 4333568 ⟨false, 1288834974658, 2, 1, 0⟩ []
      (by decide) (by decide),
    (C4_collision_freedom 1 1 2 1 ⟨false, 0, 1, 1, 0⟩ ⟨false, 0, 2, 1, 0⟩ rfl rfl (by decide)
      1 2 ⟨false, 0, 1, 0⟩ ⟨false, 0, 2, 0⟩ rfl rfl (by decide) 0 0 0 0
      [1288834974658000000] [1288834974658000000] (by decide) (by decide)).2
      4198400 ⟨false, 1288834974658, 1, 0⟩ [] 4202496 ⟨false, 1288834974658, 2, 0⟩ []
      (by decide) (by decide)⟩

/-- C6. Reconstruction identity, both variants: after any sequence of calls on a worker that
`New` returned, all of them successful, with the offset from `TW_EPOCH` of every clock
reading fitting the timestamp field, the call
`GetID(time.Unix(0, x.Time()*1000000), x.Sequence())` returns no error and the ID `x`, for
every ID `x` that a `NextID` call of the sequence returned. -/
theorem C6_reconstruction (nodeId datacenterId : Int) (n : multi.multiWorker)
    (hn : multi.New nodeId datacenterId = .ok n)
    (nodeID : Int) (m : single.singleWorker) (hm : single.New nodeID = .ok m)
    (calls : List Call) (clock : List time.Time)
    (hfit : ∀ c ∈ clock, snowflake.offsetFits (snowflake.millis c)) :
    (∀ rets n' rest, n.run calls clock = some (rets, n', rest) → (∀ r ∈ rets, r.err = none) →
      ∀ x ∈ issued rets,
        n'.GetID (time.Unix 0 (mul64 (multi.MultiWorkerID.Time x) 1000000))
          (multi.MultiWorkerID.Sequence x) = some (x, none, n')) ∧
    (∀ rets m' rest, m.run calls clock = some (rets, m', rest) → (∀ r ∈ rets, r.err = none) →
      ∀ x ∈ issued rets,
        m'.GetID (time.Unix 0 (mul64 (single.SingleWorkerID.Time x) 1000000))
          (single.SingleWorkerID.Sequence x) = some (x, none, m')) :=
  ⟨fun rets n' rest hrun hok x hx =>
      multi.multiWorker.run_reconstruct_multi nodeId datacenterId n hn calls clock rets n' rest
        hfit hrun hok x hx,
    fun rets m' rest hrun hok x hx =>
      single.singleWorker.run_reconstruct_single nodeID m hm calls clock rets m' rest
        hfit hrun hok x hx⟩

/-- Witness of C6: the scenario of `TestGetID`, an ID of `New(1, 1)` (of `New(1)`) that is
reconstructed after a second `NextID` in the same millisecond. -/
theorem C6_reconstruction_witness :
    multi.New 1 1 = .ok ⟨false, 0, 1, 1, 0⟩ ∧ single.New 1 = .ok ⟨false, 0, 1, 0⟩ ∧
    (∀ c ∈ [(1288834974658000000 : Int), 1288834974658999999],
      snowflake.offsetFits (snowflake.millis c)) ∧
    (⟨false, 0, 1, 1, 0⟩ : multi.multiWorker).run [Call.NextID, Call.NextID]
        [1288834974658000000, 1288834974658999999] =
      some ([⟨Call.NextID, 4329472, none⟩, ⟨Call.NextID, 4329473, none⟩],
        ⟨false, 1288834974658, 1, 1, 1⟩, []) ∧
    (⟨false, 0, 1, 0⟩ : single.singleWorker).run [Call.NextID, Call.NextID]
        [1288834974658000000, 1288834974658999999] =
      some ([⟨Call.NextID, 4198400, none⟩, ⟨Call.NextID, 4198401, none⟩],
        ⟨false, 1288834974658, 1, 1⟩, []) ∧
    (⟨false, 1288834974658, 1, 1, 1⟩ : multi.multiWorker).GetID
        (time.Unix 0 (mul64 (multi.MultiWorkerID.Time 4329472) 1000000))
        (multi.MultiWorkerID.Sequence 4329472) =
      some (4329472, none, ⟨false, 1288834974658, 1, 1, 1⟩) ∧
    (⟨false, 1288834974658, 1, 1⟩ : single.singleWorker).GetID
        (time.Unix 0 (mul64 (single.SingleWorkerID.Time 4198400) 1000000))
        (single.SingleWorkerID.Sequence 4198400) =
      some (4198400, none, ⟨false, 1288834974658, 1, 1⟩) :=
  ⟨rfl, rfl, by decide, by decide, by decide,
    (C6_reconstruction 1 1 ⟨false, 0, 1, 1, 0⟩ rfl 1 ⟨false, 0, 1, 0⟩ rfl
      [Call.NextID, Call.NextID] [1288834974658000000, 1288834974658999999] (by decide)).1
      [⟨Call.NextID, 4329472, none⟩, ⟨Call.NextID, 4329473, none⟩]
      ⟨false, 1288834974658, 1, 1, 1⟩ [] (by decide) (by decide) 4329472 (by decide),
    (C6_reconstruction 1 1 ⟨false, 0, 1, 1, 0⟩ rfl 1 ⟨false, 0, 1, 0⟩ rfl
      [Call.NextID, Call.NextID] [1288834974658000000, 1288834974658999999] (by decide)).2
      [⟨Call.NextID, 4198400, none⟩, ⟨Call.NextID, 4198401, none⟩]
      ⟨false, 1288834974658, 1, 1⟩ [] (by decide) (by decide) 4198400 (by decide)⟩

/-- C7. Clock regression, both variants: a `NextID` call that takes the mutex and reads the
clock returns an error exactly when the reading `now` is strictly below `lastTimeStamp`; then
the returned ID is 0, the error reports the `int64` difference `lastTimeStamp - now` (the
exact difference when the offset of `lastTimeStamp` fits the timestamp field), and
`lastTimeStamp`, `sequence` and the identity fields of the worker are what they were
before the call. -/
theorem C7_clock_regression (n : multi.multiWorker) (m : single.singleWorker)
    (hn : n.mu = false) (hm : m.mu = false) (c : time.Time) (clock : List time.Time) :
    (((∃ id e n' rest, n.NextID (c :: clock) = some (id, some e, n', rest)) ↔
        snowflake.millis c < n.lastTimeStamp) ∧
      (snowflake.millis c < n.lastTimeStamp →
        ∃ n', n.NextID (c :: clock) = some (0, some (multi.Error.ClockMovedBackwards
            (sub64 n.lastTimeStamp (snowflake.millis c))), n', clock) ∧
          n'.lastTimeStamp = n.lastTimeStamp ∧ n'.sequence = n.sequence ∧
          n'.nodeID = n.nodeID ∧ n'.datacenterId = n.datacenterId) ∧
      (snowflake.offsetFits n.lastTimeStamp →
        sub64 n.lastTimeStamp (snowflake.millis c) = n.lastTimeStamp - snowflake.millis c)) ∧
    (((∃ id e m' rest, m.NextID (c :: clock) = some (id, some e, m', rest)) ↔
        snowflake.millis c < m.lastTimeStamp) ∧
      (snowflake.millis c < m.lastTimeStamp →
        ∃ m', m.NextID (c :: clock) = some (0, some (single.Error.ClockMovedBackwards
            (sub64 m.lastTimeStamp (snowflake.millis c))), m', clock) ∧
          m'.lastTimeStamp = m.lastTimeStamp ∧ m'.sequence = m.sequence ∧
          m'.nodeID = m.nodeID) ∧
      (snowflake.offsetFits m.lastTimeStamp →
        sub64 m.lastTimeStamp (snowflake.millis c) = m.lastTimeStamp - snowflake.millis c)) := by
  have hsub : ∀ last : Int, snowflake.offsetFits last →
      sub64 last (snowflake.millis c) = last - snowflake.millis c := by
    intro last hl
    have hr := millis_range c
    unfold snowflake.offsetFits snowflake.TW_EPOCH at hl
    unfold sub64 wrap64
    omega
  refine ⟨⟨⟨?_, ?_⟩, ?_, hsub _⟩, ⟨⟨?_, ?_⟩, ?_, hsub _⟩⟩
  · rintro ⟨id, e, n', rest, h⟩
    obtain ⟨-, -, -, c', hc, hlt, -⟩ := multi.multiWorker.NextID_err_multi _ _ _ _ _ _ h
    rw [(List.cons.inj hc).1]
    exact hlt
  · intro h
    exact ⟨_, _, _, _, multi.multiWorker.NextID_regress_multi n c clock hn h⟩
  · intro h
    exact ⟨_, multi.multiWorker.NextID_regress_multi n c clock hn h, rfl, rfl, rfl, rfl⟩
  · rintro ⟨id, e, m', rest, h⟩
    obtain ⟨-, -, -, c', hc, hlt, -⟩ := single.singleWorker.NextID_err_single _ _ _ _ _ _ h
    rw [(List.cons.inj hc).1]
    exact hlt
  · intro h
    exact ⟨_, _, _, _, single.singleWorker.NextID_regress_single m c clock hm h⟩
  · intro h
    exact ⟨_, single.singleWorker.NextID_regress_single m c clock hm h, rfl, rfl, rfl⟩

/-- Witness of C7: the workers have `lastTimeStamp` 1288834974659 and the clock reads
1288834974658 milliseconds. -/
theorem C7_clock_regression_witness :
    (⟨false, 1288834974659, 1, 1, 3⟩ : multi.multiWorker).mu = false ∧
    (⟨false, 1288834974659, 1, 3⟩ : single.singleWorker).mu = false ∧
    snowflake.millis 1288834974658000000 < 1288834974659 ∧
    (⟨false, 1288834974659, 1, 1, 3⟩ : multi.multiWorker).NextID [1288834974658000000] =
      some (0, some (multi.Error.ClockMovedBackwards 1), ⟨true, 1288834974659, 1, 1, 3⟩, []) ∧
    (⟨false, 1288834974659, 1, 3⟩ : single.singleWorker).NextID [1288834974658000000] =
      some (0, some (single.Error.ClockMovedBackwards 1), ⟨true, 1288834974659, 1, 3⟩, []) ∧
    ((∃ id e n' rest, (⟨false, 1288834974659, 1, 1, 3⟩ : multi.multiWorker).NextID
        [1288834974658000000] = some (id, some e, n', rest)) ↔
      snowflake.millis 1288834974658000000 < 1288834974659) ∧
    ((∃ id e m' rest, (⟨false, 1288834974659, 1, 3⟩ : single.singleWorker).NextID
        [1288834974658000000] = some (id, some e, m', rest)) ↔
      snowflake.millis 1288834974658000000 < 1288834974659) :=
  ⟨rfl, rfl, by decide, by decide, by decide,
    (C7_clock_regression ⟨false, 1288834974659, 1, 1, 3⟩ ⟨false, 1288834974659, 1, 3⟩ rfl rfl
      1288834974658000000 []).1.1,
    (C7_clock_regression ⟨false, 1288834974659, 1, 1, 3⟩ ⟨false, 1288834974659, 1, 3⟩ rfl rfl
      1288834974658000000 []).2.1⟩

/-- For a time whose nanoseconds fit an `int64` the expression `t.UnixNano() / 1000000` is the
truncated quotient, and from the Unix epoch on it is the Unix time in milliseconds. -/
theorem millis_in_range (t : Int) (h1 : -2 ^ 63 ≤ t) (h2 : t < 2 ^ 63) :
    snowflake.millis t = Int.tdiv t 1000000 ∧
    (0 ≤ t → snowflake.millis t = time.Time.UnixMilli t) := by
  have e : wrap64 t = t := wrap64_of_range t (by omega) (by omega)
  have hq : wrap64 (Int.tdiv t 1000000) = Int.tdiv t 1000000 := by
    rw [tdiv_million]
    unfold wrap64
    split_ifs <;> omega
  unfold snowflake.millis div64 time.Time.UnixNano time.Time.UnixMilli
  rw [e, hq]
  refine ⟨rfl, fun h0 => ?_⟩
  rw [tdiv_million, if_pos h0]

/-- C8, with the target the code computes. Result of `GetID`, both variants: a `GetID(t, s)` call that takes the
mutex, with `target` the `int64` that the code computes, `t.UnixNano() / 1000000`, returns
`ErrForwardTime` exactly when `lastTimeStamp != 0` and `target > lastTimeStamp`, and then
the ID is 0; in every other case, so in every call on a worker whose `lastTimeStamp` is 0,
it returns no error and the ID
`((target - TW_EPOCH) << 22) | (datacenter << 17) | (node << 12) | s`
(`single`: `((target - TW_EPOCH) << 22) | (node << 12) | s`). This `target` is `t` in Unix
milliseconds when the Unix time of `t` in nanoseconds is in `[0, 2^63)`; for a time before
the Unix epoch whose nanoseconds fit an `int64` it is the quotient truncated toward zero. -/
theorem C8_GetID_result (n : multi.multiWorker) (m : single.singleWorker)
    (hn : n.mu = false) (hm : m.mu = false) (t : time.Time) (s : Int) :
    (((∃ id n', n.GetID t s = some (id, some multi.Error.ErrForwardTime, n')) ↔
        (n.lastTimeStamp ≠ 0 ∧ snowflake.millis t > n.lastTimeStamp)) ∧
      (n.lastTimeStamp ≠ 0 ∧ snowflake.millis t > n.lastTimeStamp →
        ∃ n', n.GetID t s = some (0, some multi.Error.ErrForwardTime, n')) ∧
      (¬(n.lastTimeStamp ≠ 0 ∧ snowflake.millis t > n.lastTimeStamp) →
        n.GetID t s = some (or64 (or64 (or64
          (shl64 (sub64 (snowflake.millis t) snowflake.TW_EPOCH) 22)
          (shl64 n.datacenterId 17)) (shl64 n.nodeID 12)) s, none, n)) ∧
      (n.lastTimeStamp = 0 →
        n.GetID t s = some (or64 (or64 (or64
          (shl64 (sub64 (snowflake.millis t) snowflake.TW_EPOCH) 22)
          (shl64 n.datacenterId 17)) (shl64 n.nodeID 12)) s, none, n))) ∧
    (((∃ id m', m.GetID t s = some (id, some single.Error.ErrForwardTime, m')) ↔
        (m.lastTimeStamp ≠ 0 ∧ snowflake.millis t > m.lastTimeStamp)) ∧
      (m.lastTimeStamp ≠ 0 ∧ snowflake.millis t > m.lastTimeStamp →
        ∃ m', m.GetID t s = some (0, some single.Error.ErrForwardTime, m')) ∧
      (¬(m.lastTimeStamp ≠ 0 ∧ snowflake.millis t > m.lastTimeStamp) →
        m.GetID t s = some (or64 (or64
          (shl64 (sub64 (snowflake.millis t) snowflake.TW_EPOCH) 22)
          (shl64 m.nodeID 12)) s, none, m)) ∧
      (m.lastTimeStamp = 0 →
        m.GetID t s = some (or64 (or64
          (shl64 (sub64 (snowflake.millis t) snowflake.TW_EPOCH) 22)
          (shl64 m.nodeID 12)) s, none, m))) ∧
    (snowflake.millis t = Int.tdiv (time.Time.UnixNano t) 1000000 ∧
      (0 ≤ t ∧ t < 2 ^ 63 → snowflake.millis t = time.Time.UnixMilli t) ∧
      (-2 ^ 63 ≤ t ∧ t < 2 ^ 63 → snowflake.millis t = Int.tdiv t 1000000)) := by
  have e1 := multi.multiWorker.GetID_free_multi n t s hn
  have e2 := single.singleWorker.GetID_free_single m t s hm
  have p1 : ∀ a b c d : Int, multi.pack a b c d =
      or64 (or64 (or64 (shl64 (sub64 a snowflake.TW_EPOCH) 22) (shl64 b 17)) (shl64 c 12)) d :=
    fun _ _ _ _ => rfl
  have p2 : ∀ a c d : Int, single.pack a c d =
      or64 (or64 (shl64 (sub64 a snowflake.TW_EPOCH) 22) (shl64 c 12)) d :=
    fun _ _ _ => rfl
  rw [p1] at e1
  rw [p2] at e2
  refine ⟨⟨⟨?_, ?_⟩, ?_, ?_, ?_⟩, ⟨⟨?_, ?_⟩, ?_, ?_, ?_⟩, ⟨?_, ?_, ?_⟩⟩
  · rintro ⟨id, n', h⟩
    by_contra hc
    rw [e1, if_neg hc] at h
    simp at h
  · intro hc
    rw [e1, if_pos hc]
    exact ⟨_, _, rfl⟩
  · intro hc
    rw [e1, if_pos hc]
    exact ⟨_, rfl⟩
  · intro hc
    rw [e1, if_neg hc]
  · intro h0
    rw [e1, if_neg (fun hc => hc.1 h0)]
  · rintro ⟨id, m', h⟩
    by_contra hc
    rw [e2, if_neg hc] at h
    simp at h
  · intro hc
    rw [e2, if_pos hc]
    exact ⟨_, _, rfl⟩
  · intro hc
    rw [e2, if_pos hc]
    exact ⟨_, rfl⟩
  · intro hc
    rw [e2, if_neg hc]
  · intro h0
    rw [e2, if_neg (fun hc => hc.1 h0)]
  · have hr := wrap64_range t
    have hq : wrap64 (Int.tdiv (wrap64 t) 1000000) = Int.tdiv (wrap64 t) 1000000 := by
      generalize wrap64 t = x at hr
      rw [tdiv_million]
      unfold wrap64
      split_ifs <;> omega
    unfold snowflake.millis div64 time.Time.UnixNano
    exact hq
  · intro h
    exact (millis_in_range t (le_trans (by norm_num) h.1) h.2).2 h.1
  · intro h
    exact (millis_in_range t h.1 h.2).1

/-- Witness of C8: workers whose `lastTimeStamp` is 1288834974658, asked for the millisecond
after it (refused) and for that millisecond with sequence 7. -/
theorem C8_GetID_result_witness :
    (⟨false, 1288834974658, 1, 1, 0⟩ : multi.multiWorker).mu = false ∧
    (⟨false, 1288834974658, 1, 0⟩ : single.singleWorker).mu = false ∧
    (⟨false, 1288834974658, 1, 1, 0⟩ : multi.multiWorker).GetID 1288834974659000000 7 =
      some (0, some multi.Error.ErrForwardTime, ⟨true, 1288834974658, 1, 1, 0⟩) ∧
    (⟨false, 1288834974658, 1, 0⟩ : single.singleWorker).GetID 1288834974659000000 7 =
      some (0, some single.Error.ErrForwardTime, ⟨true, 1288834974658, 1, 0⟩) ∧
    (⟨false, 1288834974658, 1, 1, 0⟩ : multi.multiWorker).GetID 1288834974658000000 7 =
      some (4329479, none, ⟨false, 1288834974658, 1, 1, 0⟩) ∧
    (⟨false, 1288834974658, 1, 0⟩ : single.singleWorker).GetID 1288834974658000000 7 =
      some (4198407, none, ⟨false, 1288834974658, 1, 0⟩) ∧
    ((∃ id n', (⟨false, 1288834974658, 1, 1, 0⟩ : multi.multiWorker).GetID 1288834974659000000 7
        = some (id, some multi.Error.ErrForwardTime, n')) ↔
      ((1288834974658 : Int) ≠ 0 ∧ snowflake.millis 1288834974659000000 > 1288834974658)) ∧
    ((∃ id m', (⟨false, 1288834974658, 1, 0⟩ : single.singleWorker).GetID 1288834974659000000 7
        = some (id, some single.Error.ErrForwardTime, m')) ↔
      ((1288834974658 : Int) ≠ 0 ∧ snowflake.millis 1288834974659000000 > 1288834974658)) ∧
    ((0 : Int) ≤ 1288834974659000000 ∧ (1288834974659000000 : Int) < 2 ^ 63) ∧
    time.Time.UnixMilli 1288834974659000000 = 1288834974659 ∧
    snowflake.millis 1288834974659000000 = time.Time.UnixMilli 1288834974659000000 :=
  ⟨rfl, rfl, by decide, by decide, by decide, by decide,
    (C8_GetID_result ⟨false, 1288834974658, 1, 1, 0⟩ ⟨false, 1288834974658, 1, 0⟩ rfl rfl
      1288834974659000000 7).1.1,
    (C8_GetID_result ⟨false, 1288834974658, 1, 1, 0⟩ ⟨false, 1288834974658, 1, 0⟩ rfl rfl
      1288834974659000000 7).2.1.1,
    by decide, by decide,
    (C8_GetID_result ⟨false, 1288834974658, 1, 1, 0⟩ ⟨false, 1288834974658, 1, 0⟩ rfl rfl
      1288834974659000000 7).2.2.2.1 (by decide)⟩

/-- C8, counterexample: with `target` the time `t` in Unix milliseconds, C8 fails at the time
`time.Unix(10000000000, 0)`, of the year 2286: its Unix time is 10000000000000 milliseconds,
above the `lastTimeStamp` 1288834974658 of the workers, which is not 0, yet `GetID` returns
no error, because `t.UnixNano()` has wrapped and the code compares the target -8446744073709;
and on the workers with `lastTimeStamp` 0 the ID that `GetID` returns is not the packing of
10000000000000. -/
theorem C8_GetID_result_counterexample :
    time.Time.UnixMilli (time.Unix 10000000000 0) = 10000000000000 ∧
    snowflake.millis (time.Unix 10000000000 0) = -8446744073709 ∧
    ((⟨false, 1288834974658, 1, 1, 0⟩ : multi.multiWorker).GetID (time.Unix 10000000000 0) 0 =
        some (-3940489997458468864, none, ⟨false, 1288834974658, 1, 1, 0⟩) ∧
      ¬((∃ id n', (⟨false, 1288834974658, 1, 1, 0⟩ : multi.multiWorker).GetID
            (time.Unix 10000000000 0) 0 = some (id, some multi.Error.ErrForwardTime, n')) ↔
          ((1288834974658 : Int) ≠ 0 ∧
            time.Time.UnixMilli (time.Unix 10000000000 0) > 1288834974658)) ∧
      (⟨false, 0, 1, 1, 0⟩ : multi.multiWorker).GetID (time.Unix 10000000000 0) 0 ≠
        some (or64 (or64 (or64
          (shl64 (sub64 (time.Time.UnixMilli (time.Unix 10000000000 0)) snowflake.TW_EPOCH) 22)
          (shl64 1 17)) (shl64 1 12)) 0, none, ⟨false, 0, 1, 1, 0⟩)) ∧
    ((⟨false, 1288834974658, 1, 0⟩ : single.singleWorker).GetID (time.Unix 10000000000 0) 0 =
        some (-3940489997458599936, none, ⟨false, 1288834974658, 1, 0⟩) ∧
      ¬((∃ id m', (⟨false, 1288834974658, 1, 0⟩ : single.singleWorker).GetID
            (time.Unix 10000000000 0) 0 = some (id, some single.Error.ErrForwardTime, m')) ↔
          ((1288834974658 : Int) ≠ 0 ∧
            time.Time.UnixMilli (time.Unix 10000000000 0) > 1288834974658)) ∧
      (⟨false, 0, 1, 0⟩ : single.singleWorker).GetID (time.Unix 10000000000 0) 0 ≠
        some (or64 (or64
          (shl64 (sub64 (time.Time.UnixMilli (time.Unix 10000000000 0)) snowflake.TW_EPOCH) 22)
          (shl64 1 12)) 0, none, ⟨false, 0, 1, 0⟩)) := by
  have hm : (⟨false, 1288834974658, 1, 1, 0⟩ : multi.multiWorker).GetID
      (time.Unix 10000000000 0) 0 =
        some (-3940489997458468864, none, ⟨false, 1288834974658, 1, 1, 0⟩) := by decide
  have hs : (⟨false, 1288834974658, 1, 0⟩ : single.singleWorker).GetID
      (time.Unix 10000000000 0) 0 =
        some (-3940489997458599936, none, ⟨false, 1288834974658, 1, 0⟩) := by decide
  have hc : (1288834974658 : Int) ≠ 0 ∧
      time.Time.UnixMilli (time.Unix 10000000000 0) > 1288834974658 := by decide
  refine ⟨by decide, by decide, ⟨hm, ?_, by decide⟩, ⟨hs, ?_, by decide⟩⟩
  · intro hiff
    obtain ⟨id, n', h⟩ := hiff.mpr hc
    rw [hm] at h
    simp at h
  · intro hiff
    obtain ⟨id, m', h⟩ := hiff.mpr hc
    rw [hs] at h
    simp at h

/-- C9, at a failing input. On the workers `New(1, 1)` and `New(1)` a `NextID` at the
millisecond 1288834974658 succeeds; `GetID` for the millisecond after it then returns
`ErrForwardTime` and leaves `lastTimeStamp`, `sequence` and the identity as they were, but it
returns with the mutex held: the following `NextID` never returns, whereas without the
`GetID` call it returns an ID. -/
theorem C9_failed_GetID_blocks_NextID :
    (multi.New 1 1 = .ok ⟨false, 0, 1, 1, 0⟩ ∧
      (⟨false, 0, 1, 1, 0⟩ : multi.multiWorker).run
          [Call.NextID, Call.GetID 1288834974659000000 0]
          [1288834974658000000, 1288834974659000000] =
        some ([⟨Call.NextID, 4329472, none⟩,
            ⟨Call.GetID 1288834974659000000 0, 0, some multi.Error.ErrForwardTime⟩],
          ⟨true, 1288834974658, 1, 1, 0⟩, [1288834974659000000]) ∧
      (⟨false, 0, 1, 1, 0⟩ : multi.multiWorker).run
          [Call.NextID, Call.GetID 1288834974659000000 0, Call.NextID]
          [1288834974658000000, 1288834974659000000] = none ∧
      (⟨false, 0, 1, 1, 0⟩ : multi.multiWorker).run [Call.NextID, Call.NextID]
          [1288834974658000000, 1288834974659000000] =
        some ([⟨Call.NextID, 4329472, none⟩, ⟨Call.NextID, 8523776, none⟩],
          ⟨false, 1288834974659, 1, 1, 0⟩, [])) ∧
    (single.New 1 = .ok ⟨false, 0, 1, 0⟩ ∧
      (⟨false, 0, 1, 0⟩ : single.singleWorker).run
          [Call.NextID, Call.GetID 1288834974659000000 0]
          [1288834974658000000, 1288834974659000000] =
        some ([⟨Call.NextID, 4198400, none⟩,
            ⟨Call.GetID 1288834974659000000 0, 0, some single.Error.ErrForwardTime⟩],
          ⟨true, 1288834974658, 1, 0⟩, [1288834974659000000]) ∧
      (⟨false, 0, 1, 0⟩ : single.singleWorker).run
          [Call.NextID, Call.GetID 1288834974659000000 0, Call.NextID]
          [1288834974658000000, 1288834974659000000] = none ∧
      (⟨false, 0, 1, 0⟩ : single.singleWorker).run [Call.NextID, Call.NextID]
          [1288834974658000000, 1288834974659000000] =
        some ([⟨Call.NextID, 4198400, none⟩, ⟨Call.NextID, 8392704, none⟩],
          ⟨false, 1288834974659, 1, 0⟩, [])) :=
  ⟨⟨rfl, by decide, by decide, by decide⟩, ⟨rfl, by decide, by decide, by decide⟩⟩

/-- C10. Validation by the constructors. `single.New(node)` succeeds exactly when
`0 <= node <= 1023` and otherwise returns no worker and `ErrInvalidNode`; `multi.New(node, dc)`
succeeds exactly when `0 <= node <= 31` and `0 <= dc <= 31`, returns `ErrInvalidNode` whenever
the node is out of range and `ErrInvalidDataCenter` exactly when the node is in range and the
datacenter is not. A worker that is returned holds the given identity, `lastTimeStamp = 0`
and `sequence = 0`. In particular `2^bits - 1` is accepted, `2^bits` and `-1` are rejected. -/
theorem C10_constructor_validation :
    (∀ node : Int,
      ((∃ w, single.New node = .ok w) ↔ (0 ≤ node ∧ node ≤ 1023)) ∧
      (¬(0 ≤ node ∧ node ≤ 1023) → single.New node = .error single.Error.ErrInvalidNode) ∧
      (∀ w, single.New node = .ok w →
        w.nodeID = node ∧ w.lastTimeStamp = 0 ∧ w.sequence = 0 ∧ w.mu = false)) ∧
    (∀ node dc : Int,
      ((∃ w, multi.New node dc = .ok w) ↔ ((0 ≤ node ∧ node ≤ 31) ∧ (0 ≤ dc ∧ dc ≤ 31))) ∧
      (¬(0 ≤ node ∧ node ≤ 31) → multi.New node dc = .error multi.Error.ErrInvalidNode) ∧
      (multi.New node dc = .error multi.Error.ErrInvalidDataCenter ↔
        ((0 ≤ node ∧ node ≤ 31) ∧ ¬(0 ≤ dc ∧ dc ≤ 31))) ∧
      (∀ w, multi.New node dc = .ok w →
        w.nodeID = node ∧ w.datacenterId = dc ∧ w.lastTimeStamp = 0 ∧ w.sequence = 0 ∧
        w.mu = false)) ∧
    (single.New (2 ^ 10 - 1) = .ok ⟨false, 0, 1023, 0⟩ ∧
      single.New (2 ^ 10) = .error single.Error.ErrInvalidNode ∧
      single.New (-1) = .error single.Error.ErrInvalidNode) ∧
    (multi.New (2 ^ 5 - 1) (2 ^ 5 - 1) = .ok ⟨false, 0, 31, 31, 0⟩ ∧
      multi.New (2 ^ 5) 0 = .error multi.Error.ErrInvalidNode ∧
      multi.New (-1) 0 = .error multi.Error.ErrInvalidNode ∧
      multi.New 0 (2 ^ 5) = .error multi.Error.ErrInvalidDataCenter ∧
      multi.New 0 (-1) = .error multi.Error.ErrInvalidDataCenter) := by
  refine ⟨fun node => ?_, fun node dc => ?_, ⟨rfl, rfl, rfl⟩, ⟨rfl, rfl, rfl, rfl, rfl⟩⟩
  · unfold single.New
    rw [single.maxNodeId_eq_single]
    by_cases h : node > 1023 ∨ node < 0
    · rw [if_pos h]
      refine ⟨⟨?_, ?_⟩, fun _ => rfl, ?_⟩
      · rintro ⟨w, hw⟩; cases hw
      · intro h'; omega
      · intro w hw; cases hw
    · rw [if_neg h]
      refine ⟨⟨fun _ => by omega, fun _ => ⟨_, rfl⟩⟩, fun h' => by omega, ?_⟩
      intro w hw
      cases hw
      exact ⟨rfl, rfl, rfl, rfl⟩
  · unfold multi.New
    rw [multi.maxNodeId_eq_multi, multi.maxDatacenterId_eq]
    by_cases h : node > 31 ∨ node < 0
    · rw [if_pos h]
      refine ⟨⟨?_, ?_⟩, fun _ => rfl, ⟨?_, ?_⟩, ?_⟩
      · rintro ⟨w, hw⟩; cases hw
      · intro h'; omega
      · intro hw; cases hw
      · intro h'; omega
      · intro w hw; cases hw
    · rw [if_neg h]
      by_cases h2 : dc > 31 ∨ dc < 0
      · rw [if_pos h2]
        refine ⟨⟨?_, ?_⟩, fun h' => by omega, ⟨fun _ => ⟨by omega, by omega⟩, fun _ => rfl⟩, ?_⟩
        · rintro ⟨w, hw⟩; cases hw
        · intro h'; omega
        · intro w hw; cases hw
      · rw [if_neg h2]
        refine ⟨⟨fun _ => by omega, fun _ => ⟨_, rfl⟩⟩, fun h' => by omega,
          ⟨?_, fun h' => by omega⟩, ?_⟩
        · intro hw; cases hw
        · intro w hw
          cases hw
          exact ⟨rfl, rfl, rfl, rfl, rfl⟩

/-! ## The decimal text of the IDs -/

namespace strconv

theorem le_foldl_decimal (s : List Nat) : ∀ n : Nat,
    n ≤ s.foldl (fun n c => n * 10 + (c - 48)) n := by
  induction s with
  | nil => intro n; exact le_refl _
  | cons c s ih =>
    intro n
    simp only [List.foldl_cons]
    exact le_trans (by omega) (ih _)

/-- On decimal digits whose value fits 64 bits the loop of `ParseUint` returns the value. -/
theorem parseUintLoop_digits (s : List Nat) : ∀ n : Nat,
    (∀ c ∈ s, 48 ≤ c ∧ c ≤ 57) →
    s.foldl (fun n c => n * 10 + (c - 48)) n < 18446744073709551616 →
    parseUintLoop n s = (s.foldl (fun n c => n * 10 + (c - 48)) n, none) := by
  induction s with
  | nil => intro n _ _; rfl
  | cons c s ih =>
    intro n hd hv
    have hc := hd c (List.mem_cons_self _ _)
    simp only [List.foldl_cons] at hv ⊢
    have hle := le_foldl_decimal s (n * 10 + (c - 48))
    unfold parseUintLoop
    rw [if_pos hc]
    have h1 : ¬ (n ≥ 18446744073709551615 / 10 + 1) := by omega
    rw [if_neg h1]
    simp only
    have h2 : (n * 10 + (c - 48)) % 18446744073709551616 = n * 10 + (c - 48) :=
      Nat.mod_eq_of_lt (by omega)
    rw [h2]
    have h3 : ¬ (n * 10 + (c - 48) < n * 10 ∨ n * 10 + (c - 48) > 18446744073709551615) := by
      omega
    rw [if_neg h3]
    exact ih _ (fun x hx => hd x (List.mem_cons_of_mem _ hx)) hv

/-- The digits that `formatBits` writes denote `u`. -/
theorem formatBits_value (fuel : Nat) : ∀ (u : Nat) (acc : List Nat), u < fuel →
    (formatBits fuel u acc).foldl (fun n c => n * 10 + (c - 48)) 0 =
      acc.foldl (fun n c => n * 10 + (c - 48)) u := by
  induction fuel with
  | zero => intro u acc h; omega
  | succ fuel ih =>
    intro u acc h
    unfold formatBits
    split_ifs with h10
    · rw [ih (u / 10) _ (by omega)]
      simp only [List.foldl_cons]
      congr 1
      omega
    · simp only [List.foldl_cons]
      congr 1
      omega

/-- What `formatBits` writes are decimal digits. -/
theorem formatBits_digits (fuel : Nat) : ∀ (u : Nat) (acc : List Nat), u < fuel →
    (∀ c ∈ acc, 48 ≤ c ∧ c ≤ 57) → ∀ c ∈ formatBits fuel u acc, 48 ≤ c ∧ c ≤ 57 := by
  induction fuel with
  | zero => intro u acc h; omega
  | succ fuel ih =>
    intro u acc h hacc
    unfold formatBits
    split_ifs with h10
    · apply ih (u / 10) _ (by omega)
      intro c hc
      rcases List.mem_cons.mp hc with rfl | hc
      · constructor <;> omega
      · exact hacc c hc
    · intro c hc
      rcases List.mem_cons.mp hc with rfl | hc
      · constructor <;> omega
      · exact hacc c hc

/-- The first digit that `formatBits` writes is `0` only for the number 0. -/
theorem formatBits_head (fuel : Nat) : ∀ (u : Nat) (acc : List Nat), u < fuel →
    ∃ c rest, formatBits fuel u acc = c :: rest ∧ (48 ≤ c ∧ c ≤ 57) ∧
      (c = 48 → u = 0 ∧ rest = acc) := by
  induction fuel with
  | zero => intro u acc h; omega
  | succ fuel ih =>
    intro u acc h
    unfold formatBits
    split_ifs with h10
    · obtain ⟨c, rest, e, hc, h0⟩ := ih (u / 10) ((48 + u % 10) :: acc) (by omega)
      refine ⟨c, rest, e, hc, fun hz => ?_⟩
      have := (h0 hz).1
      omega
    · exact ⟨48 + u, acc, rfl, ⟨by omega, by omega⟩, fun hz => ⟨by omega, rfl⟩⟩

/-- The text of `FormatInt`: a `-` for a negative number, then the decimal digits of the
magnitude, without a leading zero. -/
theorem FormatInt_spec (i : Int) (h1 : -9223372036854775808 ≤ i) (h2 : i < 9223372036854775808) :
    ∃ ds : List Nat, FormatInt i = (if i < 0 then [45] else []) ++ ds ∧
      (∀ c ∈ ds, 48 ≤ c ∧ c ≤ 57) ∧
      ds.foldl (fun n c => n * 10 + (c - 48)) 0 = i.natAbs ∧
      (∃ c rest, ds = c :: rest ∧ (c = 48 → rest = [])) := by
  unfold FormatInt
  split_ifs with hneg
  · have hb : toBits (-i) = i.natAbs := by unfold toBits; omega
    rw [hb]
    refine ⟨formatBits (i.natAbs + 1) i.natAbs [], rfl,
      formatBits_digits _ _ _ (by omega) (by simp), ?_, ?_⟩
    · rw [formatBits_value _ _ _ (by omega)]; rfl
    · obtain ⟨c, rest, e, -, h0⟩ := formatBits_head (i.natAbs + 1) i.natAbs [] (by omega)
      exact ⟨c, rest, e, fun hz => (h0 hz).2⟩
  · have hb : toBits i = i.natAbs := by unfold toBits; omega
    rw [hb]
    refine ⟨formatBits (i.natAbs + 1) i.natAbs [], by simp,
      formatBits_digits _ _ _ (by omega) (by simp), ?_, ?_⟩
    · rw [formatBits_value _ _ _ (by omega)]; rfl
    · obtain ⟨c, rest, e, -, h0⟩ := formatBits_head (i.natAbs + 1) i.natAbs [] (by omega)
      exact ⟨c, rest, e, fun hz => (h0 hz).2⟩

/-- The library's `ParseInt` reads back what `FormatInt` writes. -/
theorem ParseInt_FormatInt (i : Int) (h1 : -9223372036854775808 ≤ i)
    (h2 : i < 9223372036854775808) : ParseInt (FormatInt i) = (i, none) := by
  obtain ⟨ds, e, hd, hv, c, rest, hds, -⟩ := FormatInt_spec i h1 h2
  have hpu : ParseUint ds = (i.natAbs, none) := by
    unfold ParseUint
    rw [if_neg (by rw [hds]; simp), parseUintLoop_digits ds 0 hd (by rw [hv]; omega), hv]
  rw [e]
  split_ifs with hneg
  · simp only [List.singleton_append]
    unfold ParseInt
    simp only [show ¬ ((45 : Nat) = 43) by decide, if_false, if_true, hpu]
    simp
    rw [if_neg (show ¬ (9223372036854775808 < i.natAbs) by omega), abs_of_neg hneg]
    congr 1
    unfold wrap64
    omega
  · simp only [List.nil_append]
    have hc := hd c (by rw [hds]; exact List.mem_cons_self _ _)
    subst hds
    unfold ParseInt
    simp only [show ¬ (c = 43) by omega, show ¬ (c = 45) by omega, if_false, hpu]
    simp
    rw [if_neg (show ¬ (9223372036854775808 ≤ i.natAbs) by omega), abs_of_nonneg (by omega)]
    congr 1
    unfold wrap64
    omega

end strconv

/-- The parts of a text between double quotes. -/
theorem quoted_parts (F : List Nat) :
    (34 :: (F ++ [34]))[0]? = some 34 ∧
    (34 :: (F ++ [34]))[(34 :: (F ++ [34])).length - 1]? = some 34 ∧
    ((34 :: (F ++ [34])).take ((34 :: (F ++ [34])).length - 1)).drop 1 = F := by
  refine ⟨by simp, ?_, ?_⟩
  · rw [← List.getLast?_eq_getElem?, ← List.cons_append, List.getLast?_concat]
  · rw [← List.dropLast_eq_take, ← List.cons_append, List.dropLast_concat]
    rfl

namespace multi

/-- The result of `UnmarshalJSON` on a text that is not between double quotes. -/
theorem UnmarshalJSON_shape_multi (f : Int) (b : List Nat)
    (h : b.length < 3 ∨ b.head? ≠ some 34 ∨ b.getLast? ≠ some 34) :
    MultiWorkerID.UnmarshalJSON f b = (f, some (Error.JSONSyntaxError b)) := by
  unfold MultiWorkerID.UnmarshalJSON
  rw [List.head?_eq_getElem?, List.getLast?_eq_getElem?] at h
  rw [if_pos h]

/-- The result of `UnmarshalJSON` on a text between double quotes. -/
theorem UnmarshalJSON_parse_multi (f : Int) (b : List Nat)
    (h : ¬(b.length < 3 ∨ b.head? ≠ some 34 ∨ b.getLast? ≠ some 34)) :
    (∀ i, strconv.ParseInt ((b.take (b.length - 1)).drop 1) = (i, none) →
      MultiWorkerID.UnmarshalJSON f b = (i, none)) ∧
    (∀ i err, strconv.ParseInt ((b.take (b.length - 1)).drop 1) = (i, some err) →
      MultiWorkerID.UnmarshalJSON f b = (f, some (Error.NumError err))) := by
  unfold MultiWorkerID.UnmarshalJSON
  rw [List.head?_eq_getElem?, List.getLast?_eq_getElem?] at h
  rw [if_neg h]
  constructor
  · intro i hp; rw [hp]
  · intro i err hp; rw [hp]

/-- The result of `MarshalJSON`. -/
theorem MarshalJSON_eq_multi (f : Int) :
    MultiWorkerID.MarshalJSON f = (34 :: (MultiWorkerID.String f ++ [34]), none) := by
  unfold MultiWorkerID.MarshalJSON MultiWorkerID.String strconv.AppendInt
  simp

/-- The call `UnmarshalJSON` reads back what `MarshalJSON` writes. -/
theorem UnmarshalJSON_MarshalJSON_multi (v f : Int) (h1 : -9223372036854775808 ≤ v)
    (h2 : v < 9223372036854775808) :
    MultiWorkerID.UnmarshalJSON f (MultiWorkerID.MarshalJSON v).1 = (v, none) := by
  rw [MarshalJSON_eq_multi]
  simp only
  obtain ⟨q1, q2, q3⟩ := quoted_parts (MultiWorkerID.String v)
  obtain ⟨ds, e, -, -, c, rest, hds, -⟩ := strconv.FormatInt_spec v h1 h2
  have hlen : 1 ≤ (MultiWorkerID.String v).length := by
    unfold MultiWorkerID.String
    rw [e, hds]
    simp only [List.length_append, List.length_cons]
    omega
  have hshape : ¬((34 :: (MultiWorkerID.String v ++ [34])).length < 3 ∨
      (34 :: (MultiWorkerID.String v ++ [34])).head? ≠ some 34 ∨
      (34 :: (MultiWorkerID.String v ++ [34])).getLast? ≠ some 34) := by
    rw [List.head?_eq_getElem?, List.getLast?_eq_getElem?, q1, q2]
    simp only [List.length_cons, List.length_append, List.length_nil, List.length_singleton,
      ne_eq, not_true_eq_false, or_false, not_lt]
    omega
  apply (UnmarshalJSON_parse_multi f _ hshape).1
  rw [q3]
  unfold MultiWorkerID.String
  exact strconv.ParseInt_FormatInt v h1 h2

end multi

namespace single

/-- The result of `UnmarshalJSON` on a text that is not between double quotes. -/
theorem UnmarshalJSON_shape_single (f : Int) (b : List Nat)
    (h : b.length < 3 ∨ b.head? ≠ some 34 ∨ b.getLast? ≠ some 34) :
    SingleWorkerID.UnmarshalJSON f b = (f, some (Error.JSONSyntaxError b)) := by
  unfold SingleWorkerID.UnmarshalJSON
  rw [List.head?_eq_getElem?, List.getLast?_eq_getElem?] at h
  rw [if_pos h]

/-- The result of `UnmarshalJSON` on a text between double quotes. -/
theorem UnmarshalJSON_parse_single (f : Int) (b : List Nat)
    (h : ¬(b.length < 3 ∨ b.head? ≠ some 34 ∨ b.getLast? ≠ some 34)) :
    (∀ i, strconv.ParseInt ((b.take (b.length - 1)).drop 1) = (i, none) →
      SingleWorkerID.UnmarshalJSON f b = (i, none)) ∧
    (∀ i err, strconv.ParseInt ((b.take (b.length - 1)).drop 1) = (i, some err) →
      SingleWorkerID.UnmarshalJSON f b = (f, some (Error.NumError err))) := by
  unfold SingleWorkerID.UnmarshalJSON
  rw [List.head?_eq_getElem?, List.getLast?_eq_getElem?] at h
  rw [if_neg h]
  constructor
  · intro i hp; rw [hp]
  · intro i err hp; rw [hp]

/-- The result of `MarshalJSON`. -/
theorem MarshalJSON_eq_single (f : Int) :
    SingleWorkerID.MarshalJSON f = (34 :: (SingleWorkerID.String f ++ [34]), none) := by
  unfold SingleWorkerID.MarshalJSON SingleWorkerID.String strconv.AppendInt
  simp

/-- The call `UnmarshalJSON` reads back what `MarshalJSON` writes. -/
theorem UnmarshalJSON_MarshalJSON_single (v f : Int) (h1 : -9223372036854775808 ≤ v)
    (h2 : v < 9223372036854775808) :
    SingleWorkerID.UnmarshalJSON f (SingleWorkerID.MarshalJSON v).1 = (v, none) := by
  rw [MarshalJSON_eq_single]
  simp only
  obtain ⟨q1, q2, q3⟩ := quoted_parts (SingleWorkerID.String v)
  obtain ⟨ds, e, -, -, c, rest, hds, -⟩ := strconv.FormatInt_spec v h1 h2
  have hlen : 1 ≤ (SingleWorkerID.String v).length := by
    unfold SingleWorkerID.String
    rw [e, hds]
    simp only [List.length_append, List.length_cons]
    omega
  have hshape : ¬((34 :: (SingleWorkerID.String v ++ [34])).length < 3 ∨
      (34 :: (SingleWorkerID.String v ++ [34])).head? ≠ some 34 ∨
      (34 :: (SingleWorkerID.String v ++ [34])).getLast? ≠ some 34) := by
    rw [List.head?_eq_getElem?, List.getLast?_eq_getElem?, q1, q2]
    simp only [List.length_cons, List.length_append, List.length_nil, List.length_singleton,
      ne_eq, not_true_eq_false, or_false, not_lt]
    omega
  apply (UnmarshalJSON_parse_single f _ hshape).1
  rw [q3]
  unfold SingleWorkerID.String
  exact strconv.ParseInt_FormatInt v h1 h2

end single

/-! ## The claims about the JSON form of the IDs -/

/-- C11. Format of `MarshalJSON`, both ID types: for every `int64` value `v`, `MarshalJSON`
returns a nil error and the bytes of a double quote, the text of `String()`, and a double
quote; `Bytes()` returns the bytes of the same text, and the text is the base-10
representation of `v`: a `-` when `v` is negative, then decimal digits, without a leading
zero, that denote the magnitude of `v`. -/
theorem C11_MarshalJSON_format (v : Int) (h1 : -2 ^ 63 ≤ v) (h2 : v < 2 ^ 63) :
    (multi.MultiWorkerID.MarshalJSON v = (34 :: (multi.MultiWorkerID.String v ++ [34]), none) ∧
      multi.MultiWorkerID.Bytes v = multi.MultiWorkerID.String v) ∧
    (single.SingleWorkerID.MarshalJSON v =
        (34 :: (single.SingleWorkerID.String v ++ [34]), none) ∧
      single.SingleWorkerID.Bytes v = single.SingleWorkerID.String v) ∧
    ∃ ds : List Nat,
      multi.MultiWorkerID.String v = (if v < 0 then [45] else []) ++ ds ∧
      single.SingleWorkerID.String v = (if v < 0 then [45] else []) ++ ds ∧
      (∀ c ∈ ds, 48 ≤ c ∧ c ≤ 57) ∧
      ds.foldl (fun n c => n * 10 + (c - 48)) 0 = v.natAbs ∧
      (∃ c rest, ds = c :: rest ∧ (c = 48 → rest = [])) := by
  obtain ⟨ds, e, hd, hv, hz⟩ := strconv.FormatInt_spec v (by omega) (by omega)
  exact ⟨⟨multi.MarshalJSON_eq_multi v, rfl⟩, ⟨single.MarshalJSON_eq_single v, rfl⟩,
    ds, e, e, hd, hv, hz⟩

/-- Witness of C11: the value 13587 of `TestMarshalJSON` gives the 7 bytes `"13587"`, and
the value -40 gives `"-40"`. -/
theorem C11_MarshalJSON_format_witness :
    (-2 ^ 63 ≤ (13587 : Int) ∧ (13587 : Int) < 2 ^ 63) ∧
    multi.MultiWorkerID.String 13587 = [49, 51, 53, 56, 55] ∧
    single.SingleWorkerID.String 13587 = [49, 51, 53, 56, 55] ∧
    multi.MultiWorkerID.MarshalJSON 13587 = ([34, 49, 51, 53, 56, 55, 34], none) ∧
    single.SingleWorkerID.MarshalJSON 13587 = ([34, 49, 51, 53, 56, 55, 34], none) ∧
    multi.MultiWorkerID.MarshalJSON (-40) = ([34, 45, 52, 48, 34], none) ∧
    (multi.MultiWorkerID.MarshalJSON 13587 =
        (34 :: (multi.MultiWorkerID.String 13587 ++ [34]), none) ∧
      multi.MultiWorkerID.Bytes 13587 = multi.MultiWorkerID.String 13587) ∧
    (single.SingleWorkerID.MarshalJSON 13587 =
        (34 :: (single.SingleWorkerID.String 13587 ++ [34]), none) ∧
      single.SingleWorkerID.Bytes 13587 = single.SingleWorkerID.String 13587) :=
  ⟨by decide, by decide, by decide, by decide, by decide, by decide,
    (C11_MarshalJSON_format 13587 (by decide) (by decide)).1,
    (C11_MarshalJSON_format 13587 (by decide) (by decide)).2.1⟩

/-- C12. Shape check of `UnmarshalJSON`, both ID types: for every byte slice `b` the call
returns a `JSONSyntaxError` exactly when `len(b) < 3` or the first byte of `b` is not `"` or
its last byte is not `"`, and then the error carries `b` itself (and the receiver is
unchanged); for every other `b` the outcome is that of parsing `b[1:len(b)-1]` with
`strconv.ParseInt(_, 10, 64)`: its value with a nil error, or its error. The texts `1` and
`"invalid` of `TestUnmarshalJSON` give a `JSONSyntaxError`. -/
theorem C12_UnmarshalJSON_shape :
    (∀ (f : Int) (b : List Nat),
      ((∃ orig f', multi.MultiWorkerID.UnmarshalJSON f b =
          (f', some (multi.Error.JSONSyntaxError orig))) ↔
        (b.length < 3 ∨ b.head? ≠ some 34 ∨ b.getLast? ≠ some 34)) ∧
      ((b.length < 3 ∨ b.head? ≠ some 34 ∨ b.getLast? ≠ some 34) →
        multi.MultiWorkerID.UnmarshalJSON f b = (f, some (multi.Error.JSONSyntaxError b))) ∧
      (¬(b.length < 3 ∨ b.head? ≠ some 34 ∨ b.getLast? ≠ some 34) →
        (∀ i, strconv.ParseInt ((b.take (b.length - 1)).drop 1) = (i, none) →
          multi.MultiWorkerID.UnmarshalJSON f b = (i, none)) ∧
        (∀ i err, strconv.ParseInt ((b.take (b.length - 1)).drop 1) = (i, some err) →
          multi.MultiWorkerID.UnmarshalJSON f b = (f, some (multi.Error.NumError err))))) ∧
    (∀ (f : Int) (b : List Nat),
      ((∃ orig f', single.SingleWorkerID.UnmarshalJSON f b =
          (f', some (single.Error.JSONSyntaxError orig))) ↔
        (b.length < 3 ∨ b.head? ≠ some 34 ∨ b.getLast? ≠ some 34)) ∧
      ((b.length < 3 ∨ b.head? ≠ some 34 ∨ b.getLast? ≠ some 34) →
        single.SingleWorkerID.UnmarshalJSON f b =
          (f, some (single.Error.JSONSyntaxError b))) ∧
      (¬(b.length < 3 ∨ b.head? ≠ some 34 ∨ b.getLast? ≠ some 34) →
        (∀ i, strconv.ParseInt ((b.take (b.length - 1)).drop 1) = (i, none) →
          single.SingleWorkerID.UnmarshalJSON f b = (i, none)) ∧
        (∀ i err, strconv.ParseInt ((b.take (b.length - 1)).drop 1) = (i, some err) →
          single.SingleWorkerID.UnmarshalJSON f b =
            (f, some (single.Error.NumError err))))) ∧
    (multi.MultiWorkerID.UnmarshalJSON 0 [49] = (0, some (multi.Error.JSONSyntaxError [49])) ∧
      multi.MultiWorkerID.UnmarshalJSON 0 [34, 105, 110, 118, 97, 108, 105, 100] =
        (0, some (multi.Error.JSONSyntaxError [34, 105, 110, 118, 97, 108, 105, 100])) ∧
      multi.MultiWorkerID.UnmarshalJSON 0 [34, 49, 51, 53, 56, 55, 34] = (13587, none)) ∧
    (single.SingleWorkerID.UnmarshalJSON 0 [49] =
        (0, some (single.Error.JSONSyntaxError [49])) ∧
      single.SingleWorkerID.UnmarshalJSON 0 [34, 105, 110, 118, 97, 108, 105, 100] =
        (0, some (single.Error.JSONSyntaxError [34, 105, 110, 118, 97, 108, 105, 100])) ∧
      single.SingleWorkerID.UnmarshalJSON 0 [34, 49, 51, 53, 56, 55, 34] = (13587, none)) := by
  refine ⟨fun f b => ⟨⟨?_, ?_⟩, multi.UnmarshalJSON_shape_multi f b,
      multi.UnmarshalJSON_parse_multi f b⟩,
    fun f b => ⟨⟨?_, ?_⟩, single.UnmarshalJSON_shape_single f b,
      single.UnmarshalJSON_parse_single f b⟩,
    ⟨by decide, by decide, by decide⟩, ⟨by decide, by decide, by decide⟩⟩
  · rintro ⟨orig, f', h⟩
    by_contra hs
    obtain ⟨p1, p2⟩ := multi.UnmarshalJSON_parse_multi f b hs
    rcases hp : strconv.ParseInt ((b.take (b.length - 1)).drop 1) with ⟨i, _ | err⟩
    · rw [p1 i hp] at h; simp at h
    · rw [p2 i err hp] at h; simp at h
  · intro hs
    exact ⟨b, f, multi.UnmarshalJSON_shape_multi f b hs⟩
  · rintro ⟨orig, f', h⟩
    by_contra hs
    obtain ⟨p1, p2⟩ := single.UnmarshalJSON_parse_single f b hs
    rcases hp : strconv.ParseInt ((b.take (b.length - 1)).drop 1) with ⟨i, _ | err⟩
    · rw [p1 i hp] at h; simp at h
    · rw [p2 i err hp] at h; simp at h
  · intro hs
    exact ⟨b, f, single.UnmarshalJSON_shape_single f b hs⟩

/-- C13. JSON round trip, both ID types: for every `int64` value `v`, the minimum and the
maximum included, and every prior value `f` of the receiver, `UnmarshalJSON` on the bytes
that `MarshalJSON` returns for `v` returns a nil error and sets the receiver to `v`. -/
theorem C13_JSON_roundtrip (v f : Int) (h1 : -2 ^ 63 ≤ v) (h2 : v < 2 ^ 63) :
    multi.MultiWorkerID.UnmarshalJSON f (multi.MultiWorkerID.MarshalJSON v).1 = (v, none) ∧
    single.SingleWorkerID.UnmarshalJSON f (single.SingleWorkerID.MarshalJSON v).1 = (v, none) :=
  ⟨multi.UnmarshalJSON_MarshalJSON_multi v f (by omega) (by omega),
    single.UnmarshalJSON_MarshalJSON_single v f (by omega) (by omega)⟩

/-- Witness of C13: the minimum `int64`, with the receiver holding 5 before. -/
theorem C13_JSON_roundtrip_witness :
    (-2 ^ 63 ≤ (-9223372036854775808 : Int) ∧ (-9223372036854775808 : Int) < 2 ^ 63) ∧
    (multi.MultiWorkerID.MarshalJSON (-9223372036854775808)).1 =
      [34, 45, 57, 50, 50, 51, 51, 55, 50, 48, 51, 54, 56, 53, 52, 55, 55, 53, 56, 48, 56, 34] ∧
    multi.MultiWorkerID.UnmarshalJSON 5
      (multi.MultiWorkerID.MarshalJSON (-9223372036854775808)).1 =
        (-9223372036854775808, none) ∧
    single.SingleWorkerID.UnmarshalJSON 5
      (single.SingleWorkerID.MarshalJSON (-9223372036854775808)).1 =
        (-9223372036854775808, none) :=
  ⟨by decide, by decide,
    (C13_JSON_roundtrip (-9223372036854775808) 5 (by decide) (by decide)).1,
    (C13_JSON_roundtrip (-9223372036854775808) 5 (by decide) (by decide)).2⟩

/-- C14. `UnmarshalJSON` is atomic on failure, both ID types: for every byte slice `b` and
every prior value `f` of the receiver, when the call returns an error the receiver still
holds `f`; so the receiver changes only when the call returns nil. -/
theorem C14_UnmarshalJSON_atomic (f : Int) (b : List Nat) :
    ((∀ f' e, multi.MultiWorkerID.UnmarshalJSON f b = (f', some e) → f' = f) ∧
      ((multi.MultiWorkerID.UnmarshalJSON f b).1 ≠ f →
        (multi.MultiWorkerID.UnmarshalJSON f b).2 = none)) ∧
    ((∀ f' e, single.SingleWorkerID.UnmarshalJSON f b = (f', some e) → f' = f) ∧
      ((single.SingleWorkerID.UnmarshalJSON f b).1 ≠ f →
        (single.SingleWorkerID.UnmarshalJSON f b).2 = none)) := by
  have hm : (multi.MultiWorkerID.UnmarshalJSON f b).2 ≠ none →
      (multi.MultiWorkerID.UnmarshalJSON f b).1 = f := by
    by_cases hs : b.length < 3 ∨ b.head? ≠ some 34 ∨ b.getLast? ≠ some 34
    · rw [multi.UnmarshalJSON_shape_multi f b hs]; intro _; rfl
    · obtain ⟨p1, p2⟩ := multi.UnmarshalJSON_parse_multi f b hs
      rcases hp : strconv.ParseInt ((b.take (b.length - 1)).drop 1) with ⟨i, _ | err⟩
      · rw [p1 i hp]; intro h; exact absurd rfl h
      · rw [p2 i err hp]; intro _; rfl
  have hsg : (single.SingleWorkerID.UnmarshalJSON f b).2 ≠ none →
      (single.SingleWorkerID.UnmarshalJSON f b).1 = f := by
    by_cases hs : b.length < 3 ∨ b.head? ≠ some 34 ∨ b.getLast? ≠ some 34
    · rw [single.UnmarshalJSON_shape_single f b hs]; intro _; rfl
    · obtain ⟨p1, p2⟩ := single.UnmarshalJSON_parse_single f b hs
      rcases hp : strconv.ParseInt ((b.take (b.length - 1)).drop 1) with ⟨i, _ | err⟩
      · rw [p1 i hp]; intro h; exact absurd rfl h
      · rw [p2 i err hp]; intro _; rfl
  refine ⟨⟨fun f' e h => ?_, fun h => ?_⟩, ⟨fun f' e h => ?_, fun h => ?_⟩⟩
  · have := hm (by rw [h]; simp)
    rw [h] at this
    exact this
  · by_contra hne
    exact h (hm hne)
  · have := hsg (by rw [h]; simp)
    rw [h] at this
    exact this
  · by_contra hne
    exact h (hsg hne)

/-- Witness of C14: the receiver holds 7 and the text is `"12x"`, which has the shape but
does not parse, or `1`, which has not the shape. -/
theorem C14_UnmarshalJSON_atomic_witness :
    multi.MultiWorkerID.UnmarshalJSON 7 [34, 49, 50, 120, 34] =
      (7, some (multi.Error.NumError ⟨[49, 50, 120], strconv.Err.ErrSyntax⟩)) ∧
    single.SingleWorkerID.UnmarshalJSON 7 [49] =
      (7, some (single.Error.JSONSyntaxError [49])) ∧
    (7 : Int) = 7 ∧ (7 : Int) = 7 :=
  ⟨by decide, by decide,
    (C14_UnmarshalJSON_atomic 7 [34, 49, 50, 120, 34]).1.1 7
      (multi.Error.NumError ⟨[49, 50, 120], strconv.Err.ErrSyntax⟩) (by decide),
    (C14_UnmarshalJSON_atomic 7 [49]).2.1 7 (single.Error.JSONSyntaxError [49]) (by decide)⟩

/-! ## The state of a worker along its calls -/

namespace snowflake

/-- The loop of `TilNextMillis` ends at once when `timestamp` is above `lastTimestamp`. -/
theorem TilNextMillisLoop_done (last ts : Int) (clock : List time.Time) (h : last < ts) :
    TilNextMillisLoop last ts clock = some (ts, clock) := by
  cases clock with
  | nil => unfold TilNextMillisLoop; rw [if_neg (by omega)]
  | cons c clock => unfold TilNextMillisLoop; rw [if_neg (by omega)]

/-- The loop of `TilNextMillis` stops at the first reading above `lastTimestamp`. -/
theorem TilNextMillisLoop_first (last : Int) : ∀ (clock : List time.Time) (ts : Int),
    ts ≤ last → (∃ c ∈ clock, last < millis c) →
    ∃ pre c rest, clock = pre ++ c :: rest ∧ (∀ x ∈ pre, millis x ≤ last) ∧
      last < millis c ∧ TilNextMillisLoop last ts clock = some (millis c, rest) := by
  intro clock
  induction clock with
  | nil => intro ts _ h; obtain ⟨c, hc, -⟩ := h; cases hc
  | cons c clock ih =>
    intro ts hts hex
    unfold TilNextMillisLoop
    rw [if_pos hts]
    by_cases hc : last < millis c
    · exact ⟨[], c, clock, rfl, by simp, hc, TilNextMillisLoop_done last _ clock hc⟩
    · have hex' : ∃ x ∈ clock, last < millis x := by
        obtain ⟨x, hx, hlt⟩ := hex
        rcases List.mem_cons.mp hx with rfl | hx
        · exact absurd hlt hc
        · exact ⟨x, hx, hlt⟩
      obtain ⟨pre, c', rest, e, hpre, hc', hloop⟩ := ih (millis c) (by omega) hex'
      refine ⟨c :: pre, c', rest, by rw [e]; rfl, ?_, hc', hloop⟩
      intro x hx
      rcases List.mem_cons.mp hx with rfl | hx
      · omega
      · exact hpre x hx

/-- When the readings advance by at most one millisecond at a time, the first reading above
`lastTimestamp` is `lastTimestamp + 1`. -/
theorem first_above_succ (last : Int) : ∀ (pre : List time.Time) (a : Int) (c : time.Time)
    (rest : List time.Time), a ≤ last → (∀ x ∈ pre, millis x ≤ last) → last < millis c →
    List.Chain (fun a b => b ≤ a + 1) a ((pre ++ c :: rest).map millis) →
    millis c = last + 1 := by
  intro pre
  induction pre with
  | nil =>
    intro a c rest ha _ hc hch
    simp only [List.nil_append, List.map_cons, List.chain_cons] at hch
    omega
  | cons p pre ih =>
    intro a c rest _ hpre hc hch
    simp only [List.cons_append, List.map_cons, List.chain_cons] at hch
    exact ih (millis p) c rest (hpre p (List.mem_cons_self _ _))
      (fun x hx => hpre x (List.mem_cons_of_mem _ hx)) hc hch.2

end snowflake

namespace multi

/-- One call of `NextID` that returns keeps the invariant of the state. -/
theorem multiWorker.NextID_state_multi (w : multiWorker) (clock : List time.Time) (id : Int)
    (err : Option Error) (w' : multiWorker) (rest : List time.Time)
    (hs : 0 ≤ w.sequence ∧ w.sequence ≤ 4095)
    (h : w.NextID clock = some (id, err, w', rest)) :
    (0 ≤ w'.sequence ∧ w'.sequence ≤ 4095) ∧ w'.nodeID = w.nodeID ∧
    w'.datacenterId = w.datacenterId ∧ w.lastTimeStamp ≤ w'.lastTimeStamp := by
  cases err with
  | some e =>
    obtain ⟨-, -, hw, -⟩ := multiWorker.NextID_err_multi _ _ _ _ _ _ h
    subst hw
    exact ⟨hs, rfl, rfl, le_refl _⟩
  | none =>
    obtain ⟨-, -, hnode, hdc, -, hs1, hstep, -, -⟩ := multiWorker.NextID_ok_multi _ _ _ _ _ h
    refine ⟨hs1, hnode, hdc, ?_⟩
    rcases hstep with ⟨h1, -⟩ | ⟨h1, -, -⟩ <;> omega

/-- The state after a run: the sequence is within its width, the identity is the one the run
started with and `lastTimeStamp` has not decreased. -/
theorem multiWorker.run_state_multi (calls : List Call) :
    ∀ (w : multiWorker) (clock : List time.Time) (rets : List (Return Error))
      (w' : multiWorker) (rest : List time.Time),
      (0 ≤ w.sequence ∧ w.sequence ≤ 4095) →
      w.run calls clock = some (rets, w', rest) →
      (0 ≤ w'.sequence ∧ w'.sequence ≤ 4095) ∧ w'.nodeID = w.nodeID ∧
      w'.datacenterId = w.datacenterId ∧ w.lastTimeStamp ≤ w'.lastTimeStamp := by
  induction calls with
  | nil =>
    intro w clock rets w' rest hs h
    simp only [multiWorker.run, Option.some.injEq, Prod.mk.injEq] at h
    obtain ⟨-, rfl, -⟩ := h
    exact ⟨hs, rfl, rfl, le_refl _⟩
  | cons call calls ih =>
    intro w clock rets w' rest hs h
    cases call with
    | NextID =>
      simp only [multiWorker.run] at h
      split at h
      · simp at h
      · rename_i id err w1 clock1 hnext
        split at h
        · simp at h
        · rename_i rs w2 clock2 hrun
          simp only [Option.some.injEq, Prod.mk.injEq] at h
          obtain ⟨-, rfl, -⟩ := h
          obtain ⟨a1, a2, a3, a4⟩ := multiWorker.NextID_state_multi _ _ _ _ _ _ hs hnext
          obtain ⟨b1, b2, b3, b4⟩ := ih _ _ _ _ _ a1 hrun
          exact ⟨b1, b2.trans a2, b3.trans a3, le_trans a4 b4⟩
    | GetID t s =>
      simp only [multiWorker.run] at h
      split at h
      · simp at h
      · rename_i id err w1 hget
        split at h
        · simp at h
        · rename_i rs w2 clock2 hrun
          simp only [Option.some.injEq, Prod.mk.injEq] at h
          obtain ⟨-, rfl, -⟩ := h
          obtain ⟨-, hl1, hs1, hn1, hd1, -⟩ := multiWorker.GetID_frame_multi _ _ _ _ _ _ hget
          obtain ⟨b1, b2, b3, b4⟩ := ih w1 _ _ _ _ (by rw [hs1]; exact hs) hrun
          exact ⟨b1, b2.trans hn1, b3.trans hd1, by rw [hl1] at b4; exact b4⟩

/-- No call returns on a worker whose mutex is held. -/
theorem multiWorker.run_held_multi (w : multiWorker) (hmu : w.mu = true) (call : Call)
    (calls : List Call) (clock : List time.Time) : w.run (call :: calls) clock = none := by
  cases call with
  | NextID =>
    have h : w.NextID clock = none := by unfold multiWorker.NextID; rw [if_pos hmu]
    simp only [multiWorker.run, h]
  | GetID t s =>
    have h : w.GetID t s = none := by unfold multiWorker.GetID; rw [if_pos hmu]
    simp only [multiWorker.run, h]

end multi

namespace single

/-- One call of `NextID` that returns keeps the invariant of the state. -/
theorem singleWorker.NextID_state_single (w : singleWorker) (clock : List time.Time) (id : Int)
    (err : Option Error) (w' : singleWorker) (rest : List time.Time)
    (hs : 0 ≤ w.sequence ∧ w.sequence ≤ 4095)
    (h : w.NextID clock = some (id, err, w', rest)) :
    (0 ≤ w'.sequence ∧ w'.sequence ≤ 4095) ∧ w'.nodeID = w.nodeID ∧
    w.lastTimeStamp ≤ w'.lastTimeStamp := by
  cases err with
  | some e =>
    obtain ⟨-, -, hw, -⟩ := singleWorker.NextID_err_single _ _ _ _ _ _ h
    subst hw
    exact ⟨hs, rfl, le_refl _⟩
  | none =>
    obtain ⟨-, -, hnode, -, hs1, hstep, -, -⟩ := singleWorker.NextID_ok_single _ _ _ _ _ h
    refine ⟨hs1, hnode, ?_⟩
    rcases hstep with ⟨h1, -⟩ | ⟨h1, -, -⟩ <;> omega

/-- The state after a run: the sequence is within its width, the identity is the one the run
started with and `lastTimeStamp` has not decreased. -/
theorem singleWorker.run_state_single (calls : List Call) :
    ∀ (w : singleWorker) (clock : List time.Time) (rets : List (Return Error))
      (w' : singleWorker) (rest : List time.Time),
      (0 ≤ w.sequence ∧ w.sequence ≤ 4095) →
      w.run calls clock = some (rets, w', rest) →
      (0 ≤ w'.sequence ∧ w'.sequence ≤ 4095) ∧ w'.nodeID = w.nodeID ∧
      w.lastTimeStamp ≤ w'.lastTimeStamp := by
  induction calls with
  | nil =>
    intro w clock rets w' rest hs h
    simp only [singleWorker.run, Option.some.injEq, Prod.mk.injEq] at h
    obtain ⟨-, rfl, -⟩ := h
    exact ⟨hs, rfl, le_refl _⟩
  | cons call calls ih =>
    intro w clock rets w' rest hs h
    cases call with
    | NextID =>
      simp only [singleWorker.run] at h
      split at h
      · simp at h
      · rename_i id err w1 clock1 hnext
        split at h
        · simp at h
        · rename_i rs w2 clock2 hrun
          simp only [Option.some.injEq, Prod.mk.injEq] at h
          obtain ⟨-, rfl, -⟩ := h
          obtain ⟨a1, a2, a4⟩ := singleWorker.NextID_state_single _ _ _ _ _ _ hs hnext
          obtain ⟨b1, b2, b4⟩ := ih _ _ _ _ _ a1 hrun
          exact ⟨b1, b2.trans a2, le_trans a4 b4⟩
    | GetID t s =>
      simp only [singleWorker.run] at h
      split at h
      · simp at h
      · rename_i id err w1 hget
        split at h
        · simp at h
        · rename_i rs w2 clock2 hrun
          simp only [Option.some.injEq, Prod.mk.injEq] at h
          obtain ⟨-, rfl, -⟩ := h
          obtain ⟨-, hl1, hs1, hn1, -⟩ := singleWorker.GetID_frame_single _ _ _ _ _ _ hget
          obtain ⟨b1, b2, b4⟩ := ih w1 _ _ _ _ (by rw [hs1]; exact hs) hrun
          exact ⟨b1, b2.trans hn1, by rw [hl1] at b4; exact b4⟩

/-- No call returns on a worker whose mutex is held. -/
theorem singleWorker.run_held_single (w : singleWorker) (hmu : w.mu = true) (call : Call)
    (calls : List Call) (clock : List time.Time) : w.run (call :: calls) clock = none := by
  cases call with
  | NextID =>
    have h : w.NextID clock = none := by unfold singleWorker.NextID; rw [if_pos hmu]
    simp only [singleWorker.run, h]
  | GetID t s =>
    have h : w.GetID t s = none := by unfold singleWorker.GetID; rw [if_pos hmu]
    simp only [singleWorker.run, h]

end single

theorem and64_succ_lt_4095 (x : Int) (h0 : 0 ≤ x) (h1 : x < 4095) :
    and64 (add64 x 1) 4095 = x + 1 := by
  have h := and64_ones (add64 x 1) 12 (by omega)
  norm_num at h
  rw [h]
  unfold add64 wrap64 toBits
  omega

theorem and64_succ_eq_4095 : and64 (add64 4095 1) 4095 = 0 := by decide

/-- The call `TilNextMillis` returns when a reading is above `lastTimestamp`. -/
theorem TilNextMillis_returns (last : Int) (clock : List time.Time)
    (h : ∃ c ∈ clock, last < snowflake.millis c) :
    ∃ r rest, snowflake.TilNextMillis last clock = some (r, rest) := by
  by_cases h0 : 0 ≤ last
  · obtain ⟨pre, c, rest, -, -, -, hloop⟩ :=
      snowflake.TilNextMillisLoop_first last clock 0 h0 h
    exact ⟨_, _, hloop⟩
  · exact ⟨0, clock, snowflake.TilNextMillisLoop_done last 0 clock (by omega)⟩

namespace multi

/-- The call `NextID` when the reading is after `lastTimeStamp`. -/
theorem multiWorker.NextID_later_multi (w : multiWorker) (c : time.Time)
    (clock : List time.Time) (hmu : w.mu = false) (h : w.lastTimeStamp < snowflake.millis c) :
    w.NextID (c :: clock) =
      some (pack (snowflake.millis c) w.datacenterId w.nodeID 0, none,
        ⟨false, snowflake.millis c, w.nodeID, w.datacenterId, 0⟩, clock) := by
  unfold multiWorker.NextID
  have h1 : ¬ snowflake.millis c < w.lastTimeStamp := by omega
  have h2 : ¬ w.lastTimeStamp = snowflake.millis c := by omega
  simp only [hmu, Bool.false_eq_true, if_false, h1, h2]

/-- The call `NextID` when the reading is `lastTimeStamp` and the sequence does not wrap. -/
theorem multiWorker.NextID_same_multi (w : multiWorker) (c : time.Time)
    (clock : List time.Time) (hmu : w.mu = false) (h : snowflake.millis c = w.lastTimeStamp)
    (hs0 : 0 ≤ w.sequence) (hs1 : w.sequence < 4095) :
    w.NextID (c :: clock) =
      some (pack (snowflake.millis c) w.datacenterId w.nodeID (w.sequence + 1), none,
        ⟨false, snowflake.millis c, w.nodeID, w.datacenterId, w.sequence + 1⟩, clock) := by
  unfold multiWorker.NextID
  have h1 : ¬ snowflake.millis c < w.lastTimeStamp := by omega
  have h3 : ¬ (w.sequence + 1 = 0) := by omega
  simp only [hmu, Bool.false_eq_true, if_false, h.symm, lt_self_iff_false, if_true,
    sequenceMask_eq_multi, and64_succ_lt_4095 _ hs0 hs1, h3]

/-- The call `NextID` when the reading is `lastTimeStamp` and the sequence wraps. -/
theorem multiWorker.NextID_wrap_multi (w : multiWorker) (c : time.Time)
    (clock : List time.Time) (hmu : w.mu = false) (h : snowflake.millis c = w.lastTimeStamp)
    (hs : w.sequence = 4095) :
    (∀ now rest, snowflake.TilNextMillis w.lastTimeStamp clock = some (now, rest) →
      w.NextID (c :: clock) =
        some (pack now w.datacenterId w.nodeID 0, none,
          ⟨false, now, w.nodeID, w.datacenterId, 0⟩, rest)) ∧
    (snowflake.TilNextMillis w.lastTimeStamp clock = none → w.NextID (c :: clock) = none) := by
  unfold multiWorker.NextID
  simp only [hmu, Bool.false_eq_true, if_false, h.symm, lt_self_iff_false, if_true,
    sequenceMask_eq_multi, hs, and64_succ_eq_4095]
  constructor
  · intro now rest ht; rw [ht]
  · intro ht; rw [ht]

/-- What `GetID` returns with an error leaves the mutex held. -/
theorem multiWorker.GetID_err_multi (w : multiWorker) (t : time.Time) (s : Int) (id : Int)
    (e : Error) (w' : multiWorker) (h : w.GetID t s = some (id, some e, w')) :
    w.mu = false ∧ w'.mu = true ∧ id = 0 ∧ e = Error.ErrForwardTime ∧
    (w.lastTimeStamp ≠ 0 ∧ snowflake.millis t > w.lastTimeStamp) := by
  have hmu : w.mu = false := (multiWorker.GetID_frame_multi _ _ _ _ _ _ h).1
  rw [multiWorker.GetID_free_multi w t s hmu] at h
  split_ifs at h with h1
  · simp only [Option.some.injEq, Prod.mk.injEq] at h
    obtain ⟨hid, he, hw⟩ := h
    subst hw
    exact ⟨hmu, rfl, hid.symm, he.symm, h1⟩
  · simp at h

/-- Beyond the 41 bits of the timestamp the shift reaches the sign bit. -/
theorem pack_overflow_multi (d n s : Int) (hd : 0 ≤ d ∧ d ≤ 31) (hn : 0 ≤ n ∧ n ≤ 31)
    (hs : 0 ≤ s ∧ s ≤ 4095) :
    pack (snowflake.TW_EPOCH + 2 ^ 41) d n s =
      -9223372036854775808 + d * 131072 + n * 4096 + s := by
  unfold pack
  rw [timestampLeftShift_eq_multi, datacenterIdShift_eq, nodeIdShift_eq_multi]
  have e1 : shl64 (sub64 (snowflake.TW_EPOCH + 2 ^ 41) snowflake.TW_EPOCH) 22 =
      -9223372036854775808 := by decide
  have e2 : shl64 d 17 = d * 131072 := by unfold shl64 wrap64; omega
  have e3 : shl64 n 12 = n * 4096 := by unfold shl64 wrap64; omega
  rw [e1, e2, e3]
  rw [or64_eq_add (-9223372036854775808) (d * 131072) 22 (by omega)
    (Dvd.intro (-2199023255552) (by norm_num)) (by omega) (by omega) (by norm_num; omega)
    (by omega)]
  rw [or64_eq_add (-9223372036854775808 + d * 131072) (n * 4096) 17 (by omega)
    (Dvd.intro (-70368744177664 + d) (by ring)) (by omega) (by omega) (by norm_num; omega)
    (by omega)]
  rw [or64_eq_add (-9223372036854775808 + d * 131072 + n * 4096) s 12 (by omega)
    (Dvd.intro (-2251799813685248 + d * 32 + n) (by ring)) (by omega) (by omega)
    (by norm_num; omega) (by omega)]

end multi

namespace single

/-- The call `NextID` when the reading is after `lastTimeStamp`. -/
theorem singleWorker.NextID_later_single (w : singleWorker) (c : time.Time)
    (clock : List time.Time) (hmu : w.mu = false) (h : w.lastTimeStamp < snowflake.millis c) :
    w.NextID (c :: clock) =
      some (pack (snowflake.millis c) w.nodeID 0, none,
        ⟨false, snowflake.millis c, w.nodeID, 0⟩, clock) := by
  unfold singleWorker.NextID
  have h1 : ¬ snowflake.millis c < w.lastTimeStamp := by omega
  have h2 : ¬ w.lastTimeStamp = snowflake.millis c := by omega
  simp only [hmu, Bool.false_eq_true, if_false, h1, h2]

/-- The call `NextID` when the reading is `lastTimeStamp` and the sequence does not wrap. -/
theorem singleWorker.NextID_same_single (w : singleWorker) (c : time.Time)
    (clock : List time.Time) (hmu : w.mu = false) (h : snowflake.millis c = w.lastTimeStamp)
    (hs0 : 0 ≤ w.sequence) (hs1 : w.sequence < 4095) :
    w.NextID (c :: clock) =
      some (pack (snowflake.millis c) w.nodeID (w.sequence + 1), none,
        ⟨false, snowflake.millis c, w.nodeID, w.sequence + 1⟩, clock) := by
  unfold singleWorker.NextID
  have h1 : ¬ snowflake.millis c < w.lastTimeStamp := by omega
  have h3 : ¬ (w.sequence + 1 = 0) := by omega
  simp only [hmu, Bool.false_eq_true, if_false, h.symm, lt_self_iff_false, if_true,
    sequenceMask_eq_single, and64_succ_lt_4095 _ hs0 hs1, h3]

/-- The call `NextID` when the reading is `lastTimeStamp` and the sequence wraps. -/
theorem singleWorker.NextID_wrap_single (w : singleWorker) (c : time.Time)
    (clock : List time.Time) (hmu : w.mu = false) (h : snowflake.millis c = w.lastTimeStamp)
    (hs : w.sequence = 4095) :
    (∀ now rest, snowflake.TilNextMillis w.lastTimeStamp clock = some (now, rest) →
      w.NextID (c :: clock) =
        some (pack now w.nodeID 0, none,
          ⟨false, now, w.nodeID, 0⟩, rest)) ∧
    (snowflake.TilNextMillis w.lastTimeStamp clock = none → w.NextID (c :: clock) = none) := by
  unfold singleWorker.NextID
  simp only [hmu, Bool.false_eq_true, if_false, h.symm, lt_self_iff_false, if_true,
    sequenceMask_eq_single, hs, and64_succ_eq_4095]
  constructor
  · intro now rest ht; rw [ht]
  · intro ht; rw [ht]

/-- What `GetID` returns with an error leaves the mutex held. -/
theorem singleWorker.GetID_err_single (w : singleWorker) (t : time.Time) (s : Int) (id : Int)
    (e : Error) (w' : singleWorker) (h : w.GetID t s = some (id, some e, w')) :
    w.mu = false ∧ w'.mu = true ∧ id = 0 ∧ e = Error.ErrForwardTime ∧
    (w.lastTimeStamp ≠ 0 ∧ snowflake.millis t > w.lastTimeStamp) := by
  have hmu : w.mu = false := (singleWorker.GetID_frame_single _ _ _ _ _ _ h).1
  rw [singleWorker.GetID_free_single w t s hmu] at h
  split_ifs at h with h1
  · simp only [Option.some.injEq, Prod.mk.injEq] at h
    obtain ⟨hid, he, hw⟩ := h
    subst hw
    exact ⟨hmu, rfl, hid.symm, he.symm, h1⟩
  · simp at h

/-- Beyond the 41 bits of the timestamp the shift reaches the sign bit. -/
theorem pack_overflow_single (n s : Int) (hn : 0 ≤ n ∧ n ≤ 1023) (hs : 0 ≤ s ∧ s ≤ 4095) :
    pack (snowflake.TW_EPOCH + 2 ^ 41) n s = -9223372036854775808 + n * 4096 + s := by
  unfold pack
  rw [timestampLeftShift_eq_single, nodeIdShift_eq_single]
  have e1 : shl64 (sub64 (snowflake.TW_EPOCH + 2 ^ 41) snowflake.TW_EPOCH) 22 =
      -9223372036854775808 := by decide
  have e3 : shl64 n 12 = n * 4096 := by unfold shl64 wrap64; omega
  rw [e1, e3]
  rw [or64_eq_add (-9223372036854775808) (n * 4096) 22 (by omega)
    (Dvd.intro (-2199023255552) (by norm_num)) (by omega) (by omega) (by norm_num; omega)
    (by omega)]
  rw [or64_eq_add (-9223372036854775808 + n * 4096) s 12 (by omega)
    (Dvd.intro (-2251799813685248 + n) (by ring)) (by omega) (by omega)
    (by norm_num; omega) (by omega)]

end single

/-! ## The claims about the state machine -/

/-- C15. Invariant of the worker state, both variants: in every state that a worker returned
by `New` reaches by a sequence of `NextID` and `GetID` calls, successful or failing, whatever
the clock reads, `sequence` is in `[0, 4095]` and the identity fields are the values given to
`New`; and any one further call that returns leaves a `lastTimeStamp` that is not below the
one before it. -/
theorem C15_state_invariant (nodeId datacenterId : Int) (n : multi.multiWorker)
    (hn : multi.New nodeId datacenterId = .ok n)
    (nodeID : Int) (m : single.singleWorker) (hm : single.New nodeID = .ok m)
    (calls : List Call) (clock : List time.Time) :
    (∀ rets n' rest, n.run calls clock = some (rets, n', rest) →
      (0 ≤ n'.sequence ∧ n'.sequence ≤ 4095) ∧
      n'.nodeID = nodeId ∧ n'.datacenterId = datacenterId ∧
      ∀ call clock2 rets2 n'' rest2, n'.run [call] clock2 = some (rets2, n'', rest2) →
        n'.lastTimeStamp ≤ n''.lastTimeStamp) ∧
    (∀ rets m' rest, m.run calls clock = some (rets, m', rest) →
      (0 ≤ m'.sequence ∧ m'.sequence ≤ 4095) ∧ m'.nodeID = nodeID ∧
      ∀ call clock2 rets2 m'' rest2, m'.run [call] clock2 = some (rets2, m'', rest2) →
        m'.lastTimeStamp ≤ m''.lastTimeStamp) := by
  obtain ⟨-, -, rfl⟩ := multi.New_ok_multi _ _ _ hn
  obtain ⟨-, rfl⟩ := single.New_ok_single _ _ hm
  constructor
  · intro rets n' rest h
    obtain ⟨a1, a2, a3, -⟩ :=
      multi.multiWorker.run_state_multi calls _ clock rets n' rest (by simp) h
    refine ⟨a1, a2, a3, ?_⟩
    intro call clock2 rets2 n'' rest2 h2
    exact (multi.multiWorker.run_state_multi [call] n' clock2 rets2 n'' rest2 a1 h2).2.2.2
  · intro rets m' rest h
    obtain ⟨a1, a2, -⟩ :=
      single.singleWorker.run_state_single calls _ clock rets m' rest (by simp) h
    refine ⟨a1, a2, ?_⟩
    intro call clock2 rets2 m'' rest2 h2
    exact (single.singleWorker.run_state_single [call] m' clock2 rets2 m'' rest2 a1 h2).2.2

/-- Witness of C15: on `New(1, 1)` and `New(1)`, two `NextID` in one millisecond, a `GetID`
and a `NextID` whose reading is behind, which fails. -/
theorem C15_state_invariant_witness :
    multi.New 1 1 = .ok ⟨false, 0, 1, 1, 0⟩ ∧ single.New 1 = .ok ⟨false, 0, 1, 0⟩ ∧
    (⟨false, 0, 1, 1, 0⟩ : multi.multiWorker).run
        [Call.NextID, Call.NextID, Call.GetID 5 9, Call.NextID]
        [1288834974658000000, 1288834974658999999, 1288834974657000000] =
      some ([⟨Call.NextID, 4329472, none⟩, ⟨Call.NextID, 4329473, none⟩,
          ⟨Call.GetID 5 9, -5405765689543618551, none⟩,
          ⟨Call.NextID, 0, some (multi.Error.ClockMovedBackwards 1)⟩],
        ⟨true, 1288834974658, 1, 1, 1⟩, []) ∧
    ((0 : Int) ≤ 1 ∧ (1 : Int) ≤ 4095) ∧ (1 : Int) = 1 ∧ (1 : Int) = 1 :=
  ⟨rfl, rfl, by decide,
    ((C15_state_invariant 1 1 ⟨false, 0, 1, 1, 0⟩ rfl 1 ⟨false, 0, 1, 0⟩ rfl
      [Call.NextID, Call.NextID, Call.GetID 5 9, Call.NextID]
      [1288834974658000000, 1288834974658999999, 1288834974657000000]).1
      [⟨Call.NextID, 4329472, none⟩, ⟨Call.NextID, 4329473, none⟩,
          ⟨Call.GetID 5 9, -5405765689543618551, none⟩,
          ⟨Call.NextID, 0, some (multi.Error.ClockMovedBackwards 1)⟩]
      ⟨true, 1288834974658, 1, 1, 1⟩ [] (by decide)).1,
    ((C15_state_invariant 1 1 ⟨false, 0, 1, 1, 0⟩ rfl 1 ⟨false, 0, 1, 0⟩ rfl
      [Call.NextID, Call.NextID, Call.GetID 5 9, Call.NextID]
      [1288834974658000000, 1288834974658999999, 1288834974657000000]).1
      [⟨Call.NextID, 4329472, none⟩, ⟨Call.NextID, 4329473, none⟩,
          ⟨Call.GetID 5 9, -5405765689543618551, none⟩,
          ⟨Call.NextID, 0, some (multi.Error.ClockMovedBackwards 1)⟩]
      ⟨true, 1288834974658, 1, 1, 1⟩ [] (by decide)).2.1,
    ((C15_state_invariant 1 1 ⟨false, 0, 1, 1, 0⟩ rfl 1 ⟨false, 0, 1, 0⟩ rfl
      [Call.NextID, Call.NextID, Call.GetID 5 9, Call.NextID]
      [1288834974658000000, 1288834974658999999, 1288834974657000000]).1
      [⟨Call.NextID, 4329472, none⟩, ⟨Call.NextID, 4329473, none⟩,
          ⟨Call.GetID 5 9, -5405765689543618551, none⟩,
          ⟨Call.NextID, 0, some (multi.Error.ClockMovedBackwards 1)⟩]
      ⟨true, 1288834974658, 1, 1, 1⟩ [] (by decide)).2.2.1⟩

/-- C16. `TilNextMillis` waits for a strictly later millisecond: for every `lastTimestamp`
and every sequence of clock readings one of which is above `lastTimestamp`, the call returns,
with a value strictly above `lastTimestamp`; when `lastTimestamp >= 0` that value is the
first reading above `lastTimestamp`, the readings before it are the ones consumed, and it is
`lastTimestamp + 1` when the readings start at most one millisecond after `lastTimestamp`
and advance by at most one millisecond at a time. -/
theorem C16_TilNextMillis (lastTimestamp : Int) (clock : List time.Time)
    (h : ∃ c ∈ clock, lastTimestamp < snowflake.millis c) :
    ∃ timestamp rest, snowflake.TilNextMillis lastTimestamp clock = some (timestamp, rest) ∧
      lastTimestamp < timestamp ∧
      (0 ≤ lastTimestamp →
        (∃ pre c, clock = pre ++ c :: rest ∧ (∀ x ∈ pre, snowflake.millis x ≤ lastTimestamp) ∧
          lastTimestamp < snowflake.millis c ∧ timestamp = snowflake.millis c) ∧
        (List.Chain (fun a b => b ≤ a + 1) lastTimestamp (clock.map snowflake.millis) →
          timestamp = lastTimestamp + 1)) := by
  by_cases h0 : 0 ≤ lastTimestamp
  · obtain ⟨pre, c, rest, e, hpre, hc, hloop⟩ :=
      snowflake.TilNextMillisLoop_first lastTimestamp clock 0 h0 h
    refine ⟨snowflake.millis c, rest, hloop, hc, fun _ => ⟨⟨pre, c, e, hpre, hc, rfl⟩, ?_⟩⟩
    intro hch
    rw [e] at hch
    exact snowflake.first_above_succ lastTimestamp pre lastTimestamp c rest (le_refl _) hpre hc hch
  · exact ⟨0, clock, snowflake.TilNextMillisLoop_done lastTimestamp 0 clock (by omega),
      by omega, fun h1 => absurd h1 h0⟩

/-- Witness of C16: the scenario of `TestTilNextMillis`, the clock is read twice in the
millisecond 1288834974658 and then in the next one. -/
theorem C16_TilNextMillis_witness :
    (∃ c ∈ [(1288834974658200000 : Int), 1288834974658900000, 1288834974659000001, 7],
      (1288834974658 : Int) < snowflake.millis c) ∧
    snowflake.TilNextMillis 1288834974658
        [1288834974658200000, 1288834974658900000, 1288834974659000001, 7] =
      some (1288834974659, [7]) ∧
    ∃ timestamp rest, snowflake.TilNextMillis 1288834974658
        [1288834974658200000, 1288834974658900000, 1288834974659000001, 7] =
          some (timestamp, rest) ∧
      (1288834974658 : Int) < timestamp ∧
      ((0 : Int) ≤ 1288834974658 →
        (∃ pre c, [(1288834974658200000 : Int), 1288834974658900000, 1288834974659000001, 7] =
            pre ++ c :: rest ∧ (∀ x ∈ pre, snowflake.millis x ≤ 1288834974658) ∧
          (1288834974658 : Int) < snowflake.millis c ∧ timestamp = snowflake.millis c) ∧
        (List.Chain (fun a b => b ≤ a + 1) (1288834974658 : Int)
            (([(1288834974658200000 : Int), 1288834974658900000, 1288834974659000001, 7]).map
              snowflake.millis) →
          timestamp = 1288834974658 + 1)) :=
  ⟨by decide, by decide,
    C16_TilNextMillis 1288834974658
      [1288834974658200000, 1288834974658900000, 1288834974659000001, 7] (by decide)⟩

/-- C17. Step function of `NextID`, both variants: on a worker with the mutex free, state
`(last, seq)` with `seq` in `[0, 4095]`, and a reading `now >= last`, (a) if `now > last`
the sequence becomes 0 and the ID is the packing of `now` and 0; (b) if `now = last` and
`seq < 4095` the sequence becomes `seq + 1` and the ID is the packing of `now` and `seq + 1`;
(c) if `now = last` and `seq = 4095` the sequence becomes 0 and, `now'` being what
`TilNextMillis(last)` returns (it does return when a later reading exceeds `last`),
`now' > last` and the ID is the packing of `now'` and 0. In every case the call returns no
error, releases the mutex, and `lastTimeStamp` becomes the timestamp that was packed, the
packing of `t` and `s` being
`((t - TW_EPOCH) << 22) | (datacenter << 17) | (node << 12) | s`
(`single`: `((t - TW_EPOCH) << 22) | (node << 12) | s`). -/
theorem C17_NextID_step (n : multi.multiWorker) (m : single.singleWorker)
    (hn : n.mu = false) (hm : m.mu = false)
    (hns : 0 ≤ n.sequence ∧ n.sequence ≤ 4095) (hms : 0 ≤ m.sequence ∧ m.sequence ≤ 4095)
    (c : time.Time) (clock : List time.Time) :
    ((n.lastTimeStamp < snowflake.millis c →
        n.NextID (c :: clock) = some (or64 (or64 (or64
            (shl64 (sub64 (snowflake.millis c) snowflake.TW_EPOCH) 22)
            (shl64 n.datacenterId 17)) (shl64 n.nodeID 12)) 0, none,
          ⟨false, snowflake.millis c, n.nodeID, n.datacenterId, 0⟩, clock)) ∧
      (snowflake.millis c = n.lastTimeStamp → n.sequence < 4095 →
        n.NextID (c :: clock) = some (or64 (or64 (or64
            (shl64 (sub64 (snowflake.millis c) snowflake.TW_EPOCH) 22)
            (shl64 n.datacenterId 17)) (shl64 n.nodeID 12)) (n.sequence + 1), none,
          ⟨false, snowflake.millis c, n.nodeID, n.datacenterId, n.sequence + 1⟩, clock)) ∧
      (snowflake.millis c = n.lastTimeStamp → n.sequence = 4095 →
        (∀ now' rest, snowflake.TilNextMillis n.lastTimeStamp clock = some (now', rest) →
          n.lastTimeStamp < now' ∧
          n.NextID (c :: clock) = some (or64 (or64 (or64
              (shl64 (sub64 now' snowflake.TW_EPOCH) 22)
              (shl64 n.datacenterId 17)) (shl64 n.nodeID 12)) 0, none,
            ⟨false, now', n.nodeID, n.datacenterId, 0⟩, rest)) ∧
        ((∃ x ∈ clock, n.lastTimeStamp < snowflake.millis x) →
          ∃ now' rest, snowflake.TilNextMillis n.lastTimeStamp clock = some (now', rest)))) ∧
    ((m.lastTimeStamp < snowflake.millis c →
        m.NextID (c :: clock) = some (or64 (or64
            (shl64 (sub64 (snowflake.millis c) snowflake.TW_EPOCH) 22)
            (shl64 m.nodeID 12)) 0, none,
          ⟨false, snowflake.millis c, m.nodeID, 0⟩, clock)) ∧
      (snowflake.millis c = m.lastTimeStamp → m.sequence < 4095 →
        m.NextID (c :: clock) = some (or64 (or64
            (shl64 (sub64 (snowflake.millis c) snowflake.TW_EPOCH) 22)
            (shl64 m.nodeID 12)) (m.sequence + 1), none,
          ⟨false, snowflake.millis c, m.nodeID, m.sequence + 1⟩, clock)) ∧
      (snowflake.millis c = m.lastTimeStamp → m.sequence = 4095 →
        (∀ now' rest, snowflake.TilNextMillis m.lastTimeStamp clock = some (now', rest) →
          m.lastTimeStamp < now' ∧
          m.NextID (c :: clock) = some (or64 (or64
              (shl64 (sub64 now' snowflake.TW_EPOCH) 22)
              (shl64 m.nodeID 12)) 0, none,
            ⟨false, now', m.nodeID, 0⟩, rest)) ∧
        ((∃ x ∈ clock, m.lastTimeStamp < snowflake.millis x) →
          ∃ now' rest, snowflake.TilNextMillis m.lastTimeStamp clock = some (now', rest)))) := by
  refine ⟨⟨fun h => ?_, fun h hs => ?_, fun h hs => ⟨fun now' rest ht => ⟨?_, ?_⟩, ?_⟩⟩,
    ⟨fun h => ?_, fun h hs => ?_, fun h hs => ⟨fun now' rest ht => ⟨?_, ?_⟩, ?_⟩⟩⟩
  · exact multi.multiWorker.NextID_later_multi n c clock hn h
  · exact multi.multiWorker.NextID_same_multi n c clock hn h hns.1 hs
  · exact (snowflake.TilNextMillis_spec _ _ _ _ ht).1
  · exact (multi.multiWorker.NextID_wrap_multi n c clock hn h hs).1 now' rest ht
  · exact TilNextMillis_returns _ _
  · exact single.singleWorker.NextID_later_single m c clock hm h
  · exact single.singleWorker.NextID_same_single m c clock hm h hms.1 hs
  · exact (snowflake.TilNextMillis_spec _ _ _ _ ht).1
  · exact (single.singleWorker.NextID_wrap_single m c clock hm h hs).1 now' rest ht
  · exact TilNextMillis_returns _ _

/-- Witness of C17: workers at the end of the sequences of the millisecond 1288834974658;
the clock reads that millisecond, once more, and then the next one. -/
theorem C17_NextID_step_witness :
    (⟨false, 1288834974658, 1, 1, 4095⟩ : multi.multiWorker).mu = false ∧
    (⟨false, 1288834974658, 1, 4095⟩ : single.singleWorker).mu = false ∧
    ((0 : Int) ≤ 4095 ∧ (4095 : Int) ≤ 4095) ∧
    snowflake.millis 1288834974658000000 = 1288834974658 ∧
    snowflake.TilNextMillis 1288834974658 [1288834974658500000, 1288834974659000000] =
      some (1288834974659, []) ∧
    ((1288834974658 : Int) < 1288834974659 ∧
      (⟨false, 1288834974658, 1, 1, 4095⟩ : multi.multiWorker).NextID
          (1288834974658000000 :: [1288834974658500000, 1288834974659000000]) =
        some (or64 (or64 (or64 (shl64 (sub64 1288834974659 snowflake.TW_EPOCH) 22)
            (shl64 1 17)) (shl64 1 12)) 0, none, ⟨false, 1288834974659, 1, 1, 0⟩, [])) ∧
    ((1288834974658 : Int) < 1288834974659 ∧
      (⟨false, 1288834974658, 1, 4095⟩ : single.singleWorker).NextID
          (1288834974658000000 :: [1288834974658500000, 1288834974659000000]) =
        some (or64 (or64 (shl64 (sub64 1288834974659 snowflake.TW_EPOCH) 22)
            (shl64 1 12)) 0, none, ⟨false, 1288834974659, 1, 0⟩, [])) :=
  ⟨rfl, rfl, by decide, by decide, by decide,
    ((C17_NextID_step ⟨false, 1288834974658, 1, 1, 4095⟩ ⟨false, 1288834974658, 1, 4095⟩
      rfl rfl (by decide) (by decide) 1288834974658000000
      [1288834974658500000, 1288834974659000000]).1.2.2 (by decide) rfl).1
      1288834974659 [] (by decide),
    ((C17_NextID_step ⟨false, 1288834974658, 1, 1, 4095⟩ ⟨false, 1288834974658, 1, 4095⟩
      rfl rfl (by decide) (by decide) 1288834974658000000
      [1288834974658500000, 1288834974659000000]).2.2.2 (by decide) rfl).1
      1288834974659 [] (by decide)⟩

/-- C18. Lock left held on error, both variants, the mutex being the flag `mu`: `NextID` and
`GetID` take the mutex on entry (on a held mutex they never return) and a call that returns
without error has released it; on the clock-regression branch of `NextID` and on the
forward-time branch of `GetID` the call returns with the mutex held, and a call that returns
an error always does; hence after such an error no later `NextID` or `GetID` call on that
worker returns, whatever the calls and the clock are. -/
theorem C18_lock_left_held :
    (∀ n : multi.multiWorker,
      (n.mu = true → (∀ clock, n.NextID clock = none) ∧ (∀ t s, n.GetID t s = none)) ∧
      (∀ clock id n' rest, n.NextID clock = some (id, none, n', rest) →
        n.mu = false ∧ n'.mu = false) ∧
      (∀ t s id n', n.GetID t s = some (id, none, n') → n.mu = false ∧ n'.mu = false) ∧
      (n.mu = false → ∀ c clock, snowflake.millis c < n.lastTimeStamp →
        ∃ e n', n.NextID (c :: clock) = some (0, some e, n', clock) ∧ n'.mu = true) ∧
      (n.mu = false → ∀ t s, n.lastTimeStamp ≠ 0 ∧ snowflake.millis t > n.lastTimeStamp →
        ∃ n', n.GetID t s = some (0, some multi.Error.ErrForwardTime, n') ∧ n'.mu = true) ∧
      (∀ clock id e n' rest, n.NextID clock = some (id, some e, n', rest) →
        n'.mu = true ∧ ∀ call calls clock2, n'.run (call :: calls) clock2 = none) ∧
      (∀ t s id e n', n.GetID t s = some (id, some e, n') →
        n'.mu = true ∧ ∀ call calls clock2, n'.run (call :: calls) clock2 = none)) ∧
    (∀ m : single.singleWorker,
      (m.mu = true → (∀ clock, m.NextID clock = none) ∧ (∀ t s, m.GetID t s = none)) ∧
      (∀ clock id m' rest, m.NextID clock = some (id, none, m', rest) →
        m.mu = false ∧ m'.mu = false) ∧
      (∀ t s id m', m.GetID t s = some (id, none, m') → m.mu = false ∧ m'.mu = false) ∧
      (m.mu = false → ∀ c clock, snowflake.millis c < m.lastTimeStamp →
        ∃ e m', m.NextID (c :: clock) = some (0, some e, m', clock) ∧ m'.mu = true) ∧
      (m.mu = false → ∀ t s, m.lastTimeStamp ≠ 0 ∧ snowflake.millis t > m.lastTimeStamp →
        ∃ m', m.GetID t s = some (0, some single.Error.ErrForwardTime, m') ∧ m'.mu = true) ∧
      (∀ clock id e m' rest, m.NextID clock = some (id, some e, m', rest) →
        m'.mu = true ∧ ∀ call calls clock2, m'.run (call :: calls) clock2 = none) ∧
      (∀ t s id e m', m.GetID t s = some (id, some e, m') →
        m'.mu = true ∧ ∀ call calls clock2, m'.run (call :: calls) clock2 = none)) := by
  constructor
  · intro n
    refine ⟨fun hmu => ⟨fun clock => ?_, fun t s => ?_⟩, ?_, ?_, ?_, ?_, ?_, ?_⟩
    · unfold multi.multiWorker.NextID; rw [if_pos hmu]
    · unfold multi.multiWorker.GetID; rw [if_pos hmu]
    · intro clock id n' rest h
      obtain ⟨h1, h2, -⟩ := multi.multiWorker.NextID_ok_multi _ _ _ _ _ h
      exact ⟨h1, h2⟩
    · intro t s id n' h
      obtain ⟨h1, -, -, -, -, h2⟩ := multi.multiWorker.GetID_frame_multi _ _ _ _ _ _ h
      exact ⟨h1, by rw [h2 rfl]; exact h1⟩
    · intro hmu c clock hlt
      exact ⟨_, _, multi.multiWorker.NextID_regress_multi n c clock hmu hlt, rfl⟩
    · intro hmu t s hfw
      refine ⟨{ n with mu := true }, ?_, rfl⟩
      rw [multi.multiWorker.GetID_free_multi n t s hmu, if_pos hfw]
    · intro clock id e n' rest h
      obtain ⟨-, -, hw, -⟩ := multi.multiWorker.NextID_err_multi _ _ _ _ _ _ h
      subst hw
      exact ⟨rfl, fun call calls clock2 => multi.multiWorker.run_held_multi _ rfl call calls clock2⟩
    · intro t s id e n' h
      obtain ⟨-, h2, -⟩ := multi.multiWorker.GetID_err_multi _ _ _ _ _ _ h
      exact ⟨h2, fun call calls clock2 => multi.multiWorker.run_held_multi _ h2 call calls clock2⟩
  · intro m
    refine ⟨fun hmu => ⟨fun clock => ?_, fun t s => ?_⟩, ?_, ?_, ?_, ?_, ?_, ?_⟩
    · unfold single.singleWorker.NextID; rw [if_pos hmu]
    · unfold single.singleWorker.GetID; rw [if_pos hmu]
    · intro clock id m' rest h
      obtain ⟨h1, h2, -⟩ := single.singleWorker.NextID_ok_single _ _ _ _ _ h
      exact ⟨h1, h2⟩
    · intro t s id m' h
      obtain ⟨h1, -, -, -, h2⟩ := single.singleWorker.GetID_frame_single _ _ _ _ _ _ h
      exact ⟨h1, by rw [h2 rfl]; exact h1⟩
    · intro hmu c clock hlt
      exact ⟨_, _, single.singleWorker.NextID_regress_single m c clock hmu hlt, rfl⟩
    · intro hmu t s hfw
      refine ⟨{ m with mu := true }, ?_, rfl⟩
      rw [single.singleWorker.GetID_free_single m t s hmu, if_pos hfw]
    · intro clock id e m' rest h
      obtain ⟨-, -, hw, -⟩ := single.singleWorker.NextID_err_single _ _ _ _ _ _ h
      subst hw
      exact ⟨rfl, fun call calls clock2 =>
        single.singleWorker.run_held_single _ rfl call calls clock2⟩
    · intro t s id e m' h
      obtain ⟨-, h2, -⟩ := single.singleWorker.GetID_err_single _ _ _ _ _ _ h
      exact ⟨h2, fun call calls clock2 =>
        single.singleWorker.run_held_single _ h2 call calls clock2⟩

/-- C19. The sign bit within the 41 bits of the timestamp, both variants: for every clock
reading `now` with `0 <= now - TW_EPOCH < 2^41`, every identity within its widths and every
sequence in `[0, 4095]`, the packed ID is a non-negative `int64`; for
`now - TW_EPOCH = 2^41` the shift by 22 gives the minimum `int64` and the packed ID is
negative. -/
theorem C19_sign_bit (now d n m s : Int)
    (h0 : 0 ≤ now - snowflake.TW_EPOCH) (h1 : now - snowflake.TW_EPOCH < 2 ^ 41)
    (hd : 0 ≤ d ∧ d ≤ 31) (hn : 0 ≤ n ∧ n ≤ 31) (hm : 0 ≤ m ∧ m ≤ 1023)
    (hs : 0 ≤ s ∧ s ≤ 4095) :
    (0 ≤ multi.pack now d n s ∧ multi.pack now d n s < 2 ^ 63) ∧
    (0 ≤ single.pack now m s ∧ single.pack now m s < 2 ^ 63) ∧
    shl64 (sub64 (snowflake.TW_EPOCH + 2 ^ 41) snowflake.TW_EPOCH) 22 = -2 ^ 63 ∧
    multi.pack (snowflake.TW_EPOCH + 2 ^ 41) d n s < 0 ∧
    single.pack (snowflake.TW_EPOCH + 2 ^ 41) m s < 0 := by
  rw [multi.pack_eq_sum_multi now d n s (by omega) (by omega) hd.1 hd.2 hn.1 hn.2 hs.1 hs.2,
    single.pack_eq_sum_single now m s (by omega) (by omega) hm.1 hm.2 hs.1 hs.2,
    multi.pack_overflow_multi d n s hd hn hs, single.pack_overflow_single m s hm hs]
  refine ⟨⟨by omega, by omega⟩, ⟨by omega, by omega⟩, by decide, by omega, by omega⟩

/-- Witness of C19: the last millisecond of the range, with every field at its maximum. -/
theorem C19_sign_bit_witness :
    ((0 : Int) ≤ 3487858230208 - snowflake.TW_EPOCH ∧
      (3487858230208 : Int) - snowflake.TW_EPOCH < 2 ^ 41) ∧
    multi.pack 3487858230208 31 31 4095 = 9223372036854775807 ∧
    single.pack 3487858230208 1023 4095 = 9223372036854775807 ∧
    multi.pack 3487858230209 0 0 0 = -9223372036854775808 ∧
    (0 ≤ multi.pack 3487858230208 31 31 4095 ∧ multi.pack 3487858230208 31 31 4095 < 2 ^ 63) ∧
    (0 ≤ single.pack 3487858230208 1023 4095 ∧
      single.pack 3487858230208 1023 4095 < 2 ^ 63) :=
  ⟨by decide, by decide, by decide, by decide,
    (C19_sign_bit 3487858230208 31 31 1023 4095 (by decide) (by decide) (by decide) (by decide)
      (by decide) (by decide)).1,
    (C19_sign_bit 3487858230208 31 31 1023 4095 (by decide) (by decide) (by decide) (by decide)
      (by decide) (by decide)).2.1⟩

/-- C20. `GetID` neither validates nor masks its sequence argument, both variants: on the
worker with node 0 (and datacenter 0), `GetID(t, 4096)` succeeds and returns an ID whose
`Sequence()` is 0 and whose `Node()` is 1, the ID that the worker with node 1 returns for
`GetID(t, 0)`. -/
theorem C20_GetID_sequence_unchecked :
    (multi.New 0 0 = .ok ⟨false, 0, 0, 0, 0⟩ ∧ multi.New 1 0 = .ok ⟨false, 0, 1, 0, 0⟩ ∧
      (⟨false, 0, 0, 0, 0⟩ : multi.multiWorker).GetID 1288834974658000000 4096 =
        some (4198400, none, ⟨false, 0, 0, 0, 0⟩) ∧
      multi.MultiWorkerID.Sequence 4198400 = 0 ∧ multi.MultiWorkerID.Node 4198400 = 1 ∧
      multi.MultiWorkerID.DataCenter 4198400 = 0 ∧
      multi.MultiWorkerID.Time 4198400 = 1288834974658 ∧
      (⟨false, 0, 1, 0, 0⟩ : multi.multiWorker).GetID 1288834974658000000 0 =
        some (4198400, none, ⟨false, 0, 1, 0, 0⟩)) ∧
    (single.New 0 = .ok ⟨false, 0, 0, 0⟩ ∧ single.New 1 = .ok ⟨false, 0, 1, 0⟩ ∧
      (⟨false, 0, 0, 0⟩ : single.singleWorker).GetID 1288834974658000000 4096 =
        some (4198400, none, ⟨false, 0, 0, 0⟩) ∧
      single.SingleWorkerID.Sequence 4198400 = 0 ∧ single.SingleWorkerID.Node 4198400 = 1 ∧
      single.SingleWorkerID.Time 4198400 = 1288834974658 ∧
      (⟨false, 0, 1, 0⟩ : single.singleWorker).GetID 1288834974658000000 0 =
        some (4198400, none, ⟨false, 0, 1, 0⟩)) :=
  ⟨⟨rfl, rfl, by decide, by decide, by decide, by decide, by decide, by decide⟩,
    ⟨rfl, rfl, by decide, by decide, by decide, by decide, by decide⟩⟩
